import Mathlib

/-!
# Minions (WhyLayer dashboard): the log-analysis engine and the source adapters

A shallow embedding of `performLogAnalysis` from `src/Minions-master/app.js`
(lines 1527-1574), of the four source adapters and of `SourceManager`
(lines 182-364), of `askGemini`, `renderErrorChart`, `initHealthMap`,
`calculateServiceRisk` and the service-health part of `updateReplayVisuals`
with `window.timelineReplayData` of `data.js`, together with the parts of the
JavaScript object model the functions rely on:

* a plain object used as a string-keyed map: own-property enumeration order
  (array-index keys first, ascending; then the other keys in insertion order)
  and the inherited `__proto__` accessor of `Object.prototype`;
* `Set` with insertion order;
* a stable `Array.prototype.sort`;
* the binary64 quotient `errors / total` and its comparison with the literal `0.1`.

A JavaScript string is rendered as a Lean `String`.  Where the analysis cuts a
string at a position (`timestamp.substring(0, 5)`), the string is taken as the
sequence of its UTF-16 code units, and the keys of `timelineData` are such
sequences; the cuts made by the adapters count characters, which is the same
for text of the Basic Multilingual Plane.  The built-in `toLowerCase` is
modelled on ASCII, and is a parameter where a statement is about the lower-cased
text.  Counters are `Nat` (a JavaScript number counts exactly up to 2^53).
The network is an input: a `fetchLogs` takes the response to its request, and
`new Date(x).toISOString()` is a parameter of the functions that call it.
-/

namespace Minions

/-! ## Data model -/

/-- A normalized log entry.  `timestamp = none` is the value `undefined`, which
`FakeprodAdapter.normalize` produces (`timestamp: entry.time`) for a raw event
without a `time` field; `cause = none` is `null` / `undefined`. -/
structure LogEntry where
  timestamp : Option String
  service : String
  level : String
  message : String
  cause : Option String
deriving DecidableEq, Repr

/-- The per-service record `{ name, total, errors, info, causes, status }`;
`causes` is a `Set`, kept as the list of its elements in insertion order. -/
structure ServiceStats where
  name : String
  total : Nat
  errors : Nat
  info : Nat
  causes : List String
  status : String
deriving DecidableEq, Repr

/-- The snapshot `{ service, time, cause }` stored in `firstFailure`. -/
structure FirstFailure where
  service : String
  time : String
  cause : String
deriving DecidableEq, Repr

/-- The returned object `{ stats: sortedStats, firstFailure, timelineData }`.
Both maps are plain objects, given as their own properties in enumeration order;
the keys of `timelineData`, results of `substring`, are given by their code units. -/
structure Analysis where
  stats : List (String × ServiceStats)
  firstFailure : Option FirstFailure
  timelineData : List (List Nat × Nat)
deriving DecidableEq, Repr

/-! ## Plain objects as maps -/

/-- Value of a string of decimal digits, `none` when a character is not a digit. -/
def digitsValue : List Char → Nat → Option Nat
  | [], acc => some acc
  | c :: cs, acc =>
    if c.isDigit then digitsValue cs (10 * acc + (c.toNat - 48)) else none

/-- The array index denoted by a property key: the key is the canonical decimal
form of an integer in `[0, 2^32 - 2]` (no sign, no leading zero). -/
def arrayIndex (k : String) : Option Nat :=
  match k.data with
  | [] => none
  | [c] => if c.isDigit then some (c.toNat - 48) else none
  | c :: cs =>
    if c = '0' then none
    else
      match digitsValue (c :: cs) 0 with
      | some n => if n < 4294967295 then some n else none
      | none => none

/-- The UTF-16 code units of a character: the character itself up to `U+FFFF`,
a pair of surrogates above. -/
def charUnits (c : Char) : List Nat :=
  if c.toNat < 65536 then [c.toNat]
  else [55296 + (c.toNat - 65536) / 1024, 56320 + (c.toNat - 65536) % 1024]

/-- The sequence of UTF-16 code units of a string; `length`, `substring` and
the other index-based string methods of JavaScript count these. -/
def toCodeUnits (s : String) : List Nat :=
  s.data.flatMap charUnits

/-- Value of a sequence of decimal digits given by their code units, `none`
when a unit is not a digit. -/
def unitDigitsValue : List Nat → Nat → Option Nat
  | [], acc => some acc
  | u :: us, acc =>
    if 48 ≤ u ∧ u ≤ 57 then unitDigitsValue us (10 * acc + (u - 48)) else none

/-- The array index denoted by a key that is given by its code units. -/
def unitsIndex (k : List Nat) : Option Nat :=
  match k with
  | [] => none
  | [u] => if 48 ≤ u ∧ u ≤ 57 then some (u - 48) else none
  | u :: us =>
    if u = 48 then none
    else
      match unitDigitsValue (u :: us) 0 with
      | some n => if n < 4294967295 then some n else none
      | none => none

/-- A type of property keys, with the array index that a key denotes.  A key is
a Lean string, or a JavaScript string given by its code units: a key that
`substring` cuts out of a string can end in the middle of a surrogate pair, and
such a string is no Lean string. -/
class PropertyKey (κ : Type) where
  arrayIndex : κ → Option Nat

instance : PropertyKey String := ⟨arrayIndex⟩

instance : PropertyKey (List Nat) := ⟨unitsIndex⟩

/-- Own-property read `o[k]` restricted to own properties. -/
def getOwn {κ α : Type} [DecidableEq κ] : List (κ × α) → κ → Option α
  | [], _ => none
  | (k', v) :: rest, k => if k' = k then some v else getOwn rest k

/-- Position of a new array-index key `k` (index `n`): after the smaller
indices, before the larger ones and before every other key. -/
def insertIndexKey {κ α : Type} [PropertyKey κ] (n : Nat) (k : κ) (v : α) :
    List (κ × α) → List (κ × α)
  | [] => [(k, v)]
  | (k', v') :: rest =>
    match PropertyKey.arrayIndex k' with
    | some m =>
      if m < n then (k', v') :: insertIndexKey n k v rest
      else (k, v) :: (k', v') :: rest
    | none => (k, v) :: (k', v') :: rest

/-- Creation of a property that the object does not have yet. -/
def addOwn {κ α : Type} [PropertyKey κ] (o : List (κ × α)) (k : κ) (v : α) :
    List (κ × α) :=
  match PropertyKey.arrayIndex k with
  | some n => insertIndexKey n k v o
  | none => o ++ [(k, v)]

/-- In-place change of the value stored under `k`; the position is kept. -/
def modifyOwn {κ α : Type} [DecidableEq κ] (o : List (κ × α)) (k : κ) (f : α → α) :
    List (κ × α) :=
  o.map (fun p => if p.1 = k then (p.1, f p.2) else p)

/-- Definition of the own data property `k`: an existing property keeps its
place and takes the new value, a new one is created. -/
def putOwn {κ α : Type} [DecidableEq κ] [PropertyKey κ] (o : List (κ × α)) (k : κ) (v : α) :
    List (κ × α) :=
  match getOwn o k with
  | some _ => modifyOwn o k (fun _ => v)
  | none => addOwn o k v

/-- `Object.fromEntries(entries)`: the entries are defined one after the other
on a fresh object. -/
def fromEntries {κ α : Type} [DecidableEq κ] [PropertyKey κ] (entries : List (κ × α)) :
    List (κ × α) :=
  entries.foldl (fun o p => putOwn o p.1 p.2) []

/-- The object `stats = {}` of `performLogAnalysis`: its own properties and the
object that an assignment to `stats["__proto__"]` has installed as prototype
(the setter inherited from `Object.prototype` changes the prototype and
creates no own property). -/
structure StatsObject where
  own : List (String × ServiceStats)
  proto : Option ServiceStats
deriving DecidableEq, Repr

/-- The assignment `stats[s] = v`, `v` an object. -/
def StatsObject.assign (o : StatsObject) (s : String) (v : ServiceStats) : StatsObject :=
  if s = "__proto__" then { o with proto := some v }
  else { o with own := putOwn o.own s v }

/-- The read `stats[s]`.  Every key read by `performLogAnalysis` has been
assigned before, so names inherited from further up the prototype chain are
never reached and are left out. -/
def StatsObject.get (o : StatsObject) (s : String) : Option ServiceStats :=
  if s = "__proto__" then o.proto else getOwn o.own s

/-- Mutation of the record that `stats[s]` evaluates to. -/
def StatsObject.modify (o : StatsObject) (s : String) (f : ServiceStats → ServiceStats) :
    StatsObject :=
  if s = "__proto__" then { o with proto := o.proto.map f }
  else { o with own := modifyOwn o.own s f }

/-! ## Sets -/

/-- `Set.prototype.add`. -/
def setAdd (s : List String) (x : String) : List String :=
  if x ∈ s then s else s ++ [x]

/-- `[...new Set(xs)]`: the distinct elements in order of first occurrence. -/
def newSet (xs : List String) : List String :=
  xs.foldl setAdd []

/-! ## Numbers: the error rate -/

/-- Nearest integer to `n / d`, ties to the even one. -/
def roundHalfEven (n d : Nat) : Nat :=
  let q := n / d
  let r := n % d
  if 2 * r < d then q
  else if d < 2 * r then q + 1
  else if q % 2 = 0 then q else q + 1

/-- For `0 < e`, the least `j` with `t ≤ e * 2^j` (searched up to `fuel`). -/
def quotientShift (e t : Nat) : Nat → Nat
  | 0 => 0
  | fuel + 1 => if t ≤ e then 0 else quotientShift (2 * e) t fuel + 1

/-- A non-negative binary64 value `significand / 2^scale`. -/
structure Double where
  significand : Nat
  scale : Nat
deriving DecidableEq, Repr

/-- The binary64 quotient `e / t` for `0 ≤ e ≤ t`, `0 < t` (round to nearest,
ties to even): the scale is chosen so that the exact quotient times `2^scale`
lies in `[2^52, 2^53)`, then the significand is rounded.  The result is a
normal number as long as `t < 2^1022`. -/
def doubleQuotient (e t : Nat) : Double :=
  let j := quotientShift e t t
  { significand := roundHalfEven (e * 2 ^ (52 + j)) t, scale := 52 + j }

/-- The comparison `x > 0.1`; the literal `0.1` is the binary64 number
`0x3FB999999999999A = 7205759403792794 / 2^56`. -/
def Double.gtTenth (x : Double) : Bool :=
  decide (7205759403792794 * 2 ^ x.scale < x.significand * 2 ^ 56)

/-! ## performLogAnalysis -/

/-- The record created for a discovered service. -/
def blankStats (s : String) : ServiceStats :=
  { name := s, total := 0, errors := 0, info := 0, causes := [], status := "Healthy" }

/-- `log.timestamp.substring(0, 5)`: the first five code units of the timestamp
(all of them when there are fewer). -/
def substring05 (ts : String) : List Nat :=
  (toCodeUnits ts).take 5

/-- `stats[serviceName].total++; stats[serviceName].errors++;
if (log.cause) stats[serviceName].causes.add(log.cause)`. -/
def countError (cause : Option String) (s : ServiceStats) : ServiceStats :=
  { s with
    total := s.total + 1
    errors := s.errors + 1
    causes :=
      match cause with
      | some c => if c = "" then s.causes else setAdd s.causes c
      | none => s.causes }

/-- `stats[serviceName].total++; stats[serviceName].info++`. -/
def countOther (s : ServiceStats) : ServiceStats :=
  { s with total := s.total + 1, info := s.info + 1 }

/-- `timelineData[hourMin] = (timelineData[hourMin] || 0) + 1`.  A key has at
most five code units, so it is none of the names of `Object.prototype`. -/
def bumpBucket (timelineData : List (List Nat × Nat)) (hourMin : List Nat) :
    List (List Nat × Nat) :=
  putOwn timelineData hourMin ((getOwn timelineData hourMin).getD 0 + 1)

/-- The variables the loop over `logs` works on. -/
structure PassState where
  stats : StatsObject
  timelineData : List (List Nat × Nat)
  firstFailure : Option FirstFailure
deriving DecidableEq, Repr

/-- The object `stats` after `services.forEach(s => { stats[s] = ... })`. -/
def initStats (services : List String) : StatsObject :=
  services.foldl (fun o s => o.assign s (blankStats s)) ⟨[], none⟩

/-- The body of `logs.forEach(log => ...)`.  `log.timestamp.substring` throws a
`TypeError` when the timestamp is `undefined`. -/
def logStep (st : PassState) (log : LogEntry) : Except String PassState :=
  let serviceName := log.service
  match st.stats.get serviceName with
  | none => pure st
  | some _ =>
    if log.level = "error" then
      let stats := st.stats.modify serviceName (countError log.cause)
      match log.timestamp with
      | none => throw "TypeError: Cannot read properties of undefined (reading 'substring')"
      | some ts =>
        let hourMin := substring05 ts
        pure
          { stats := stats
            timelineData := bumpBucket st.timelineData hourMin
            firstFailure :=
              match st.firstFailure with
              | some ff => some ff
              | none => some { service := serviceName, time := ts, cause := log.message } }
    else
      pure { st with stats := st.stats.modify serviceName countOther }

/-- The body of `Object.values(stats).forEach(s => ...)`. -/
def deriveStatus (s : ServiceStats) : ServiceStats :=
  let errorRate : Double := if 0 < s.total then doubleQuotient s.errors s.total else ⟨0, 0⟩
  if s.errors = 0 then { s with status := "Healthy" }
  else if errorRate.gtTenth then { s with status := "Critical" }
  else { s with status := "Degraded" }

/-- The comparator `([, a], [, b]) => b.errors - a.errors` returns a value `≤ 0`. -/
def errorsDescending (a b : String × ServiceStats) : Prop :=
  b.2.errors ≤ a.2.errors

instance : DecidableRel errorsDescending :=
  fun a b => inferInstanceAs (Decidable (b.2.errors ≤ a.2.errors))

instance : IsTotal (String × ServiceStats) errorsDescending :=
  ⟨fun a b => Nat.le_total b.2.errors a.2.errors⟩

instance : IsTrans (String × ServiceStats) errorsDescending :=
  ⟨fun _ _ _ hab hbc => Nat.le_trans hbc hab⟩

/-- The function `performLogAnalysis(logs)`.  `Array.prototype.sort` is stable,
which for this comparator fixes its result; it is computed by insertion. -/
def performLogAnalysis (logs : List LogEntry) : Except String Analysis := do
  let services := newSet (logs.map (fun l => l.service))
  let stats := initStats services
  let st ← logs.foldlM logStep { stats := stats, timelineData := [], firstFailure := none }
  let entries := st.stats.own.map (fun p => (p.1, deriveStatus p.2))
  let sortedStats := fromEntries (entries.insertionSort errorsDescending)
  pure { stats := sortedStats, firstFailure := st.firstFailure, timelineData := st.timelineData }

/-! ## Definitions used in the statements and proofs -/

/-- The keys of an object, in enumeration order. -/
def keysOf {κ α : Type} (o : List (κ × α)) : List κ :=
  o.map Prod.fst

/-- The services that obtain an own property of `stats`. -/
def ownServices (services : List String) : List String :=
  services.filter (fun s => decide (s ≠ "__proto__"))

/-- What one entry does to the record of service `k`. -/
def tallyStep (k : String) (v : ServiceStats) (log : LogEntry) : ServiceStats :=
  if log.service = k then
    if log.level = "error" then countError log.cause v else countOther v
  else v

/-- What one entry does to `timelineData` once its service is known to `stats`. -/
def timelineStep (tl : List (List Nat × Nat)) (log : LogEntry) : List (List Nat × Nat) :=
  if log.level = "error" then
    match log.timestamp with
    | some ts => bumpBucket tl (substring05 ts)
    | none => tl
  else tl

/-- What one entry does to `firstFailure` once its service is known to `stats`. -/
def firstFailureStep (ff : Option FirstFailure) (log : LogEntry) : Option FirstFailure :=
  match ff with
  | some f => some f
  | none =>
    if log.level = "error" then
      match log.timestamp with
      | some ts => some { service := log.service, time := ts, cause := log.message }
      | none => none
    else none

/-- No own property of `stats` is named `__proto__`. -/
def NoProtoKey (o : StatsObject) : Prop :=
  ∀ p ∈ o.own, p.1 ≠ "__proto__"

/-- The record that the returned `stats` holds for service `s`. -/
def finalStats (s : String) (logs : List LogEntry) : ServiceStats :=
  deriveStatus (logs.foldl (tallyStep s) (blankStats s))

/-- The state in which the loop over `logs` starts. -/
def startState (logs : List LogEntry) : PassState :=
  { stats := initStats (newSet (logs.map (fun l => l.service)))
    timelineData := []
    firstFailure := none }

/-- What `performLogAnalysis` returns from the state the loop ends in. -/
def finish (st : PassState) : Analysis :=
  { stats := fromEntries
      ((st.stats.own.map (fun p => (p.1, deriveStatus p.2))).insertionSort errorsDescending)
    firstFailure := st.firstFailure
    timelineData := st.timelineData }

/-- The services that are keys of the returned `stats`. -/
def statsKeys (logs : List LogEntry) : List String :=
  ownServices (newSet (logs.map (fun l => l.service)))

/-- Number of entries of service `s`. -/
def countService (s : String) (logs : List LogEntry) : Nat :=
  logs.countP (fun l => decide (l.service = s))

/-- Number of entries of service `s` with level `error`. -/
def countServiceErrors (s : String) (logs : List LogEntry) : Nat :=
  logs.countP (fun l => decide (l.service = s ∧ l.level = "error"))

/-- Number of entries of service `s` with a level other than `error`. -/
def countServiceOthers (s : String) (logs : List LogEntry) : Nat :=
  logs.countP (fun l => decide (l.service = s ∧ l.level ≠ "error"))

/-- Number of entries with level `error`. -/
def countErrors (logs : List LogEntry) : Nat :=
  logs.countP (fun l => decide (l.level = "error"))

/-- Number of `error` entries that fall into the bucket `k`. -/
def countBucket (k : List Nat) (logs : List LogEntry) : Nat :=
  logs.countP (fun l => decide (l.level = "error" ∧ l.timestamp.map substring05 = some k))

/-- Number of `error` entries whose timestamp starts with the code units `k`. -/
def errorsStartingWith (k : List Nat) (logs : List LogEntry) : Nat :=
  logs.countP (fun l => decide (l.level = "error" ∧ ∃ ts ∈ l.timestamp, k <+: toCodeUnits ts))

/-- A bucket that held `o` after `c` more increments. -/
def bumped (o : Option Nat) (c : Nat) : Option Nat :=
  if c = 0 then o else some (o.getD 0 + c)

/-! ## Sample inputs -/

/-- An `error` entry of service `__proto__`. -/
def protoErrorLogs : List LogEntry :=
  [⟨some "12:00:00", "__proto__", "error", "[__proto__] Query timeout", none⟩]

/-- An `info` entry of service `__proto__`. -/
def protoInfoLogs : List LogEntry :=
  [⟨some "12:00:00", "__proto__", "info", "[__proto__] Read query executed", none⟩]

/-- An `info` entry of service `Cards`. -/
def infoCards : LogEntry :=
  ⟨some "12:01:00", "Cards", "info", "[Cards] Card issued", none⟩

/-- An `error` entry of service `Database`. -/
def errorDatabase : LogEntry :=
  ⟨some "12:02:10", "Database", "error", "[Database] Query timeout - Table lock contention",
    some "Table lock contention"⟩

/-- A later `error` entry of service `API Gateway`. -/
def errorGateway : LogEntry :=
  ⟨some "12:02:55", "API Gateway", "error", "[API Gateway] 502 Bad Gateway", none⟩

/-- A `warn` entry of service `API Gateway`. -/
def warnGateway : LogEntry :=
  ⟨some "12:04:00", "API Gateway", "warn", "[API Gateway] Slow upstream", none⟩

/-- An `info` entry of service `API Gateway`. -/
def infoGateway : LogEntry :=
  ⟨some "12:02:30", "API Gateway", "info", "[API Gateway] Route refreshed", none⟩

/-- An `info` entry of service `Auth`. -/
def infoAuth : LogEntry :=
  ⟨some "12:05:00", "Auth", "info", "[Auth] Token issued", none⟩

/-- An `error` entry of service `Auth`. -/
def errorAuth : LogEntry :=
  ⟨some "12:06:00", "Auth", "error", "[Auth] Login failed", none⟩

/-- An `error` entry without `timestamp`, as `FakeprodAdapter.normalize` returns
it for the raw event `{service: "Database", event: "Query timeout", level: "error"}`. -/
def errorWithoutTime : LogEntry :=
  ⟨none, "Database", "error", "[Database] Query timeout", none⟩

/-- `Auth` with 1 error in 10 entries, `Database` with 1 error in 2, `Cards` without. -/
def statusLogs : List LogEntry :=
  [errorAuth, infoAuth, infoAuth, infoAuth, infoAuth, infoAuth, infoAuth, infoAuth,
    infoAuth, infoAuth, errorDatabase, ⟨some "12:07:00", "Database", "info", "ok", none⟩,
    infoCards]

/-- The record of `Auth` in the analysis of `statusLogs`. -/
def degradedAuth : ServiceStats :=
  ⟨"Auth", 10, 1, 9, [], "Degraded"⟩

/-- The value of `performLogAnalysis statusLogs`. -/
def statusResult : Analysis :=
  { stats :=
      [("Auth", degradedAuth),
       ("Database", ⟨"Database", 2, 1, 1, ["Table lock contention"], "Critical"⟩),
       ("Cards", ⟨"Cards", 1, 0, 1, [], "Healthy"⟩)]
    firstFailure := some ⟨"Auth", "12:06:00", "[Auth] Login failed"⟩
    timelineData := [(toCodeUnits "12:06", 1), (toCodeUnits "12:02", 1)] }

/-- A service whose name is an array index and has no error, after one that has an error. -/
def indexKeyLogs : List LogEntry :=
  [errorDatabase, ⟨some "12:03:00", "7", "info", "[7] Heartbeat", none⟩]

/-- Two services without errors, the second one named by an array index. -/
def tieLogs : List LogEntry :=
  [⟨some "09:15:00", "React", "info", "[alice] React 19 released...", none⟩,
   ⟨some "09:20:00", "2024", "info", "[bob] 2024 survey results...", none⟩]

/-- An entry without error, the earliest error, a later error. -/
def firstFailureLogs : List LogEntry :=
  [infoCards, errorDatabase, errorGateway]

/-- The value of `performLogAnalysis firstFailureLogs`. -/
def firstFailureResult : Analysis :=
  { stats :=
      [("Database", ⟨"Database", 1, 1, 0, ["Table lock contention"], "Critical"⟩),
       ("API Gateway", ⟨"API Gateway", 1, 1, 0, [], "Critical"⟩),
       ("Cards", ⟨"Cards", 1, 0, 1, [], "Healthy"⟩)]
    firstFailure :=
      some ⟨"Database", "12:02:10", "[Database] Query timeout - Table lock contention"⟩
    timelineData := [(toCodeUnits "12:02", 2)] }

/-- One `warn`, one `info` and one `error` entry of `API Gateway`. -/
def mixedLogs : List LogEntry :=
  [warnGateway, infoGateway, errorGateway]

/-- The value of `performLogAnalysis mixedLogs`. -/
def mixedResult : Analysis :=
  { stats := [("API Gateway", ⟨"API Gateway", 3, 1, 2, [], "Critical"⟩)]
    firstFailure := some ⟨"API Gateway", "12:02:55", "[API Gateway] 502 Bad Gateway"⟩
    timelineData := [(toCodeUnits "12:02", 1)] }

/-- Errors at `12:02:10` and `12:02:55` around an `info` entry at `12:02:30`. -/
def bucketLogs : List LogEntry :=
  [errorDatabase, infoGateway, errorGateway]

/-- The value of `performLogAnalysis bucketLogs`. -/
def bucketResult : Analysis :=
  { stats :=
      [("Database", ⟨"Database", 1, 1, 0, ["Table lock contention"], "Critical"⟩),
       ("API Gateway", ⟨"API Gateway", 2, 1, 1, [], "Critical"⟩)]
    firstFailure :=
      some ⟨"Database", "12:02:10", "[Database] Query timeout - Table lock contention"⟩
    timelineData := [(toCodeUnits "12:02", 2)] }

/-- Four `error` entries whose timestamps hold characters outside the Basic
Multilingual Plane: in the first two the character lies within the first five
code units, in the last two the fifth code unit is its first half. -/
def surrogateLogs : List LogEntry :=
  [⟨some "ab😀cd", "Auth", "error", "[Auth] Token rejected", none⟩,
   ⟨some "ab😀c!", "Auth", "error", "[Auth] Token rejected", none⟩,
   ⟨some "abcd😀", "Auth", "error", "[Auth] Token rejected", none⟩,
   ⟨some "abcd😁", "Auth", "error", "[Auth] Token rejected", none⟩]

/-! ## Strings and JSON fields -/

/-- A field of a parsed JSON object that holds a string when it is present:
the field is absent (`undefined`), `null`, or a string. -/
inductive MaybeString
  | undefined
  | null
  | str (s : String)
deriving DecidableEq, Repr

/-- Truthiness of the field: a non-empty string. -/
def MaybeString.truthy : MaybeString → Bool
  | .str s => decide (s ≠ "")
  | _ => false

/-- The text that a template literal inserts for the field. -/
def MaybeString.toTemplate : MaybeString → String
  | .undefined => "undefined"
  | .null => "null"
  | .str s => s

/-- Search of `needle` in a list of characters. -/
def includesChars (needle : List Char) : List Char → Bool
  | [] => needle.isEmpty
  | c :: cs => needle.isPrefixOf (c :: cs) || includesChars needle cs

/-- `s.includes(sub)`. -/
def includes (s sub : String) : Bool :=
  includesChars sub.data s.data

/-- `s.toLowerCase()` on the letters `A`-`Z`; the other characters are kept.
This is the built-in on ASCII text.  (The mappings of
`String.prototype.toLowerCase` outside ASCII neither create nor remove an
occurrence of the ASCII words that the code searches for.)  Where a statement
is about the lower-cased text itself, the built-in is a parameter. -/
def toLowerCase (s : String) : String :=
  String.mk (s.data.map Char.toLower)

/-- `s.substring(start, stop)` for `start ≤ stop`, positions counted in
characters: this is the built-in for text of the Basic Multilingual Plane (the
built-in counts a character outside it as two). -/
def substring (s : String) (start stop : Nat) : String :=
  String.mk ((s.data.take stop).drop start)

/-- First match of a regular expression `lit([class]+)`: the literal `lit`
followed by a longest non-empty run of characters of the class; the result is
the captured run of the leftmost match. -/
def matchRun (lit : List Char) (cls : Char → Bool) : List Char → Option (List Char)
  | [] => none
  | c :: cs =>
    if lit.isPrefixOf (c :: cs) ∧ (((c :: cs).drop lit.length).takeWhile cls) ≠ [] then
      some (((c :: cs).drop lit.length).takeWhile cls)
    else matchRun lit cls cs

/-! ## Source adapters -/

/-- The object literal that every `normalize` returns for one item.  `service`
and `timestamp` are whatever the source data held. -/
structure NormalizedEntry where
  timestamp : MaybeString
  service : MaybeString
  level : String
  message : String
  cause : MaybeString
deriving DecidableEq, Repr

/-- The entry as an input of `performLogAnalysis`, when its `service` is a
string and its `timestamp` is a string or `undefined`. -/
def NormalizedEntry.toLogEntry? (e : NormalizedEntry) : Option LogEntry :=
  match e.service, e.timestamp with
  | .str s, .str ts =>
    some { timestamp := some ts, service := s, level := e.level, message := e.message,
           cause := match e.cause with | .str c => some c | _ => none }
  | .str s, .undefined =>
    some { timestamp := none, service := s, level := e.level, message := e.message,
           cause := match e.cause with | .str c => some c | _ => none }
  | _, _ => none

/-- A raw event of the synthetic feed, `{time, service, event, cause, level}`. -/
structure RawEvent where
  time : MaybeString
  service : MaybeString
  event : MaybeString
  cause : MaybeString
  level : MaybeString
deriving DecidableEq, Repr

/-- The argument `data` of `FakeprodAdapter.normalize`: an object (given as
`Object.entries(data)`, its values being arrays of raw events), an array of
raw events, `null`, or a primitive value. -/
inductive FeedData
  | object (entries : List (String × List RawEvent))
  | array (events : List RawEvent)
  | null
  | primitive
deriving Repr

/-- `Array.prototype.map` with a callback that may throw. -/
def mapThrowing {α β : Type} (f : α → Except String β) : List α → Except String (List β)
  | [] => .ok []
  | a :: as =>
    match f a with
    | .error e => .error e
    | .ok b =>
      match mapThrowing f as with
      | .error e => .error e
      | .ok bs => .ok (b :: bs)

/-- `entry.cause && entry.cause !== 'Normal operation'`. -/
def RawEvent.hasAbnormalCause (entry : RawEvent) : Bool :=
  entry.cause.truthy && decide (entry.cause ≠ .str "Normal operation")

/-- The `else` branch of the level computation: `isError ? 'error' : 'info'`.
The operands of `||` are evaluated from the left; `entry.event.toLowerCase()`
throws when `event` is not a string.  The built-in
`String.prototype.toLowerCase` is the parameter `lower`. -/
def FakeprodAdapter.heuristicLevelWith (lower : String → String) (entry : RawEvent) :
    Except String String :=
  if entry.hasAbnormalCause then .ok "error"
  else
    match entry.event with
    | .str event =>
      .ok (if includes (lower event) "fail" || includes (lower event) "error" ||
              includes (lower event) "timeout" || includes event "502"
           then "error" else "info")
    | .undefined =>
      .error "TypeError: Cannot read properties of undefined (reading 'toLowerCase')"
    | .null => .error "TypeError: Cannot read properties of null (reading 'toLowerCase')"

/-- The level of an entry: `entry.level.toLowerCase()` when `entry.level` is
truthy, the heuristics otherwise. -/
def FakeprodAdapter.levelOfWith (lower : String → String) (entry : RawEvent) :
    Except String String :=
  match entry.level with
  | .str level => if level ≠ "" then .ok (lower level) else heuristicLevelWith lower entry
  | _ => heuristicLevelWith lower entry

/-- The callback of `logs.map(entry => ...)` in `FakeprodAdapter.normalize`. -/
def FakeprodAdapter.normalizeEntryWith (lower : String → String) (entry : RawEvent) :
    Except String NormalizedEntry :=
  match levelOfWith lower entry with
  | .error e => .error e
  | .ok level =>
    .ok { timestamp := entry.time
          service := entry.service
          level := level
          message := "[" ++ entry.service.toTemplate ++ "] " ++ entry.event.toTemplate ++
            (if entry.hasAbnormalCause then " - " ++ entry.cause.toTemplate else "")
          cause := if entry.cause = .str "Normal operation" then .null else entry.cause }

/-- The level computation with `toLowerCase` for the built-in. -/
def FakeprodAdapter.heuristicLevel (entry : RawEvent) : Except String String :=
  heuristicLevelWith toLowerCase entry

/-- The level of an entry, with `toLowerCase` for the built-in. -/
def FakeprodAdapter.levelOf (entry : RawEvent) : Except String String :=
  levelOfWith toLowerCase entry

/-- The callback of `FakeprodAdapter.normalize`, with `toLowerCase` for the built-in. -/
def FakeprodAdapter.normalizeEntry (entry : RawEvent) : Except String NormalizedEntry :=
  normalizeEntryWith toLowerCase entry

/-- The list `logs` that `FakeprodAdapter.normalize` builds from an object:
every event of the array under `service` gets `e.service = service`. -/
def FakeprodAdapter.flatten (entries : List (String × List RawEvent)) : List RawEvent :=
  entries.flatMap (fun p => p.2.map (fun e => { e with service := .str p.1 }))

/-- The method `FakeprodAdapter.normalize(data)`, the built-in
`String.prototype.toLowerCase` being the parameter `lower`. -/
def FakeprodAdapter.normalizeWith (lower : String → String) (data : FeedData) :
    Except String (List NormalizedEntry) :=
  match data with
  | .object entries => mapThrowing (normalizeEntryWith lower) (flatten entries)
  | .array events => mapThrowing (normalizeEntryWith lower) events
  | .null => .error "TypeError: Cannot convert undefined or null to object"
  | .primitive => .ok []

/-- The method `FakeprodAdapter.normalize(data)`, with `toLowerCase` for the built-in. -/
def FakeprodAdapter.normalize (data : FeedData) : Except String (List NormalizedEntry) :=
  normalizeWith toLowerCase data

/-- An event of the forge API, `{created_at, type, repo: {name}, actor: {login}}`;
`repo` and `actor` are `none` when the object is absent, else the field they hold. -/
structure GitHubEvent where
  created_at : MaybeString
  type : MaybeString
  repo : Option MaybeString
  actor : Option MaybeString
deriving DecidableEq, Repr

/-- The callback of `GitHubAdapter.normalize`.  `toISOString x` stands for
`new Date(x).toISOString()`, `none` when the date is invalid (a `RangeError`). -/
def GitHubAdapter.normalizeEvent (toISOString : MaybeString → Option String)
    (event : GitHubEvent) : Except String NormalizedEntry :=
  match toISOString event.created_at with
  | none => .error "RangeError: Invalid time value"
  | some iso =>
    match event.repo with
    | none => .error "TypeError: Cannot read properties of undefined (reading 'name')"
    | some name =>
      match event.actor with
      | none => .error "TypeError: Cannot read properties of undefined (reading 'login')"
      | some login =>
        .ok { timestamp := .str (substring iso 11 19)
              service := event.type
              level := "info"
              message := "[" ++ name.toTemplate ++ "] " ++ login.toTemplate
              cause := .null }

/-- The method `GitHubAdapter.normalize(data)`: `data.slice(0, 30).map(...)`. -/
def GitHubAdapter.normalize (toISOString : MaybeString → Option String)
    (data : List GitHubEvent) : Except String (List NormalizedEntry) :=
  mapThrowing (normalizeEvent toISOString) (data.take 30)

/-- An item of the RSS bridge, `{pubDate, title, author}`. -/
structure FeedItem where
  pubDate : MaybeString
  title : MaybeString
  author : MaybeString
deriving DecidableEq, Repr

/-- The class `[a-zA-Z0-9]`. -/
def isAlphanumeric (c : Char) : Bool :=
  ('a' ≤ c && c ≤ 'z') || ('A' ≤ c && c ≤ 'Z') || ('0' ≤ c && c ≤ '9')

/-- `title.split(' ')[0].replace(/[^a-zA-Z0-9]/g, '')`. -/
def firstWordSanitized (title : String) : String :=
  String.mk ((title.data.takeWhile (fun c => c ≠ ' ')).filter isAlphanumeric)

/-- The callback of `RedditAdapter.normalize`; `subreddit` is `this.subreddit`. -/
def RedditAdapter.normalizeItem (subreddit : String) (item : FeedItem) :
    Except String NormalizedEntry :=
  match item.pubDate with
  | .undefined => .error "TypeError: Cannot read properties of undefined (reading 'substring')"
  | .null => .error "TypeError: Cannot read properties of null (reading 'substring')"
  | .str pubDate =>
    match item.title with
    | .undefined => .error "TypeError: Cannot read properties of undefined (reading 'split')"
    | .null => .error "TypeError: Cannot read properties of null (reading 'split')"
    | .str title =>
      .ok { timestamp := .str (substring pubDate 11 19)
            service := .str (if firstWordSanitized title ≠ "" then firstWordSanitized title
                             else "r/" ++ subreddit)
            level := "info"
            message := "[" ++ item.author.toTemplate ++ "] " ++ substring title 0 60 ++ "..."
            cause := .null }

/-- The method `RedditAdapter.normalize(data)`: `data.slice(0, 30).map(...)`. -/
def RedditAdapter.normalize (subreddit : String) (data : List FeedItem) :
    Except String (List NormalizedEntry) :=
  mapThrowing (normalizeItem subreddit) (data.take 30)

/-- A revision of the wiki API, `{timestamp, user, comment}`. -/
structure Revision where
  timestamp : MaybeString
  user : MaybeString
  comment : MaybeString
deriving DecidableEq, Repr

/-- The callback of `WikipediaAdapter.normalize`. -/
def WikipediaAdapter.normalizeRevision (toISOString : MaybeString → Option String)
    (rev : Revision) : Except String NormalizedEntry :=
  match toISOString rev.timestamp with
  | none => .error "RangeError: Invalid time value"
  | some iso =>
    .ok { timestamp := .str (substring iso 11 19)
          service := .str "Wikipedia Edit"
          level := "info"
          message := "[User: " ++ rev.user.toTemplate ++ "] " ++
            (match rev.comment with
             | .str comment => if comment ≠ "" then substring comment 0 80 else "Minor edit"
             | _ => "Minor edit")
          cause := .null }

/-- The method `WikipediaAdapter.normalize(data)`; `data` is `none` when the
argument is `undefined`. -/
def WikipediaAdapter.normalize (toISOString : MaybeString → Option String)
    (data : Option (List Revision)) : Except String (List NormalizedEntry) :=
  match data with
  | none => .error "TypeError: Cannot read properties of undefined (reading 'map')"
  | some revisions => mapThrowing (normalizeRevision toISOString) revisions

/-! ## Fetching -/

/-- What `await fetch(...)` delivers: the status code, and the value of
`await res.json()` (`none` when the body is not JSON and `res.json()` rejects). -/
structure HttpResponse (β : Type) where
  status : Nat
  json : Option β

/-- The property `res.ok`: the status is in the range 200-299. -/
def HttpResponse.ok {β : Type} (res : HttpResponse β) : Bool :=
  decide (200 ≤ res.status ∧ res.status ≤ 299)

/-- Message of the error with which `res.json()` rejects. -/
def jsonSyntaxError : String :=
  "SyntaxError: Unexpected token in JSON"

/-- The method `FakeprodAdapter.fetchLogs(url)`, given the response to its request;
the result is the value the promise resolves with or the error it rejects with. -/
def FakeprodAdapter.fetchLogs (res : HttpResponse FeedData) :
    Except String (List NormalizedEntry) :=
  match res.json with
  | none => .error jsonSyntaxError
  | some data => FakeprodAdapter.normalize data

/-- The method `GitHubAdapter.fetchLogs(url)`, given the response to its request. -/
def GitHubAdapter.fetchLogs (toISOString : MaybeString → Option String)
    (res : HttpResponse (List GitHubEvent)) : Except String (List NormalizedEntry) :=
  if ¬ res.ok then .error ("GitHub API Error: " ++ toString res.status)
  else
    match res.json with
    | none => .error jsonSyntaxError
    | some data => GitHubAdapter.normalize toISOString data

/-- The body of the RSS bridge, `{status, items}`; `items` is `none` when the
field is absent or falsy. -/
structure RedditBody where
  status : MaybeString
  items : Option (List FeedItem)

/-- The method `RedditAdapter.fetchLogs(url)`, given the response to its request. -/
def RedditAdapter.fetchLogs (subreddit : String) (res : HttpResponse RedditBody) :
    Except String (List NormalizedEntry) :=
  if ¬ res.ok then .error ("RSS Bridge Error: " ++ toString res.status)
  else
    match res.json with
    | none => .error jsonSyntaxError
    | some json =>
      match json.items with
      | none => .error "Invalid Reddit RSS Response"
      | some items =>
        if json.status ≠ .str "ok" then .error "Invalid Reddit RSS Response"
        else RedditAdapter.normalize subreddit items

/-- A page of the wiki response; `revisions` is `none` when the field is absent. -/
structure WikiPage where
  revisions : Option (List Revision)

/-- The body of the wiki API, `{query: {pages: {id: page, ...}}}`: `query` is
`none` when `json.query` is absent or `null`, `some none` when `query.pages`
is absent or falsy, and otherwise holds `pages` as `Object.entries(pages)`. -/
structure WikiBody where
  query : Option (Option (List (String × WikiPage)))

/-- The title that `url.match(/wiki\/([^#?\/]+)/)` captures. -/
def wikiTitle (url : String) : Option String :=
  (matchRun "wiki/".data (fun c => c ≠ '#' ∧ c ≠ '?' ∧ c ≠ '/') url.data).map String.mk

/-- The subreddit that `url.match(/r\/([^/]+)/)` captures. -/
def subredditName (url : String) : Option String :=
  (matchRun "r/".data (fun c => c ≠ '/') url.data).map String.mk

/-- The address `api` that `WikipediaAdapter.fetchLogs` requests for a title. -/
def WikipediaAdapter.api (title : String) : String :=
  "https://en.wikipedia.org/w/api.php?action=query&format=json&prop=revisions&titles=" ++
    title ++ "&rvprop=timestamp|user|comment&limit=30&origin=*"

/-- What a call of `WikipediaAdapter.fetchLogs` does: the value stored in
`this.title`, the address it requests, and how its promise settles. -/
structure WikiFetch where
  title : String
  request : String
  result : Except String (List NormalizedEntry)

/-- The part of `WikipediaAdapter.fetchLogs` after `await fetch(api)`. -/
def WikipediaAdapter.receive (toISOString : MaybeString → Option String)
    (res : HttpResponse WikiBody) : Except String (List NormalizedEntry) :=
  if ¬ res.ok then .error ("Wiki API Error: " ++ toString res.status)
  else
    match res.json with
    | none => .error jsonSyntaxError
    | some json =>
      match json.query with
      | none => .error "Invalid Wiki Response"
      | some none => .error "Invalid Wiki Response"
      | some (some []) =>
        .error "TypeError: Cannot read properties of undefined (reading 'revisions')"
      | some (some ((pageId, page) :: _)) =>
        if pageId = "-1" then .error "Wiki Page Not Found"
        else WikipediaAdapter.normalize toISOString page.revisions

/-- The method `WikipediaAdapter.fetchLogs(url)`; `respond` gives the response
to the request for an address. -/
def WikipediaAdapter.fetchLogs (toISOString : MaybeString → Option String)
    (respond : String → HttpResponse WikiBody) (url : String) : WikiFetch :=
  let title := match wikiTitle url with
    | some t => t
    | none => "Main_Page"
  let api := WikipediaAdapter.api title
  { title := title, request := api, result := receive toISOString (respond api) }

/-! ## SourceManager -/

/-- The adapter instances: a `RedditAdapter` holds `subreddit`, a
`WikipediaAdapter` holds `title` once `fetchLogs` has run. -/
inductive Adapter
  | fakeprod
  | github
  | reddit (subreddit : String)
  | wikipedia (title : Option String)
deriving DecidableEq, Repr

/-- The object `SourceManager`: its fields `currentSource` and `adapter`. -/
structure SourceManager where
  currentSource : String
  adapter : Adapter
deriving DecidableEq, Repr

/-- The object as it is created. -/
def SourceManager.initial : SourceManager :=
  { currentSource := "Demo System", adapter := .fakeprod }

/-- The method `SourceManager.connect(url)`: the returned value (`none` is
`null`) and the object after the call. -/
def SourceManager.connect (self : SourceManager) (url : String) :
    Option String × SourceManager :=
  if includes url "reddit.com" then
    let sub := match subredditName url with
      | some s => s
      | none => "technology"
    (some ("Connected to r/" ++ sub ++ "."),
      { currentSource := "Reddit (r/" ++ sub ++ ")", adapter := .reddit sub })
  else if includes url "wikipedia.org" then
    let title := match wikiTitle url with
      | some t => t
      | none => "Page"
    (some ("Connected to Wikipedia: " ++ title),
      { currentSource := "Wiki: " ++ title, adapter := .wikipedia none })
  else if includes url "github.com" then
    (some "Connected to GitHub. Type \"curl /logs\" to fetch events.",
      { currentSource := "GitHub Public API", adapter := .github })
  else if includes url "fakeprod" ∨ url = "" then
    (some "Connected to Demo System.",
      { currentSource := "Demo System", adapter := .fakeprod })
  else (none, self)

/-- The responses of the remote services: of the synthetic feed, of the forge
API, of the RSS bridge for a subreddit, of the wiki API for a requested address. -/
structure Network where
  fakeprod : HttpResponse FeedData
  github : HttpResponse (List GitHubEvent)
  reddit : String → HttpResponse RedditBody
  wikipedia : String → HttpResponse WikiBody

/-- The method `SourceManager.fetchLogs(url)`, which forwards to
`this.adapter.fetchLogs(url)`: the object after the call and the outcome. -/
def SourceManager.fetchLogs (toISOString : MaybeString → Option String) (net : Network)
    (self : SourceManager) (url : String) :
    SourceManager × Except String (List NormalizedEntry) :=
  match self.adapter with
  | .fakeprod => (self, FakeprodAdapter.fetchLogs net.fakeprod)
  | .github => (self, GitHubAdapter.fetchLogs toISOString net.github)
  | .reddit subreddit => (self, RedditAdapter.fetchLogs subreddit (net.reddit subreddit))
  | .wikipedia _ =>
    let f := WikipediaAdapter.fetchLogs toISOString net.wikipedia url
    ({ self with adapter := .wikipedia (some f.title) }, f.result)

/-! ## Definitions used in the statements on the adapters -/

/-- All raw events that `FakeprodAdapter.normalize` visits in `data`. -/
def FeedData.events : FeedData → List RawEvent
  | .object entries => entries.flatMap (fun p => p.2)
  | .array events => events
  | .null => []
  | .primitive => []

/-- The event text holds one of the words `fail`, `error`, `timeout`, `502`,
letter case apart. -/
def hasErrorWord (event : String) : Prop :=
  "fail".data <:+: (toLowerCase event).data ∨ "error".data <:+: (toLowerCase event).data ∨
    "timeout".data <:+: (toLowerCase event).data ∨ "502".data <:+: (toLowerCase event).data

/-- The entry has a cause that is present (a non-empty string) and is not
`Normal operation`. -/
def hasGivenCause (entry : RawEvent) : Prop :=
  ∃ c, entry.cause = .str c ∧ c ≠ "" ∧ c ≠ "Normal operation"

/-- The label and the adapter of the `SourceManager` agree. -/
def LabelAgrees (s : SourceManager) : Prop :=
  (s.currentSource = "Demo System" ↔ s.adapter = .fakeprod) ∧
  (s.currentSource = "GitHub Public API" ↔ s.adapter = .github) ∧
  ("Wiki: ".data <+: s.currentSource.data ↔ ∃ t, s.adapter = .wikipedia t) ∧
  (∀ sub, s.currentSource = "Reddit (r/" ++ sub ++ ")" ↔ s.adapter = .reddit sub)

/-- The `SourceManager` after a sequence of `connect` calls. -/
def afterConnects (urls : List String) : SourceManager :=
  urls.foldl (fun s url => (s.connect url).2) SourceManager.initial

/-! ## Sample inputs for the adapters and the scenario -/

/-- A `warn` entry of service `Database`. -/
def warnDatabase : LogEntry :=
  ⟨some "12:04:00", "Database", "warn", "[Database] Slow index scan - Missing index",
    some "Missing index"⟩

/-- An `info` entry of service `Database`. -/
def infoDatabase : LogEntry :=
  ⟨some "12:01:00", "Database", "info", "[Database] Read query executed", none⟩

/-- The scenario of 15 `Database` entries (10 error, 3 warn, 2 info) and 15
`API Gateway` entries (9 error, 1 warn, 5 info), followed by one `info` entry
of a service named `7`. -/
def scenarioLogs : List LogEntry :=
  List.replicate 10 errorDatabase ++ List.replicate 3 warnDatabase ++
    List.replicate 2 infoDatabase ++ List.replicate 9 errorGateway ++ [warnGateway] ++
    List.replicate 5 infoGateway ++ [⟨some "12:03:00", "7", "info", "[7] Heartbeat", none⟩]

/-- A raw event with its own `service` field and without `level`. -/
def rawTimeout : RawEvent :=
  { time := .str "12:02", service := .str "Legacy", event := .str "Query TIMEOUT",
    cause := .str "Normal operation", level := .undefined }

/-- A raw event without `level` whose text holds none of the error words. -/
def rawRead : RawEvent :=
  { time := .str "12:01", service := .undefined, event := .str "Read query executed",
    cause := .undefined, level := .undefined }

/-- A raw event with the explicit level `debug`. -/
def rawDebug : RawEvent :=
  { time := .str "12:05", service := .str "Cards", event := .str "Cache warmed",
    cause := .undefined, level := .str "debug" }

/-- A raw event with the explicit level `WARN`. -/
def rawWarn : RawEvent :=
  { time := .str "12:06", service := .str "Cards", event := .str "Cache miss spike",
    cause := .str "Cold cache", level := .str "WARN" }

/-- A raw `error` event without `time`. -/
def rawWithoutTime : RawEvent :=
  { time := .undefined, service := .str "Database", event := .str "Query timeout",
    cause := .undefined, level := .str "error" }

/-- A synthetic feed keyed by service. -/
def sampleFeed : List (String × List RawEvent) :=
  [("Database", [rawTimeout, rawRead]), ("Auth", []), ("Cards", [rawWarn])]

/-- A clock that knows one timestamp. -/
def sampleClock : MaybeString → Option String
  | .str "2024-05-01T12:34:56Z" => some "2024-05-01T12:34:56.000Z"
  | _ => none

/-- A wiki API that answers every request with status 200 and one page. -/
def wikiAnswers (pageId : String) (revisions : Option (List Revision)) :
    String → HttpResponse WikiBody :=
  fun _ => { status := 200, json := some { query := some (some [(pageId, ⟨revisions⟩)]) } }

/-- A `SourceManager` connected to a subreddit. -/
def redditManager : SourceManager :=
  { currentSource := "Reddit (r/rust)", adapter := .reddit "rust" }

/-- A response with status 500 whose body is a well-formed synthetic feed. -/
def failedFeedResponse : HttpResponse FeedData :=
  { status := 500, json := some (.object [("Database", [rawWithoutTime])]) }

/-! ## The error chart -/

/-- The body of `logs.forEach(l => ...)` in `renderErrorChart`:
`const time = l.timestamp.substring(0, 5); timeMap[time] = (timeMap[time] || 0) + 1`
for an entry of level `error`. -/
def renderErrorChart.step (timeMap : List (List Nat × Nat)) (l : LogEntry) :
    Except String (List (List Nat × Nat)) :=
  if l.level = "error" then
    match l.timestamp with
    | none => throw "TypeError: Cannot read properties of undefined (reading 'substring')"
    | some ts => pure (bumpBucket timeMap (substring05 ts))
  else pure timeMap

/-- The object `timeMap` that `renderErrorChart(logs)` builds. -/
def renderErrorChart.timeMap (logs : List LogEntry) : Except String (List (List Nat × Nat)) :=
  logs.foldlM renderErrorChart.step []

/-! ## Health map and risk prediction -/

/-- `logs.filter(l => l.level === 'error').length`. -/
def errorCount (logs : List RawEvent) : Nat :=
  (logs.filter (fun l => decide (l.level = .str "error"))).length

/-- The variable `status` that `initHealthMap` computes for the logs of one service. -/
def initHealthMap.status (logs : List RawEvent) : String :=
  if errorCount logs > 2 then "failing"
  else if errorCount logs > 0 then "degraded"
  else "healthy"

/-- The status of every service of `window.fakeSystemLogs`, in the order of
`Object.keys(logs)`, as `initHealthMap` passes it to the nodes it creates. -/
def initHealthMap (fakeSystemLogs : List (String × List RawEvent)) : List (String × String) :=
  fakeSystemLogs.map (fun p => (p.1, initHealthMap.status p.2))

/-- The object that `calculateServiceRisk` returns; `timeToFail = none` is `'NA'`. -/
structure ServiceRisk where
  name : String
  score : Nat
  level : String
  timeToFail : Option Nat
  reason : String
  status : String
deriving DecidableEq, Repr

/-- The function `calculateServiceRisk(name, logs)`.  `first k` and `second k`
stand for `Math.floor(Math.random() * k)` at the first and the second call. -/
def calculateServiceRisk (first second : Nat → Nat) (name : String) (logs : List RawEvent) :
    ServiceRisk :=
  if errorCount logs > 2 then
    { name := name, score := 92 + first 5, level := "CRITICAL"
      timeToFail := some (second 3 + 2)
      reason := "Exponential error rate detected. Connection pool saturation imminent."
      status := "Escalating rapidly" }
  else if errorCount logs > 0 then
    { name := name, score := 65 + first 10, level := "WARNING"
      timeToFail := some (second 10 + 8)
      reason := "Intermittent latency spikes observed. Trend indicates degradation."
      status := "Instability detected" }
  else
    { name := name, score := first 15 + 5, level := "STABLE"
      timeToFail := none
      reason := "Operating within normal parameters. No significant anomalies."
      status := "Optimal" }

/-! ## The chat assistant -/

/-- What one request of `safeFetch` meets: `fetch` rejects, `res.json()`
rejects, or a body arrives.  `error` is `data.error` (`none` when falsy, else
its `message`); `text` is what reading `data.candidates[0].content.parts[0].text`
gives: the text, or the message of the `TypeError` that the first missing part
of the path raises. -/
inductive GeminiReply
  | networkError (message : String)
  | notJson (message : String)
  | body (status : Nat) (error : Option MaybeString) (text : Except String String)

/-- The address that `safeFetch(model)` requests; the parameter `model` does
not occur in it. -/
def safeFetch.url (apiKey : String) (_model : String) : String :=
  "https://generativelanguage.googleapis.com/v1beta/models/gemini-2.5-flash:generateContent?key="
    ++ apiKey

/-- How `safeFetch` ends on a reply: the returned text, or the message of the
error it throws. -/
def safeFetch.outcome (reply : GeminiReply) : Except String String :=
  match reply with
  | .networkError message => .error message
  | .notJson message => .error message
  | .body status error text =>
    if ¬ (decide (200 ≤ status ∧ status ≤ 299)) ∨ error.isSome then
      match error with
      | some (.str message) =>
        if message ≠ "" then .error message else .error ("HTTP " ++ toString status)
      | _ => .error ("HTTP " ++ toString status)
    else
      text

/-- What a call of `askGemini` does: the addresses it requests, in order, and
the string it returns. -/
structure AskResult where
  requests : List String
  answer : String
deriving DecidableEq, Repr

/-- The function `askGemini(question)`.  `apiKey` is `window.ENV.GEMINI_API_KEY`
(`undefined` also when `window.ENV` is absent), `cachedLogs` is
`window.cachedLogs`, `first` and `second` are what the first and the second
request meet. -/
def askGemini (apiKey : MaybeString) (cachedLogs : Option (List NormalizedEntry))
    (first second : GeminiReply) : AskResult :=
  match apiKey with
  | .str key =>
    if key = "" ∨ includes key "PASTE_YOUR" then
      { requests := [], answer := "API Key not configured. Check env.js" }
    else
      let logs := match cachedLogs with
        | some l => l.take 30
        | none => []
      if logs.length = 0 then
        { requests := [], answer := "No logs found to analyze. Connect to a source first." }
      else
        match safeFetch.outcome first with
        | .ok text => { requests := [safeFetch.url key "gemini-1.5-flash"], answer := text }
        | .error _ =>
          match safeFetch.outcome second with
          | .ok text =>
            { requests := [safeFetch.url key "gemini-1.5-flash", safeFetch.url key "gemini-pro"]
              answer := text }
          | .error message =>
            { requests := [safeFetch.url key "gemini-1.5-flash", safeFetch.url key "gemini-pro"]
              answer := "AI Error: " ++ message ++ ". (Checked Flash & Pro)" }
  | _ => { requests := [], answer := "API Key not configured. Check env.js" }

/-! ## The requested resource -/

/-- The address that `FakeprodAdapter.fetchLogs` requests. -/
def FakeprodAdapter.requestUrl : String :=
  "https://fakeprod.vercel.app/logs.json"

/-- The address that `GitHubAdapter.fetchLogs` requests. -/
def GitHubAdapter.requestUrl : String :=
  "https://api.github.com/events"

/-- The address `target` that `RedditAdapter.fetchLogs` requests. -/
def RedditAdapter.requestUrl (encodeURIComponent : String → String) (subreddit : String) :
    String :=
  "https://api.rss2json.com/v1/api.json?rss_url=" ++
    encodeURIComponent ("https://www.reddit.com/r/" ++ subreddit ++ "/.rss")

/-- The address `api` that `WikipediaAdapter.fetchLogs(url)` requests. -/
def WikipediaAdapter.requestUrl (url : String) : String :=
  WikipediaAdapter.api (match wikiTitle url with
    | some t => t
    | none => "Main_Page")

/-- The address requested by `SourceManager.fetchLogs(url)`, that is by
`this.adapter.fetchLogs(url)`. -/
def SourceManager.requestUrl (encodeURIComponent : String → String) (self : SourceManager)
    (url : String) : String :=
  match self.adapter with
  | .fakeprod => FakeprodAdapter.requestUrl
  | .github => GitHubAdapter.requestUrl
  | .reddit subreddit => RedditAdapter.requestUrl encodeURIComponent subreddit
  | .wikipedia _ => WikipediaAdapter.requestUrl url

/-! ## Timeline replay -/

/-- An element of `window.timelineReplayData`; `cause = none` is `null`. -/
structure ReplayLog where
  time : String
  service : String
  level : String
  message : String
  cause : Option String
deriving DecidableEq, Repr

/-- The array `window.timelineReplayData` of `data.js`. -/
def timelineReplayData : List ReplayLog :=
  [ ⟨"12:00", "Database", "info", "Health check OK", none⟩,
    ⟨"12:00", "API Gateway", "info", "Traffic normal: 200 rps", none⟩,
    ⟨"12:00", "Storage", "info", "Storage service healthy", some "Health check"⟩,
    ⟨"12:00", "Notifications", "info", "Notification service started",
      some "Scheduled startup"⟩,
    ⟨"12:01", "Auth", "info", "Token validation successful", none⟩,
    ⟨"12:01", "Payment", "info", "Gateway connected", none⟩,
    ⟨"12:01", "Analytics", "info", "Event processing normal", some "User activity"⟩,
    ⟨"12:01", "Notifications", "info", "Email sent successfully", some "User registration"⟩,
    ⟨"12:02", "Database", "error", "Connection pool exhausted (50/50)",
      some "Slow query on 'orders' table detected"⟩,
    ⟨"12:02", "Storage", "warn", "Disk usage at 75%", some "Growing data"⟩,
    ⟨"12:02", "Notifications", "warn", "SMS delivery delayed", some "Provider lag"⟩,
    ⟨"12:02", "Analytics", "warn", "Processing lag detected", some "Data spike"⟩,
    ⟨"12:03", "Database", "error", "New connections rejected", some "Pool saturation"⟩,
    ⟨"12:03", "API Gateway", "warn", "Upstream latency spike: Database",
      some "Dependency slow"⟩,
    ⟨"12:03", "Analytics", "error", "Data pipeline stalled",
      some "Database connection issue"⟩,
    ⟨"12:03", "Storage", "error", "Upload failed", some "S3 timeout"⟩,
    ⟨"12:04", "API Gateway", "error", "Request timeout (30s)", some "Database unresponsive"⟩,
    ⟨"12:04", "Auth", "warn", "Token verification delayed", some "Database slow"⟩,
    ⟨"12:04", "Notifications", "error", "Email delivery failed",
      some "SMTP connection timeout"⟩,
    ⟨"12:05", "Payment", "error", "Transaction commit failed", some "Database timeout"⟩,
    ⟨"12:05", "Database", "error", "IOPS limit reached", some "Full table scan aggregation"⟩,
    ⟨"12:05", "Notifications", "warn", "Queue backup detected", some "High volume"⟩,
    ⟨"12:06", "Cards", "warn", "Authorization queue backing up", some "Payment service slow"⟩,
    ⟨"12:07", "Payment", "error", "Circuit breaker opened: Database",
      some "Consecutive failures"⟩,
    ⟨"12:08", "Cards", "error", "Payment authorization failed",
      some "Payment Service Unavailable"⟩,
    ⟨"12:09", "API Gateway", "error", "502 Bad Gateway (Global)", some "Cascading failure"⟩,
    ⟨"12:10", "Database", "info", "Slow query process terminated (PID 4492)",
      some "Auto-remediation"⟩,
    ⟨"12:11", "Database", "info", "Connection pool recovering... (20/50)", some "Recovery"⟩,
    ⟨"12:12", "Payment", "info", "Circuit breaker half-open", some "Recovery"⟩,
    ⟨"12:12", "Analytics", "info", "Pipeline restarted", some "Recovery"⟩,
    ⟨"12:13", "Cards", "info", "Queue processing resumed", some "Recovery"⟩,
    ⟨"12:13", "Notifications", "info", "Deliveries catching up", some "Recovery"⟩,
    ⟨"12:14", "Auth", "info", "Latency normalized", some "Recovery"⟩,
    ⟨"12:14", "Storage", "info", "Upload service restored", some "Recovery"⟩,
    ⟨"12:15", "API Gateway", "info", "Traffic varying normal", some "Recovery"⟩,
    ⟨"12:16", "Database", "info", "Health check OK", some "Fully Recovered"⟩ ]

/-- `replayState.startTime`, `12 * 60`. -/
def replayStartTime : Nat := 12 * 60

/-- `s.replace(c, '')` for a pattern of one character: the first occurrence is removed. -/
def removeFirst (c : Char) : List Char → List Char
  | [] => []
  | d :: ds => if d = c then ds else d :: removeFirst c ds

/-- `s.padStart(2, '0')`. -/
def padStart2 (s : String) : String :=
  match s.data with
  | [] => "00"
  | [c] => String.mk ['0', c]
  | _ => s

/-- The white space that `parseInt` skips. -/
def isStrWhiteSpace (c : Char) : Bool :=
  (9 ≤ c.toNat && c.toNat ≤ 13) || c.toNat = 32 || c.toNat = 160 || c.toNat = 5760 ||
    (8192 ≤ c.toNat && c.toNat ≤ 8202) || c.toNat = 8232 || c.toNat = 8233 ||
    c.toNat = 8239 || c.toNat = 8287 || c.toNat = 12288 || c.toNat = 65279

/-- The value of a digit of radix 16, when the character is one. -/
def hexDigit (c : Char) : Option Nat :=
  if '0' ≤ c ∧ c ≤ '9' then some (c.toNat - 48)
  else if 'a' ≤ c ∧ c ≤ 'f' then some (c.toNat - 87)
  else if 'A' ≤ c ∧ c ≤ 'F' then some (c.toNat - 55)
  else none

/-- The longest prefix of digits below `radix`, as a number; `none` when the
first character is no such digit. -/
def leadingDigits (radix : Nat) : List Char → Option Nat → Option Nat
  | [], acc => acc
  | c :: cs, acc =>
    match hexDigit c with
    | some d =>
      if d < radix then leadingDigits radix cs (some (radix * acc.getD 0 + d)) else acc
    | none => acc

/-- `parseInt(s)` without radix argument; `none` is `NaN`.  Leading white space
is skipped, a sign and the prefix `0x` are accepted, and the digits are read as
far as they go. -/
def parseInt (s : String) : Option Int :=
  let body := s.data.dropWhile isStrWhiteSpace
  let (negative, rest) := match body with
    | '-' :: r => (true, r)
    | '+' :: r => (false, r)
    | r => (false, r)
  let magnitude := match rest with
    | '0' :: 'x' :: r => leadingDigits 16 r none
    | '0' :: 'X' :: r => leadingDigits 16 r none
    | r => leadingDigits 10 r none
  magnitude.map (fun n => if negative then - (n : Int) else (n : Int))

/-- The clock text `timeStr` of `updateReplayVisuals(minuteOffset)`. -/
def replayClock (minuteOffset : Nat) : String :=
  let minutes := replayStartTime + minuteOffset
  toString (minutes / 60) ++ ":" ++ padStart2 (toString (minutes % 60))

/-- The filter of `updateReplayVisuals`: `logTime <= currentTime`, false when
one of them is `NaN`. -/
def isUpTo (timeStr : String) (l : ReplayLog) : Bool :=
  match parseInt (String.mk (removeFirst ':' l.time.data)),
        parseInt (String.mk (removeFirst ':' timeStr.data)) with
  | some logTime, some currentTime => decide (logTime ≤ currentTime)
  | _, _ => false

/-- The health that `updateReplayVisuals` derives from `lastLog`. -/
def healthOfLastLog (lastLog : Option ReplayLog) : String :=
  match lastLog with
  | some l =>
    if l.level = "error" ∨ l.cause = some "Recovery" then
      if includes l.message "Recover" || includes l.message "OK" then "healthy"
      else "failing"
    else if l.level = "warn" then "degraded"
    else "healthy"
  | none => "healthy"

/-- The array `services` of `updateReplayVisuals`. -/
def replayServices : List String :=
  ["Database", "API Gateway", "Auth", "Payment", "Cards", "Notifications", "Analytics",
    "Storage"]

/-- The object `serviceHealth` that `updateReplayVisuals(minuteOffset)` builds
from `window.timelineReplayData`. -/
def updateReplayVisuals.serviceHealth (data : List ReplayLog) (minuteOffset : Nat) :
    List (String × String) :=
  let timeStr := replayClock minuteOffset
  let currentLogs := data.filter (isUpTo timeStr)
  replayServices.foldl
    (fun serviceHealth s =>
      let lastLog := ((currentLogs.filter (fun l => decide (l.service = s))).reverse).head?
      putOwn serviceHealth s (healthOfLastLog lastLog))
    []

/-! ## Definitions used in the last statements -/

/-- The sum of the counts of a bucket map. -/
def valueSum {κ : Type} (o : List (κ × Nat)) : Nat :=
  (o.map (fun p => p.2)).sum

/-- The cause `c` is present on an `error` entry of service `s`. -/
def isErrorCause (logs : List LogEntry) (s c : String) : Prop :=
  ∃ l ∈ logs, l.service = s ∧ l.level = "error" ∧ l.cause = some c ∧ c ≠ ""

/-! ## Sample inputs for the last claims -/

/-- A well-formed forge event. -/
def pushEvent : GitHubEvent :=
  { created_at := .str "2024-05-01T12:34:56Z", type := .str "PushEvent",
    repo := some (.str "octo/repo"), actor := some (.str "alice") }

/-- A feed item whose first word has no alphanumeric character. -/
def itemWithoutWord : FeedItem :=
  { pubDate := .str "2024-05-01 12:34:56", title := .str "!!! wow", author := .str "bob" }

/-- A feed item whose first word is `[Show]`. -/
def itemShow : FeedItem :=
  { pubDate := .str "2024-05-01 12:40:00", title := .str "[Show] my project",
    author := .str "carol" }

/-- A raw event with an abnormal cause. -/
def rawDeadlock : RawEvent :=
  { time := .str "12:03", service := .str "Database", event := .str "Deadlock detected",
    cause := .str "Concurrent writes", level := .str "error" }

/-- An `error` entry of service `__proto__` with a cause. -/
def protoCauseLogs : List LogEntry :=
  [⟨some "12:03:00", "__proto__", "error", "[__proto__] New connections rejected",
    some "Pool saturation"⟩]

/-- An `info` entry of `Cards` and an `info` entry of service `__proto__`. -/
def protoTotalLogs : List LogEntry :=
  [infoCards, ⟨some "12:05:00", "__proto__", "info", "[__proto__] Heartbeat", none⟩]

/-- A reply with status 500 and a body without fields. -/
def replyServerError : GeminiReply :=
  .body 500 none (.error "Cannot read properties of undefined (reading '0')")

/-- A reply with status 200 and an answer. -/
def replyAnswer : GeminiReply :=
  .body 200 none (.ok "The database connection pool was exhausted.")

/-- A wiki page address. -/
def wikiIndiaUrl : String :=
  "https://en.wikipedia.org/wiki/India"

/-- Percent-encoding that leaves the text as it is. -/
def plainEncoding : String → String :=
  fun s => s

/-- Three raw events, one of them an error. -/
def oneErrorLogs : List RawEvent :=
  [rawDeadlock, rawRead, rawWarn]

/-- Two raw events, none of them an error. -/
def noErrorLogs : List RawEvent :=
  [rawRead, rawWarn]

/-- Four raw events, three of them errors. -/
def threeErrorLogs : List RawEvent :=
  [rawDeadlock, rawDeadlock, rawRead, rawDeadlock]

/-- One cached log entry. -/
def cachedEntry : NormalizedEntry :=
  { timestamp := .str "12:03", service := .str "Database", level := "error",
    message := "[Database] Deadlock detected - Concurrent writes",
    cause := .str "Concurrent writes" }
/-! ## Lemmas on the object model -/

section ObjectLemmas
variable {κ α : Type}

theorem getOwn_eq_none_iff [DecidableEq κ] (o : List (κ × α)) (k : κ) :
    getOwn o k = none ↔ k ∉ keysOf o := by
  induction o with
  | nil => simp [getOwn, keysOf]
  | cons p t ih =>
    obtain ⟨k', v⟩ := p
    by_cases h : k' = k
    · simp [getOwn, keysOf, h]
    · have h' : ¬ k = k' := fun e => h e.symm
      simpa [getOwn, keysOf, h, h'] using ih

theorem getOwn_mem [DecidableEq κ] {o : List (κ × α)} {k : κ} {v : α}
    (h : getOwn o k = some v) : (k, v) ∈ o := by
  induction o with
  | nil => simp [getOwn] at h
  | cons p t ih =>
    obtain ⟨k', v'⟩ := p
    by_cases hk : k' = k
    · simp [getOwn, hk] at h
      simp [hk, h]
    · simp [getOwn, hk] at h
      exact List.mem_cons_of_mem _ (ih h)

theorem getOwn_of_mem [DecidableEq κ] {o : List (κ × α)} {k : κ} {v : α}
    (hnd : (keysOf o).Nodup) (h : (k, v) ∈ o) : getOwn o k = some v := by
  induction o with
  | nil => simp at h
  | cons p t ih =>
    obtain ⟨k', v'⟩ := p
    simp only [keysOf, List.map_cons, List.nodup_cons] at hnd
    rcases List.mem_cons.1 h with e | e
    · cases e
      simp [getOwn]
    · have hk : k' ≠ k := by
        intro e'
        subst e'
        exact hnd.1 (List.mem_map_of_mem Prod.fst e)
      simp only [getOwn, hk, if_false]
      exact ih hnd.2 e

theorem insertIndexKey_perm [PropertyKey κ] (n : Nat) (k : κ) (v : α) (o : List (κ × α)) :
    (insertIndexKey n k v o).Perm ((k, v) :: o) := by
  induction o with
  | nil => simp [insertIndexKey]
  | cons p t ih =>
    obtain ⟨k', v'⟩ := p
    simp only [insertIndexKey]
    split
    · split
      · exact (List.Perm.cons _ ih).trans (List.Perm.swap _ _ _)
      · exact List.Perm.refl _
    · exact List.Perm.refl _

theorem addOwn_perm [PropertyKey κ] (o : List (κ × α)) (k : κ) (v : α) :
    (addOwn o k v).Perm ((k, v) :: o) := by
  unfold addOwn
  split
  · exact insertIndexKey_perm _ _ _ _
  · exact List.perm_append_singleton _ _

theorem putOwn_of_not_mem [DecidableEq κ] [PropertyKey κ] {o : List (κ × α)} {k : κ} (v : α)
    (h : k ∉ keysOf o) : putOwn o k v = addOwn o k v := by
  have := (getOwn_eq_none_iff o k).2 h
  simp [putOwn, this]

theorem foldl_putOwn_perm [DecidableEq κ] [PropertyKey κ] (l : List (κ × α)) :
    ∀ acc : List (κ × α), (keysOf (acc ++ l)).Nodup →
      (l.foldl (fun o p => putOwn o p.1 p.2) acc).Perm (acc ++ l) := by
  induction l with
  | nil => intro acc _; simp
  | cons p t ih =>
    intro acc hnd
    have hp : p.1 ∉ keysOf acc := by
      intro hmem
      simp only [keysOf, List.map_append, List.map_cons] at hnd
      have := (List.nodup_append.1 hnd).2.2
      exact this hmem (List.mem_cons_self _ _)
    have h1 : (putOwn acc p.1 p.2).Perm (acc ++ [p]) := by
      rw [putOwn_of_not_mem _ hp]
      exact (addOwn_perm acc p.1 p.2).trans (List.perm_append_singleton _ _).symm
    have h2 : (putOwn acc p.1 p.2 ++ t).Perm (acc ++ p :: t) := by
      have := List.Perm.append_right t h1
      simpa using this
    have hnd' : (keysOf (putOwn acc p.1 p.2 ++ t)).Nodup :=
      ((h2.map Prod.fst).nodup_iff).2 hnd
    simp only [List.foldl_cons]
    exact (ih _ hnd').trans h2

theorem fromEntries_perm [DecidableEq κ] [PropertyKey κ] (l : List (κ × α)) (hnd : (keysOf l).Nodup) :
    (fromEntries l).Perm l := by
  have := foldl_putOwn_perm l [] (by simpa using hnd)
  simpa [fromEntries] using this

end ObjectLemmas

/-! ## Lemmas on service discovery and initialisation -/

theorem foldl_setAdd (xs : List String) :
    ∀ acc : List String, acc.Nodup →
      (xs.foldl setAdd acc).Nodup ∧ ∀ x, x ∈ xs.foldl setAdd acc ↔ x ∈ acc ∨ x ∈ xs := by
  induction xs with
  | nil => intro acc h; simp [h]
  | cons a t ih =>
    intro acc h
    have hnd : (setAdd acc a).Nodup := by
      unfold setAdd
      split
      · exact h
      · rename_i ha
        exact List.nodup_append.2 ⟨h, List.nodup_singleton a, by
          intro x hx hx'
          simp at hx'
          subst hx'
          exact ha hx⟩
    have hmem : ∀ x, x ∈ setAdd acc a ↔ x ∈ acc ∨ x = a := by
      intro x
      unfold setAdd
      split
      · rename_i ha
        constructor
        · exact Or.inl
        · rintro (h' | h')
          · exact h'
          · exact h' ▸ ha
      · simp
    obtain ⟨h1, h2⟩ := ih (setAdd acc a) hnd
    refine ⟨h1, fun x => ?_⟩
    simp only [List.foldl_cons, h2, hmem, List.mem_cons]
    tauto

theorem newSet_nodup (xs : List String) : (newSet xs).Nodup :=
  (foldl_setAdd xs [] List.nodup_nil).1

theorem mem_newSet (xs : List String) (x : String) : x ∈ newSet xs ↔ x ∈ xs := by
  simpa using (foldl_setAdd xs [] List.nodup_nil).2 x

theorem foldl_assign_own (l : List String) :
    ∀ o : StatsObject,
      (l.foldl (fun o s => o.assign s (blankStats s)) o).own =
        ((ownServices l).map (fun s => (s, blankStats s))).foldl
          (fun o p => putOwn o p.1 p.2) o.own := by
  induction l with
  | nil => intro o; simp [ownServices]
  | cons a t ih =>
    intro o
    simp only [List.foldl_cons, ih]
    by_cases ha : a = "__proto__"
    · simp [ownServices, ha, StatsObject.assign]
    · simp [ownServices, ha, StatsObject.assign]

theorem foldl_assign_proto (l : List String) :
    ∀ o : StatsObject,
      (l.foldl (fun o s => o.assign s (blankStats s)) o).proto =
        if "__proto__" ∈ l then some (blankStats "__proto__") else o.proto := by
  induction l with
  | nil => intro o; simp
  | cons a t ih =>
    intro o
    simp only [List.foldl_cons, ih]
    by_cases ha : a = "__proto__"
    · subst ha
      by_cases ht : "__proto__" ∈ t
      · simp [ht]
      · simp [ht, StatsObject.assign]
    · have ha' : ¬ "__proto__" = a := fun e => ha e.symm
      simp [StatsObject.assign, ha, ha']

theorem initStats_own_perm (services : List String) (hnd : services.Nodup) :
    (initStats services).own.Perm ((ownServices services).map (fun s => (s, blankStats s))) := by
  unfold initStats
  rw [foldl_assign_own]
  have hk : keysOf ((ownServices services).map (fun s => (s, blankStats s))) =
      ownServices services := by
    simp [keysOf, Function.comp_def]
  have := foldl_putOwn_perm ((ownServices services).map (fun s => (s, blankStats s))) []
    (by
      rw [List.nil_append, hk]
      exact hnd.filter _)
  simpa using this

theorem initStats_proto (services : List String) :
    (initStats services).proto =
      if "__proto__" ∈ services then some (blankStats "__proto__") else none := by
  unfold initStats
  rw [foldl_assign_proto]

/-! ## Lemmas on the pass over the entries -/

section MoreObjectLemmas
variable {κ α : Type}

theorem getOwn_cons [DecidableEq κ] (p : κ × α) (t : List (κ × α)) (k : κ) :
    getOwn (p :: t) k = if p.1 = k then some p.2 else getOwn t k := by
  obtain ⟨k1, v1⟩ := p
  rfl

theorem modifyOwn_cons [DecidableEq κ] (p : κ × α) (t : List (κ × α)) (k : κ) (f : α → α) :
    modifyOwn (p :: t) k f = (if p.1 = k then (p.1, f p.2) else p) :: modifyOwn t k f := rfl

theorem getOwn_modifyOwn [DecidableEq κ] (o : List (κ × α)) (k k' : κ) (f : α → α) :
    getOwn (modifyOwn o k f) k' = (getOwn o k').map (fun v => if k' = k then f v else v) := by
  induction o with
  | nil => simp [modifyOwn, getOwn]
  | cons p t ih =>
    rw [modifyOwn_cons, getOwn_cons, getOwn_cons, ih]
    by_cases h1 : p.1 = k
    · by_cases h2 : p.1 = k'
      · have h3 : k' = k := h2 ▸ h1
        simp [h1, h3]
      · have h3 : ¬ k = k' := h1 ▸ h2
        simp [h1, h3]
    · by_cases h2 : p.1 = k'
      · have h3 : ¬ k' = k := h2 ▸ h1
        simp [h1, h2, h3]
      · simp [h1, h2]

theorem getOwn_insertIndexKey [DecidableEq κ] [PropertyKey κ] (n : Nat) (k : κ) (v : α) (o : List (κ × α))
    (hk : k ∉ keysOf o) (k' : κ) :
    getOwn (insertIndexKey n k v o) k' = if k' = k then some v else getOwn o k' := by
  induction o with
  | nil =>
    by_cases h : k = k'
    · simp [insertIndexKey, getOwn, h]
    · have h' : ¬ k' = k := fun e => h e.symm
      simp [insertIndexKey, getOwn, h, h']
  | cons p t ih =>
    obtain ⟨k1, v1⟩ := p
    simp only [keysOf, List.map_cons, List.mem_cons, not_or] at hk
    have hhead : getOwn ((k, v) :: (k1, v1) :: t) k' =
        if k' = k then some v else getOwn ((k1, v1) :: t) k' := by
      by_cases h : k = k'
      · simp [getOwn, h]
      · have h' : ¬ k' = k := fun e => h e.symm
        simp [getOwn, h, h']
    simp only [insertIndexKey]
    split
    · split
      · simp only [getOwn]
        by_cases h2 : k1 = k'
        · have h3 : ¬ k' = k := fun e => hk.1 (e.symm.trans h2.symm)
          simp [h2, h3]
        · simp only [h2, if_false]
          exact ih hk.2
      · exact hhead
    · exact hhead

theorem getOwn_append_singleton [DecidableEq κ] (o : List (κ × α)) (k : κ) (v : α)
    (hk : k ∉ keysOf o) (k' : κ) :
    getOwn (o ++ [(k, v)]) k' = if k' = k then some v else getOwn o k' := by
  induction o with
  | nil =>
    by_cases h : k = k'
    · simp [getOwn, h]
    · have h' : ¬ k' = k := fun e => h e.symm
      simp [getOwn, h, h']
  | cons p t ih =>
    obtain ⟨k1, v1⟩ := p
    simp only [keysOf, List.map_cons, List.mem_cons, not_or] at hk
    simp only [List.cons_append, getOwn]
    by_cases h2 : k1 = k'
    · have h3 : ¬ k' = k := fun e => hk.1 (e.symm.trans h2.symm)
      simp [h2, h3]
    · simp only [h2, if_false]
      exact ih hk.2

theorem getOwn_putOwn [DecidableEq κ] [PropertyKey κ] (o : List (κ × α)) (k : κ) (v : α) (k' : κ) :
    getOwn (putOwn o k v) k' = if k' = k then some v else getOwn o k' := by
  unfold putOwn
  cases hg : getOwn o k with
  | none =>
    have hk := (getOwn_eq_none_iff o k).1 hg
    simp only [addOwn]
    split
    · exact getOwn_insertIndexKey _ _ _ _ hk _
    · exact getOwn_append_singleton _ _ _ hk _
  | some w =>
    simp only [getOwn_modifyOwn]
    by_cases h : k' = k
    · subst h
      simp [hg]
    · simp only [h, if_false]
      cases getOwn o k' <;> simp

theorem modifyOwn_keys [DecidableEq κ] (o : List (κ × α)) (k : κ) (f : α → α) :
    keysOf (modifyOwn o k f) = keysOf o := by
  simp only [keysOf, modifyOwn, List.map_map]
  apply List.map_congr_left
  intro p _
  by_cases h : p.1 = k <;> simp [h]

end MoreObjectLemmas

theorem modifyOwn_eq_map_tally (o : StatsObject) (log : LogEntry) (h : NoProtoKey o)
    (f : ServiceStats → ServiceStats)
    (hf : ∀ v, f v = tallyStep log.service v log) :
    (o.modify log.service f).own = o.own.map (fun p => (p.1, tallyStep p.1 p.2 log)) := by
  unfold StatsObject.modify
  split
  · rename_i hs
    symm
    calc o.own.map (fun p => (p.1, tallyStep p.1 p.2 log))
        = o.own.map id := by
          apply List.map_congr_left
          intro p hp
          have : ¬ log.service = p.1 := fun e => h p hp (e.symm.trans hs)
          simp [tallyStep, this]
      _ = o.own := List.map_id _
  · simp only [modifyOwn]
    apply List.map_congr_left
    intro p _
    by_cases hp : p.1 = log.service
    · have hp' : log.service = p.1 := hp.symm
      rw [if_pos hp, hf]
      simp [tallyStep, hp']
    · have hp' : ¬ log.service = p.1 := fun e => hp e.symm
      simp [tallyStep, hp, hp']

theorem own_eq_map_tally_of_get_none (o : StatsObject) (log : LogEntry) (h : NoProtoKey o)
    (hg : o.get log.service = none) :
    o.own = o.own.map (fun p => (p.1, tallyStep p.1 p.2 log)) := by
  symm
  calc o.own.map (fun p => (p.1, tallyStep p.1 p.2 log))
      = o.own.map id := by
        apply List.map_congr_left
        intro p hp
        have : ¬ log.service = p.1 := by
          intro e
          unfold StatsObject.get at hg
          split at hg
          · rename_i hs
            exact h p hp (e.symm.trans hs)
          · have := (getOwn_eq_none_iff o.own log.service).1 hg
            exact this (e ▸ List.mem_map_of_mem Prod.fst hp)
        simp [tallyStep, this]
    _ = o.own := List.map_id _

/-- The three ways in which the loop body completes. -/
theorem logStep_ok {st st1 : PassState} {log : LogEntry} (h : logStep st log = .ok st1) :
    (st.stats.get log.service = none ∧ st1 = st) ∨
    ((st.stats.get log.service).isSome ∧ log.level = "error" ∧
      ∃ ts, log.timestamp = some ts ∧
        st1 = { stats := st.stats.modify log.service (countError log.cause)
                timelineData := bumpBucket st.timelineData (substring05 ts)
                firstFailure :=
                  match st.firstFailure with
                  | some ff => some ff
                  | none => some { service := log.service, time := ts, cause := log.message } }) ∨
    ((st.stats.get log.service).isSome ∧ log.level ≠ "error" ∧
      st1 = { st with stats := st.stats.modify log.service countOther }) := by
  unfold logStep at h
  cases hg : st.stats.get log.service with
  | none =>
    simp only [hg] at h
    left
    exact ⟨rfl, (Except.ok.inj h).symm⟩
  | some v =>
    simp only [hg] at h
    right
    by_cases hl : log.level = "error"
    · left
      simp only [hl, if_true] at h
      cases hts : log.timestamp with
      | none =>
        simp only [hts] at h
        cases h
      | some ts =>
        simp only [hts] at h
        exact ⟨rfl, hl, ts, rfl, (Except.ok.inj h).symm⟩
    · right
      simp only [hl, if_false] at h
      exact ⟨rfl, hl, (Except.ok.inj h).symm⟩

theorem logStep_own {st st1 : PassState} {log : LogEntry} (h : logStep st log = .ok st1)
    (hp : NoProtoKey st.stats) :
    st1.stats.own = st.stats.own.map (fun p => (p.1, tallyStep p.1 p.2 log)) := by
  rcases logStep_ok h with ⟨hg, rfl⟩ | ⟨_, hl, ts, _, rfl⟩ | ⟨_, hl, rfl⟩
  · exact own_eq_map_tally_of_get_none _ _ hp hg
  · exact modifyOwn_eq_map_tally _ _ hp _ (fun v => by simp [tallyStep, hl])
  · exact modifyOwn_eq_map_tally _ _ hp _ (fun v => by simp [tallyStep, hl])

theorem foldlM_logStep_own (logs : List LogEntry) :
    ∀ st st' : PassState, logs.foldlM logStep st = .ok st' → NoProtoKey st.stats →
      st'.stats.own = st.stats.own.map (fun p => (p.1, logs.foldl (tallyStep p.1) p.2)) := by
  induction logs with
  | nil =>
    intro st st' h _
    have : st = st' := Except.ok.inj h
    subst this
    simp
  | cons log t ih =>
    intro st st' h hp
    rw [List.foldlM_cons] at h
    cases h1 : logStep st log with
    | error e => rw [h1] at h; cases h
    | ok st1 =>
      rw [h1] at h
      have hown := logStep_own h1 hp
      have hp1 : NoProtoKey st1.stats := by
        intro p hmem
        rw [hown] at hmem
        obtain ⟨q, hq, rfl⟩ := List.mem_map.1 hmem
        exact hp q hq
      have := ih st1 st' h hp1
      rw [this, hown, List.map_map]
      apply List.map_congr_left
      intro p _
      simp

theorem get_modify_isSome (o : StatsObject) (s s' : String) (f : ServiceStats → ServiceStats) :
    ((o.modify s f).get s').isSome = (o.get s').isSome := by
  unfold StatsObject.modify StatsObject.get
  by_cases hs : s = "__proto__" <;> by_cases hs' : s' = "__proto__"
  · simp [hs, hs']
  · simp [hs, hs']
  · simp [hs, hs']
  · simp [hs, hs', getOwn_modifyOwn]

theorem logStep_present {st st1 : PassState} {log : LogEntry} (h : logStep st log = .ok st1)
    (s : String) : (st1.stats.get s).isSome = (st.stats.get s).isSome := by
  rcases logStep_ok h with ⟨_, rfl⟩ | ⟨_, _, ts, _, rfl⟩ | ⟨_, _, rfl⟩
  · rfl
  · exact get_modify_isSome _ _ _ _
  · exact get_modify_isSome _ _ _ _

theorem foldlM_logStep_rest (logs : List LogEntry) :
    ∀ st st' : PassState, logs.foldlM logStep st = .ok st' →
      (∀ log ∈ logs, (st.stats.get log.service).isSome) →
      st'.timelineData = logs.foldl timelineStep st.timelineData ∧
      st'.firstFailure = logs.foldl firstFailureStep st.firstFailure ∧
      ∀ log ∈ logs, log.level = "error" → log.timestamp ≠ none := by
  induction logs with
  | nil =>
    intro st st' h _
    have : st = st' := Except.ok.inj h
    subst this
    simp
  | cons log t ih =>
    intro st st' h hpres
    rw [List.foldlM_cons] at h
    cases h1 : logStep st log with
    | error e => rw [h1] at h; cases h
    | ok st1 =>
      rw [h1] at h
      have hpres1 : ∀ l ∈ t, (st1.stats.get l.service).isSome := by
        intro l hl
        rw [logStep_present h1]
        exact hpres l (List.mem_cons_of_mem _ hl)
      obtain ⟨i1, i2, i3⟩ := ih st1 st' h hpres1
      have hhead := hpres log (List.mem_cons_self _ _)
      rcases logStep_ok h1 with ⟨hg, _⟩ | ⟨_, hl, ts, hts, e⟩ | ⟨_, hl, e⟩
      · rw [hg] at hhead
        cases hhead
      · subst e
        refine ⟨?_, ?_, ?_⟩
        · simpa [timelineStep, hl, hts] using i1
        · rw [i2]
          simp only [List.foldl_cons]
          congr 1
          cases hff : st.firstFailure <;> simp [firstFailureStep, hl, hts]
        · intro l hmem
          rcases List.mem_cons.1 hmem with e | e
          · subst e
            intro _
            simp [hts]
          · exact i3 l e
      · subst e
        refine ⟨?_, ?_, ?_⟩
        · simpa [timelineStep, hl] using i1
        · rw [i2]
          simp only [List.foldl_cons]
          congr 1
          cases hff : st.firstFailure <;> simp [firstFailureStep, hl]
        · intro l hmem
          rcases List.mem_cons.1 hmem with e | e
          · subst e
            intro hl'
            exact absurd hl' hl
          · exact i3 l e

theorem foldlM_logStep_returns (logs : List LogEntry)
    (h : ∀ log ∈ logs, log.level = "error" → log.timestamp ≠ none) :
    ∀ st : PassState, ∃ st', logs.foldlM logStep st = .ok st' := by
  induction logs with
  | nil => intro st; exact ⟨st, rfl⟩
  | cons log t ih =>
    intro st
    have hstep : ∃ st1, logStep st log = .ok st1 := by
      cases hg : st.stats.get log.service with
      | none => exact ⟨st, by simp only [logStep, hg]; rfl⟩
      | some v =>
        by_cases hl : log.level = "error"
        · cases hts : log.timestamp with
          | none => exact absurd hts (h log (List.mem_cons_self _ _) hl)
          | some ts => exact ⟨_, by simp only [logStep, hg, hl, hts, if_true]; rfl⟩
        · exact ⟨_, by simp only [logStep, hg, hl, if_false]; rfl⟩
    obtain ⟨st1, h1⟩ := hstep
    obtain ⟨st', h'⟩ := ih (fun l hl => h l (List.mem_cons_of_mem _ hl)) st1
    exact ⟨st', by rw [List.foldlM_cons, h1]; exact h'⟩

theorem foldlM_logStep_throws (logs : List LogEntry) :
    ∀ st : PassState, (∀ log ∈ logs, (st.stats.get log.service).isSome) →
      (∃ log ∈ logs, log.level = "error" ∧ log.timestamp = none) →
      ∃ msg, logs.foldlM logStep st = .error msg := by
  induction logs with
  | nil => intro st _ ⟨l, hl, _⟩; cases hl
  | cons log t ih =>
    intro st hpres hex
    rw [List.foldlM_cons]
    cases h1 : logStep st log with
    | error e => exact ⟨e, rfl⟩
    | ok st1 =>
      have hpres1 : ∀ l ∈ t, (st1.stats.get l.service).isSome := by
        intro l hl
        rw [logStep_present h1]
        exact hpres l (List.mem_cons_of_mem _ hl)
      have hex1 : ∃ l ∈ t, l.level = "error" ∧ l.timestamp = none := by
        obtain ⟨l, hl, h2, h3⟩ := hex
        rcases List.mem_cons.1 hl with e | e
        · subst e
          have hhead := hpres l (List.mem_cons_self _ _)
          rcases logStep_ok h1 with ⟨hg, _⟩ | ⟨_, _, ts, hts, _⟩ | ⟨_, hl', _⟩
          · rw [hg] at hhead; cases hhead
          · rw [h3] at hts; cases hts
          · exact absurd h2 hl'
        · exact ⟨l, e, h2, h3⟩
      obtain ⟨msg, hmsg⟩ := ih st1 hpres1 hex1
      exact ⟨msg, hmsg⟩

theorem initStats_noProtoKey (services : List String) (hnd : services.Nodup) :
    NoProtoKey (initStats services) := by
  intro p hp
  have := (initStats_own_perm services hnd).mem_iff.1 hp
  obtain ⟨s, hs, rfl⟩ := List.mem_map.1 this
  simpa [ownServices] using (List.mem_filter.1 hs).2

theorem initStats_keys_nodup (services : List String) (hnd : services.Nodup) :
    (keysOf (initStats services).own).Nodup := by
  have h := (initStats_own_perm services hnd).map Prod.fst
  have hk : ((ownServices services).map (fun s => (s, blankStats s))).map Prod.fst =
      ownServices services := by
    simp [Function.comp_def]
  rw [hk] at h
  exact h.nodup_iff.2 (hnd.filter _)

theorem initStats_present (services : List String) (hnd : services.Nodup)
    (s : String) (hs : s ∈ services) : ((initStats services).get s).isSome := by
  unfold StatsObject.get
  split
  · rename_i hp
    subst hp
    simp [initStats_proto, hs]
  · rename_i hp
    have hmem : (s, blankStats s) ∈ (initStats services).own := by
      apply (initStats_own_perm services hnd).mem_iff.2
      exact List.mem_map.2 ⟨s, List.mem_filter.2 ⟨hs, by simpa using hp⟩, rfl⟩
    rw [getOwn_of_mem (initStats_keys_nodup services hnd) hmem]
    rfl

/-! ## The result of performLogAnalysis -/

theorem performLogAnalysis_eq (logs : List LogEntry) :
    performLogAnalysis logs =
      match logs.foldlM logStep (startState logs) with
      | .ok st => .ok (finish st)
      | .error e => .error e := by
  unfold performLogAnalysis
  show (logs.foldlM logStep (startState logs) >>= fun st => pure (finish st)) = _
  cases logs.foldlM logStep (startState logs) <;> rfl

theorem startState_present (logs : List LogEntry) :
    ∀ log ∈ logs, ((startState logs).stats.get log.service).isSome := by
  intro log hl
  apply initStats_present _ (newSet_nodup _)
  rw [mem_newSet]
  exact List.mem_map_of_mem _ hl

theorem statsKeys_nodup (logs : List LogEntry) : (statsKeys logs).Nodup :=
  (newSet_nodup _).filter _

theorem mem_statsKeys (logs : List LogEntry) (s : String) :
    s ∈ statsKeys logs ↔ (∃ log ∈ logs, log.service = s) ∧ s ≠ "__proto__" := by
  simp [statsKeys, ownServices, List.mem_filter, mem_newSet]

/-- The shape of every result: the returned `stats` holds, in some order, one
record per discovered service other than `__proto__`. -/
theorem performLogAnalysis_ok {logs : List LogEntry} {r : Analysis}
    (h : performLogAnalysis logs = .ok r) :
    r.stats.Perm ((statsKeys logs).map (fun s => (s, finalStats s logs))) ∧
    r.timelineData = logs.foldl timelineStep [] ∧
    r.firstFailure = logs.foldl firstFailureStep none ∧
    ∀ log ∈ logs, log.level = "error" → log.timestamp ≠ none := by
  rw [performLogAnalysis_eq] at h
  cases hf : logs.foldlM logStep (startState logs) with
  | error e => rw [hf] at h; cases h
  | ok st =>
    rw [hf] at h
    have hr : r = finish st := (Except.ok.inj h).symm
    subst hr
    have hnd := newSet_nodup (logs.map (fun l => l.service))
    have hown := foldlM_logStep_own logs _ _ hf (initStats_noProtoKey _ hnd)
    obtain ⟨h1, h2, h3⟩ := foldlM_logStep_rest logs _ _ hf (startState_present logs)
    refine ⟨?_, h1, h2, h3⟩
    have hperm : (st.stats.own.map (fun p => (p.1, deriveStatus p.2))).Perm
        ((statsKeys logs).map (fun s => (s, finalStats s logs))) := by
      rw [hown, List.map_map]
      have := (initStats_own_perm _ hnd).map
        (fun p : String × ServiceStats =>
          (p.1, deriveStatus (logs.foldl (tallyStep p.1) p.2)))
      simpa [statsKeys, finalStats, Function.comp_def, startState] using this
    have hsort := List.perm_insertionSort errorsDescending
      (st.stats.own.map (fun p => (p.1, deriveStatus p.2)))
    have hkeys : (keysOf ((st.stats.own.map
        (fun p => (p.1, deriveStatus p.2))).insertionSort errorsDescending)).Nodup := by
      have := ((hsort.trans hperm).map Prod.fst)
      have hk : ((statsKeys logs).map (fun s => (s, finalStats s logs))).map Prod.fst =
          statsKeys logs := by
        simp [Function.comp_def]
      rw [hk] at this
      exact this.nodup_iff.2 (statsKeys_nodup logs)
    exact ((fromEntries_perm _ hkeys).trans hsort).trans hperm

theorem performLogAnalysis_returns (logs : List LogEntry)
    (h : ∀ log ∈ logs, log.level = "error" → log.timestamp ≠ none) :
    ∃ r, performLogAnalysis logs = .ok r := by
  obtain ⟨st, hst⟩ := foldlM_logStep_returns logs h (startState logs)
  exact ⟨finish st, by rw [performLogAnalysis_eq, hst]⟩

theorem performLogAnalysis_throws (logs : List LogEntry)
    (h : ∃ log ∈ logs, log.level = "error" ∧ log.timestamp = none) :
    ∃ msg, performLogAnalysis logs = .error msg := by
  obtain ⟨msg, hmsg⟩ := foldlM_logStep_throws logs (startState logs) (startState_present logs) h
  exact ⟨msg, by rw [performLogAnalysis_eq, hmsg]⟩

/-! ## The counters -/

theorem foldl_tallyStep (s : String) (logs : List LogEntry) :
    ∀ v : ServiceStats,
      (logs.foldl (tallyStep s) v).name = v.name ∧
      (logs.foldl (tallyStep s) v).total = v.total + countService s logs ∧
      (logs.foldl (tallyStep s) v).errors = v.errors + countServiceErrors s logs ∧
      (logs.foldl (tallyStep s) v).info = v.info + countServiceOthers s logs := by
  induction logs with
  | nil => intro v; simp [countService, countServiceErrors, countServiceOthers]
  | cons log t ih =>
    intro v
    obtain ⟨i1, i2, i3, i4⟩ := ih (tallyStep s v log)
    simp only [List.foldl_cons, i1, i2, i3, i4, countService, countServiceErrors,
      countServiceOthers, List.countP_cons]
    by_cases hs : log.service = s
    · by_cases hl : log.level = "error"
      · simp [tallyStep, hs, hl, countError]
        omega
      · simp [tallyStep, hs, hl, countOther]
        omega
    · simp [tallyStep, hs]

theorem deriveStatus_fields (v : ServiceStats) :
    (deriveStatus v).name = v.name ∧ (deriveStatus v).total = v.total ∧
    (deriveStatus v).errors = v.errors ∧ (deriveStatus v).info = v.info ∧
    (deriveStatus v).causes = v.causes := by
  simp only [deriveStatus]
  split_ifs <;> exact ⟨rfl, rfl, rfl, rfl, rfl⟩

theorem finalStats_fields (s : String) (logs : List LogEntry) :
    (finalStats s logs).name = s ∧
    (finalStats s logs).total = countService s logs ∧
    (finalStats s logs).errors = countServiceErrors s logs ∧
    (finalStats s logs).info = countServiceOthers s logs := by
  obtain ⟨d1, d2, d3, d4, _⟩ := deriveStatus_fields (logs.foldl (tallyStep s) (blankStats s))
  obtain ⟨t1, t2, t3, t4⟩ := foldl_tallyStep s logs (blankStats s)
  unfold finalStats
  rw [d1, d2, d3, d4, t1, t2, t3, t4]
  simp [blankStats]

theorem countServiceErrors_le (s : String) (logs : List LogEntry) :
    countServiceErrors s logs ≤ countService s logs := by
  unfold countServiceErrors countService
  apply List.countP_mono_left
  intro l _ h
  simp only [decide_eq_true_eq] at h ⊢
  exact h.1

theorem countService_le_length (s : String) (logs : List LogEntry) :
    countService s logs ≤ logs.length :=
  List.countP_le_length _

theorem countService_pos {s : String} {logs : List LogEntry}
    (h : ∃ log ∈ logs, log.service = s) : 0 < countService s logs := by
  obtain ⟨log, hl, hs⟩ := h
  exact List.countP_pos_iff.2 ⟨log, hl, by simpa using hs⟩

/-! ## The error rate in binary64 -/

theorem roundHalfEven_bounds (n d : Nat) (hd : 0 < d) :
    2 * (roundHalfEven n d * d) ≤ 2 * n + d ∧ 2 * n ≤ 2 * (roundHalfEven n d * d) + d := by
  have h := Nat.div_add_mod n d
  have hr := Nat.mod_lt n hd
  have e0 : (n / d) * d = d * (n / d) := Nat.mul_comm _ _
  have e1 : (n / d + 1) * d = d * (n / d) + d := by
    rw [Nat.add_mul, Nat.one_mul, Nat.mul_comm]
  simp only [roundHalfEven]
  split_ifs
  · rw [e0]; omega
  · rw [e1]; omega
  · rw [e0]; omega
  · rw [e1]; omega

theorem quotientShift_spec (t : Nat) :
    ∀ fuel e : Nat, 0 < e → t ≤ e * 2 ^ fuel →
      t ≤ e * 2 ^ quotientShift e t fuel ∧
      (quotientShift e t fuel = 0 ∨ e * 2 ^ quotientShift e t fuel < 2 * t) := by
  intro fuel
  induction fuel with
  | zero =>
    intro e _ h
    exact ⟨by simpa [quotientShift] using h, Or.inl rfl⟩
  | succ fuel ih =>
    intro e he h
    by_cases hte : t ≤ e
    · simp [quotientShift, hte]
    · have h' : t ≤ 2 * e * 2 ^ fuel := by
        rw [Nat.pow_succ] at h
        calc t ≤ e * (2 ^ fuel * 2) := h
          _ = 2 * e * 2 ^ fuel := by ring
      obtain ⟨i1, i2⟩ := ih (2 * e) (by omega) h'
      have e2 : e * 2 ^ (quotientShift (2 * e) t fuel + 1) =
          2 * e * 2 ^ quotientShift (2 * e) t fuel := by
        rw [Nat.pow_succ]; ring
      simp only [quotientShift, hte, if_false]
      rw [e2]
      refine ⟨i1, Or.inr ?_⟩
      rcases i2 with i2 | i2
      · rw [i2]; omega
      · exact i2

theorem quotientShift_le (t : Nat) :
    ∀ fuel e m : Nat, t ≤ e * 2 ^ m → quotientShift e t fuel ≤ m := by
  intro fuel
  induction fuel with
  | zero => intro e m _; simp [quotientShift]
  | succ fuel ih =>
    intro e m h
    by_cases hte : t ≤ e
    · simp [quotientShift, hte]
    · cases m with
      | zero => simp at h; exact absurd h hte
      | succ m =>
        have h' : t ≤ 2 * e * 2 ^ m := by
          rw [Nat.pow_succ] at h
          calc t ≤ e * (2 ^ m * 2) := h
            _ = 2 * e * 2 ^ m := by ring
        have := ih (2 * e) m h'
        simp only [quotientShift, hte, if_false]
        omega

/-- For counters below `2^32` (the length of an array is below `2^32`) the
binary64 test `errors / total > 0.1` decides `total < 10 * errors`. -/
theorem gtTenth_doubleQuotient (e t : Nat) (he : 0 < e) (het : e ≤ t) (ht : t < 2 ^ 32) :
    (doubleQuotient e t).gtTenth = true ↔ t < 10 * e := by
  have hfuel : t ≤ e * 2 ^ t := by
    have h1 : t < 2 ^ t := Nat.lt_two_pow t
    calc t ≤ 1 * 2 ^ t := by omega
      _ ≤ e * 2 ^ t := Nat.mul_le_mul_right _ he
  obtain ⟨hj1, hj2⟩ := quotientShift_spec t t e he hfuel
  have hj3 : quotientShift e t t ≤ 32 := by
    apply quotientShift_le
    calc t ≤ 1 * 2 ^ 32 := by omega
      _ ≤ e * 2 ^ 32 := Nat.mul_le_mul_right _ he
  obtain ⟨hr1, hr2⟩ :=
    roundHalfEven_bounds (e * 2 ^ (52 + quotientShift e t t)) t (by omega)
  simp only [Double.gtTenth, doubleQuotient, decide_eq_true_eq]
  generalize roundHalfEven (e * 2 ^ (52 + quotientShift e t t)) t = m at *
  generalize quotientShift e t t = j at *
  have hA : 7205759403792794 * 2 ^ (52 + j) < m * 2 ^ 56 →
      (7205759403792794 * 2 ^ (52 + j) / 2 ^ 56 + 1) * t ≤ m * t := by
    intro h
    apply Nat.mul_le_mul_right
    exact (Nat.div_lt_iff_lt_mul (by positivity)).2 h
  have hB : m * 2 ^ 56 ≤ 7205759403792794 * 2 ^ (52 + j) →
      m * t ≤ (7205759403792794 * 2 ^ (52 + j) / 2 ^ 56) * t := by
    intro h
    apply Nat.mul_le_mul_right
    exact (Nat.le_div_iff_mul_le (by positivity)).2 h
  generalize m * t = p at *
  have ht' : t < 4294967296 := by simpa using ht
  clear ht hfuel
  interval_cases j <;> norm_num at hj1 hj2 hr1 hr2 hA hB ⊢ <;>
    (constructor
     · intro h
       have := hA h
       omega
     · intro h
       by_contra hc
       have := hB (by omega)
       omega)

/-! ## Reading the returned objects -/

theorem stats_mem {logs : List LogEntry} {r : Analysis}
    (h : performLogAnalysis logs = .ok r) (p : String × ServiceStats) (hp : p ∈ r.stats) :
    p.1 ∈ statsKeys logs ∧ p.2 = finalStats p.1 logs := by
  have := (performLogAnalysis_ok h).1.mem_iff.1 hp
  obtain ⟨s, hs, rfl⟩ := List.mem_map.1 this
  exact ⟨hs, rfl⟩

theorem stats_keys_nodup {logs : List LogEntry} {r : Analysis}
    (h : performLogAnalysis logs = .ok r) : (keysOf r.stats).Nodup := by
  have hp := (performLogAnalysis_ok h).1.map Prod.fst
  have hk : ((statsKeys logs).map (fun s => (s, finalStats s logs))).map Prod.fst =
      statsKeys logs := by
    simp [Function.comp_def]
  rw [hk] at hp
  exact hp.nodup_iff.2 (statsKeys_nodup logs)

theorem stats_getOwn {logs : List LogEntry} {r : Analysis}
    (h : performLogAnalysis logs = .ok r) (s : String) (hs : s ∈ statsKeys logs) :
    getOwn r.stats s = some (finalStats s logs) := by
  apply getOwn_of_mem (stats_keys_nodup h)
  exact (performLogAnalysis_ok h).1.mem_iff.2 (List.mem_map.2 ⟨s, hs, rfl⟩)

theorem deriveStatus_status (v : ServiceStats) (h1 : v.errors ≤ v.total)
    (h2 : v.total < 2 ^ 32) :
    ((deriveStatus v).status = "Healthy" ↔ v.errors = 0) ∧
    ((deriveStatus v).status = "Critical" ↔ 0 < v.errors ∧ v.total < 10 * v.errors) ∧
    ((deriveStatus v).status = "Degraded" ↔ v.errors ≠ 0 ∧ ¬ v.total < 10 * v.errors) := by
  by_cases h0 : v.errors = 0
  · simp [deriveStatus, h0]
  · have hpos : 0 < v.total := by omega
    have hfl := gtTenth_doubleQuotient v.errors v.total (by omega) h1 h2
    by_cases hc : v.total < 10 * v.errors
    · have hg : (doubleQuotient v.errors v.total).gtTenth = true := hfl.2 hc
      simp [deriveStatus, h0, hpos, hg, hc]
      omega
    · have hg : ¬ (doubleQuotient v.errors v.total).gtTenth = true := fun e => hc (hfl.1 e)
      simp [deriveStatus, h0, hpos, hg, hc]

/-! ## firstFailure -/

theorem foldl_firstFailureStep_some (logs : List LogEntry) (f : FirstFailure) :
    logs.foldl firstFailureStep (some f) = some f := by
  induction logs with
  | nil => rfl
  | cons log t ih => simpa [firstFailureStep] using ih

theorem foldl_firstFailureStep_none (logs : List LogEntry)
    (h : ∀ log ∈ logs, log.level ≠ "error") :
    logs.foldl firstFailureStep none = none := by
  induction logs with
  | nil => rfl
  | cons log t ih =>
    have h1 : log.level ≠ "error" := h log (List.mem_cons_self _ _)
    simp only [List.foldl_cons, firstFailureStep, h1, if_false]
    exact ih (fun l hl => h l (List.mem_cons_of_mem _ hl))

theorem foldl_firstFailureStep_first (pre post : List LogEntry) (e : LogEntry) (ts : String)
    (hpre : ∀ x ∈ pre, x.level ≠ "error") (he : e.level = "error")
    (hts : e.timestamp = some ts) :
    (pre ++ e :: post).foldl firstFailureStep none =
      some { service := e.service, time := ts, cause := e.message } := by
  rw [List.foldl_append, foldl_firstFailureStep_none pre hpre, List.foldl_cons]
  have : firstFailureStep none e =
      some { service := e.service, time := ts, cause := e.message } := by
    simp [firstFailureStep, he, hts]
  rw [this, foldl_firstFailureStep_some]

/-! ## timelineData -/

theorem countBucket_eq (k : List Nat) (hk : k.length = 5) (logs : List LogEntry) :
    countBucket k logs = errorsStartingWith k logs := by
  unfold countBucket errorsStartingWith
  apply List.countP_congr
  intro l _
  simp only [decide_eq_true_eq]
  cases hts : l.timestamp with
  | none => simp
  | some ts =>
    simp only [Option.map_some', Option.some.injEq, Option.mem_def, exists_eq_left', substring05]
    constructor
    · rintro ⟨h1, h2⟩
      exact ⟨h1, h2 ▸ List.take_prefix _ _⟩
    · rintro ⟨h1, h2⟩
      refine ⟨h1, ?_⟩
      have := List.prefix_iff_eq_take.1 h2
      rw [hk] at this
      exact this.symm

theorem getOwn_bumpBucket (tl : List (List Nat × Nat)) (k k' : List Nat) :
    getOwn (bumpBucket tl k) k' = bumped (getOwn tl k') (if k = k' then 1 else 0) := by
  unfold bumpBucket
  rw [getOwn_putOwn]
  by_cases h : k' = k
  · subst h
    simp [bumped]
  · have h' : ¬ k = k' := fun e => h e.symm
    simp [bumped, h, h']

theorem bumped_bumped (o : Option Nat) (a b : Nat) :
    bumped (bumped o a) b = bumped o (a + b) := by
  unfold bumped
  by_cases ha : a = 0 <;> by_cases hb : b = 0 <;> simp [ha, hb]
  omega

theorem getOwn_foldl_timelineStep (k : List Nat) (logs : List LogEntry) :
    ∀ tl : List (List Nat × Nat),
      getOwn (logs.foldl timelineStep tl) k = bumped (getOwn tl k) (countBucket k logs) := by
  induction logs with
  | nil => intro tl; simp [countBucket, bumped]
  | cons log t ih =>
    intro tl
    have hstep : getOwn (timelineStep tl log) k =
        bumped (getOwn tl k)
          (if log.level = "error" ∧ log.timestamp.map substring05 = some k then 1 else 0) := by
      unfold timelineStep
      by_cases hl : log.level = "error"
      · cases hts : log.timestamp with
        | none => simp [hl, bumped]
        | some ts =>
          simp only [hl, if_true, getOwn_bumpBucket, true_and, Option.map_some',
            Option.some.injEq]
      · simp [hl, bumped]
    rw [List.foldl_cons, ih, hstep, bumped_bumped]
    congr 1
    unfold countBucket
    rw [List.countP_cons, Nat.add_comm]
    simp only [decide_eq_true_eq]

/-! ## Sums over the returned records -/

theorem countP_add_of_disjoint (p q : LogEntry → Bool) (logs : List LogEntry)
    (h : ∀ l, p l = true → q l = true → False) :
    logs.countP p + logs.countP q = logs.countP (fun l => p l || q l) := by
  induction logs with
  | nil => rfl
  | cons l t ih =>
    simp only [List.countP_cons]
    have := h l
    cases hp : p l <;> cases hq : q l <;> simp_all <;> omega

/-- Summing a per-service count over distinct services counts the entries of
those services. -/
theorem sum_countP_service (q : LogEntry → Bool) (logs : List LogEntry) :
    ∀ ks : List String, ks.Nodup →
      (ks.map (fun s => logs.countP (fun l => decide (l.service = s) && q l))).sum =
        logs.countP (fun l => decide (l.service ∈ ks) && q l) := by
  intro ks
  induction ks with
  | nil => intro _; simp
  | cons k t ih =>
    intro hnd
    obtain ⟨hk, ht⟩ := List.nodup_cons.1 hnd
    rw [List.map_cons, List.sum_cons, ih ht, countP_add_of_disjoint]
    · congr 1
      funext l
      by_cases h1 : l.service = k <;> by_cases h2 : l.service ∈ t <;>
        cases q l <;> simp [h1, h2]
    · intro l h1 h2
      simp only [Bool.and_eq_true, decide_eq_true_eq] at h1 h2
      exact hk (h1.1 ▸ h2.1)

/-- The `errors` fields of the returned records add up to the number of
`error` entries whose service is not `__proto__`. -/
theorem errors_sum {logs : List LogEntry} {r : Analysis}
    (h : performLogAnalysis logs = .ok r) :
    (r.stats.map (fun p => p.2.errors)).sum =
      logs.countP (fun l => decide (l.service ≠ "__proto__") && decide (l.level = "error")) := by
  have hperm := ((performLogAnalysis_ok h).1.map (fun p => p.2.errors)).sum_eq
  rw [hperm, List.map_map]
  have e1 : (statsKeys logs).map
      ((fun p : String × ServiceStats => p.2.errors) ∘ fun s => (s, finalStats s logs)) =
      (statsKeys logs).map (fun s =>
        logs.countP (fun l => decide (l.service = s) && decide (l.level = "error"))) := by
    apply List.map_congr_left
    intro s _
    simp only [Function.comp, (finalStats_fields s logs).2.2.1, countServiceErrors]
    congr 1
    funext l
    simp
  rw [e1, sum_countP_service _ _ _ (statsKeys_nodup logs)]
  apply List.countP_congr
  intro l hl
  have : l.service ∈ statsKeys logs ↔ l.service ≠ "__proto__" := by
    rw [mem_statsKeys]
    exact ⟨fun h => h.2, fun h => ⟨⟨l, hl, rfl⟩, h⟩⟩
  simp [this]

/-- The `total` fields of the returned records add up to the number of
entries whose service is not `__proto__`. -/
theorem total_sum {logs : List LogEntry} {r : Analysis}
    (h : performLogAnalysis logs = .ok r) :
    (r.stats.map (fun p => p.2.total)).sum =
      logs.countP (fun l => decide (l.service ≠ "__proto__")) := by
  have hperm := ((performLogAnalysis_ok h).1.map (fun p => p.2.total)).sum_eq
  rw [hperm, List.map_map]
  have e1 : (statsKeys logs).map
      ((fun p : String × ServiceStats => p.2.total) ∘ fun s => (s, finalStats s logs)) =
      (statsKeys logs).map (fun s =>
        logs.countP (fun l => decide (l.service = s) && true)) := by
    apply List.map_congr_left
    intro s _
    simp only [Function.comp, (finalStats_fields s logs).2.1, countService]
    congr 1
    funext l
    simp
  rw [e1, sum_countP_service _ _ _ (statsKeys_nodup logs)]
  apply List.countP_congr
  intro l hl
  have : l.service ∈ statsKeys logs ↔ l.service ≠ "__proto__" := by
    rw [mem_statsKeys]
    exact ⟨fun h => h.2, fun h => ⟨⟨l, hl, rfl⟩, h⟩⟩
  simp [this]

/-- Apart from `__proto__`, the keys of the returned `stats` are the services
of the entries. -/
theorem mem_keysOf_stats {logs : List LogEntry} {r : Analysis}
    (h : performLogAnalysis logs = .ok r) (s : String) :
    s ∈ keysOf r.stats ↔ (∃ log ∈ logs, log.service = s) ∧ s ≠ "__proto__" := by
  rw [← mem_statsKeys]
  have hp := (performLogAnalysis_ok h).1.map Prod.fst
  have hk : ((statsKeys logs).map (fun s => (s, finalStats s logs))).map Prod.fst =
      statsKeys logs := by
    simp [Function.comp_def]
  rw [hk] at hp
  exact hp.mem_iff

/-! ## The order of the returned records -/

theorem foldl_putOwn_eq {α : Type} (l : List (String × α)) :
    ∀ acc : List (String × α), (keysOf (acc ++ l)).Nodup →
      (∀ p ∈ l, arrayIndex p.1 = none) →
      l.foldl (fun o p => putOwn o p.1 p.2) acc = acc ++ l := by
  induction l with
  | nil => intro acc _ _; simp
  | cons p t ih =>
    intro acc hnd hidx
    have hp : p.1 ∉ keysOf acc := by
      intro hmem
      simp only [keysOf, List.map_append, List.map_cons] at hnd
      exact (List.nodup_append.1 hnd).2.2 hmem (List.mem_cons_self _ _)
    have h1 : putOwn acc p.1 p.2 = acc ++ [p] := by
      rw [putOwn_of_not_mem _ hp]
      have hi : PropertyKey.arrayIndex p.1 = none := hidx p (List.mem_cons_self _ _)
      simp [addOwn, hi]
    simp only [List.foldl_cons, h1]
    rw [ih (acc ++ [p]) (by simpa using hnd) (fun q hq => hidx q (List.mem_cons_of_mem _ hq))]
    simp

theorem fromEntries_eq_self {α : Type} (l : List (String × α)) (hnd : (keysOf l).Nodup)
    (hidx : ∀ p ∈ l, arrayIndex p.1 = none) : fromEntries l = l := by
  have := foldl_putOwn_eq l [] (by simpa using hnd) hidx
  simpa [fromEntries] using this

theorem initStats_own_eq (services : List String) (hnd : services.Nodup)
    (hidx : ∀ s ∈ services, arrayIndex s = none) :
    (initStats services).own = (ownServices services).map (fun s => (s, blankStats s)) := by
  unfold initStats
  rw [foldl_assign_own]
  have := foldl_putOwn_eq ((ownServices services).map (fun s => (s, blankStats s))) []
    (by
      simp only [List.nil_append, keysOf, List.map_map]
      have : (Prod.fst ∘ fun s => (s, blankStats s)) = id := rfl
      rw [this, List.map_id]
      exact hnd.filter _)
    (by
      intro p hp
      obtain ⟨s, hs, rfl⟩ := List.mem_map.1 hp
      exact hidx s (List.mem_filter.1 hs).1)
  simpa using this

/-- When no service name is an array index, the returned `stats` enumerates
the records of the discovered services, taken in discovery order and sorted
stably by descending `errors`. -/
theorem stats_eq_sorted {logs : List LogEntry} {r : Analysis}
    (h : performLogAnalysis logs = .ok r)
    (hidx : ∀ log ∈ logs, arrayIndex log.service = none) :
    r.stats =
      ((statsKeys logs).map (fun s => (s, finalStats s logs))).insertionSort
        errorsDescending := by
  have hperm := (performLogAnalysis_ok h).1
  rw [performLogAnalysis_eq] at h
  cases hf : logs.foldlM logStep (startState logs) with
  | error e => rw [hf] at h; cases h
  | ok st =>
    rw [hf] at h
    have hr : r = finish st := (Except.ok.inj h).symm
    subst hr
    have hnd := newSet_nodup (logs.map (fun l => l.service))
    have hidx' : ∀ s ∈ newSet (logs.map (fun l => l.service)), arrayIndex s = none := by
      intro s hs
      rw [mem_newSet] at hs
      obtain ⟨l, hl, rfl⟩ := List.mem_map.1 hs
      exact hidx l hl
    have hown := foldlM_logStep_own logs _ _ hf (initStats_noProtoKey _ hnd)
    have hentries : st.stats.own.map (fun p => (p.1, deriveStatus p.2)) =
        (statsKeys logs).map (fun s => (s, finalStats s logs)) := by
      rw [hown]
      simp only [startState, initStats_own_eq _ hnd hidx', List.map_map]
      rfl
    simp only [finish, hentries]
    apply fromEntries_eq_self
    · have := ((List.perm_insertionSort errorsDescending
        ((statsKeys logs).map (fun s => (s, finalStats s logs)))).map Prod.fst)
      have hk : ((statsKeys logs).map (fun s => (s, finalStats s logs))).map Prod.fst =
          statsKeys logs := by
        simp [Function.comp_def]
      rw [hk] at this
      exact this.nodup_iff.2 (statsKeys_nodup logs)
    · intro p hp
      rw [List.mem_insertionSort] at hp
      obtain ⟨s, hs, rfl⟩ := List.mem_map.1 hp
      obtain ⟨⟨l, hl, rfl⟩, _⟩ := (mem_statsKeys logs s).1 hs
      exact hidx l hl

/-- When no service name is an array index, the returned records have
non-increasing `errors`. -/
theorem stats_sorted {logs : List LogEntry} {r : Analysis}
    (h : performLogAnalysis logs = .ok r)
    (hidx : ∀ log ∈ logs, arrayIndex log.service = none) :
    r.stats.Pairwise errorsDescending := by
  rw [stats_eq_sorted h hidx]
  exact List.sorted_insertionSort errorsDescending _

/-- When no service name is an array index, two services with equal `errors`
keep their discovery order in the returned `stats`. -/
theorem stats_stable {logs : List LogEntry} {r : Analysis}
    (h : performLogAnalysis logs = .ok r)
    (hidx : ∀ log ∈ logs, arrayIndex log.service = none) (a b : String)
    (hab : [a, b].Sublist (statsKeys logs))
    (he : (finalStats b logs).errors ≤ (finalStats a logs).errors) :
    [(a, finalStats a logs), (b, finalStats b logs)].Sublist r.stats := by
  rw [stats_eq_sorted h hidx]
  apply List.pair_sublist_insertionSort
  · exact he
  · exact hab.map (fun s => (s, finalStats s logs))

/-! ## The claims -/

/-- C1, evaluated at a failing input: the single entry has service `__proto__`
and level `error`; the returned `stats` has no record for it, so the `errors`
fields add up to 0 although the list holds one `error` entry. -/
theorem C1_errors_sum_misses_proto_service :
    ∃ r, performLogAnalysis protoErrorLogs = .ok r ∧
      (r.stats.map (fun p => p.2.errors)).sum = 0 ∧ countErrors protoErrorLogs = 1 :=
  ⟨_, rfl, by decide, by decide⟩

/-- C2: when `performLogAnalysis` returns for an array `logs` (its length is
below `2^32`), every returned record is `Healthy` exactly when `errors = 0`,
`Critical` exactly when `errors > 0` and `10 * errors > total`, and `Degraded`
exactly in the remaining case. -/
theorem C2_status_rule (logs : List LogEntry) (r : Analysis)
    (hlen : logs.length < 2 ^ 32) (h : performLogAnalysis logs = .ok r)
    (p : String × ServiceStats) (hp : p ∈ r.stats) :
    (p.2.status = "Healthy" ↔ p.2.errors = 0) ∧
    (p.2.status = "Critical" ↔ 0 < p.2.errors ∧ p.2.total < 10 * p.2.errors) ∧
    (p.2.status = "Degraded" ↔ p.2.errors ≠ 0 ∧ ¬ p.2.total < 10 * p.2.errors) := by
  obtain ⟨_, hfin⟩ := stats_mem h p hp
  obtain ⟨_, t2, t3, _⟩ := foldl_tallyStep p.1 logs (blankStats p.1)
  obtain ⟨_, d2, d3, _, _⟩ := deriveStatus_fields (logs.foldl (tallyStep p.1) (blankStats p.1))
  have hle := countServiceErrors_le p.1 logs
  have hlen' := countService_le_length p.1 logs
  have hs := deriveStatus_status (logs.foldl (tallyStep p.1) (blankStats p.1))
    (by rw [t2, t3]; simpa [blankStats] using hle)
    (by rw [t2]; simp only [blankStats]; omega)
  rw [hfin]
  unfold finalStats
  rw [d2, d3]
  exact hs

/-- C2 at a concrete input: the record of `Auth`, with 1 error in 10 entries,
is `Degraded` and not `Critical`. -/
theorem C2_status_rule_witness :
    statusLogs.length < 2 ^ 32 ∧ performLogAnalysis statusLogs = .ok statusResult ∧
    ("Auth", degradedAuth) ∈ statusResult.stats ∧
    (degradedAuth.status = "Healthy" ↔ degradedAuth.errors = 0) ∧
    (degradedAuth.status = "Critical" ↔
      0 < degradedAuth.errors ∧ degradedAuth.total < 10 * degradedAuth.errors) ∧
    (degradedAuth.status = "Degraded" ↔
      degradedAuth.errors ≠ 0 ∧ ¬ degradedAuth.total < 10 * degradedAuth.errors) :=
  ⟨by decide, rfl, by decide,
    C2_status_rule statusLogs statusResult (by decide) rfl ("Auth", degradedAuth) (by decide)⟩

/-- C3, evaluated at a failing input: service `Database` has one error and
service `7` has none, yet the returned `stats` enumerates `7` first: the
`errors` fields read `[0, 1]`, which is not non-increasing. -/
theorem C3_order_lost_for_index_keys :
    ∃ r, performLogAnalysis indexKeyLogs = .ok r ∧
      r.stats.map (fun p => (p.1, p.2.errors)) = [("7", 0), ("Database", 1)] ∧
      ¬ (r.stats.map (fun p => p.2.errors)).Pairwise (fun a b => b ≤ a) :=
  ⟨_, rfl, by decide, by decide⟩

/-- C4, evaluated at a failing input: `React` is discovered before `2024` and
both have 0 errors, yet the returned `stats` enumerates `2024` before `React`. -/
theorem C4_tie_order_lost_for_index_keys :
    ∃ r, performLogAnalysis tieLogs = .ok r ∧
      newSet (tieLogs.map (fun l => l.service)) = ["React", "2024"] ∧
      r.stats.map (fun p => (p.1, p.2.errors)) = [("2024", 0), ("React", 0)] :=
  ⟨_, rfl, by decide, by decide⟩

/-- C5: without an `error` entry `performLogAnalysis` returns with
`firstFailure = null`; and whenever it returns, `firstFailure` is the snapshot
`{service, time: timestamp, cause: message}` of the earliest `error` entry of
`logs`. -/
theorem C5_firstFailure (logs : List LogEntry) :
    ((∀ log ∈ logs, log.level ≠ "error") →
      ∃ r, performLogAnalysis logs = .ok r ∧ r.firstFailure = none) ∧
    (∀ r, performLogAnalysis logs = .ok r →
      ∀ (pre post : List LogEntry) (e : LogEntry), logs = pre ++ e :: post →
        (∀ x ∈ pre, x.level ≠ "error") → e.level = "error" →
        ∃ ts, e.timestamp = some ts ∧
          r.firstFailure = some { service := e.service, time := ts, cause := e.message }) := by
  constructor
  · intro hno
    obtain ⟨r, hr⟩ := performLogAnalysis_returns logs (fun l hl he => absurd he (hno l hl))
    refine ⟨r, hr, ?_⟩
    rw [(performLogAnalysis_ok hr).2.2.1]
    exact foldl_firstFailureStep_none logs hno
  · intro r hr pre post e hsplit hpre he
    obtain ⟨_, _, hff, hts⟩ := performLogAnalysis_ok hr
    have hmem : e ∈ logs := by rw [hsplit]; simp
    cases hte : e.timestamp with
    | none => exact absurd hte (hts e hmem he)
    | some ts =>
      refine ⟨ts, rfl, ?_⟩
      rw [hff, hsplit]
      exact foldl_firstFailureStep_first pre post e ts hpre he hte

/-- C5 at concrete inputs: a list without errors, and a list whose second
entry is the earliest error and whose third entry is a later error. -/
theorem C5_firstFailure_witness :
    (∃ r, performLogAnalysis [infoCards] = .ok r ∧ r.firstFailure = none) ∧
    (∃ ts, errorDatabase.timestamp = some ts ∧
      firstFailureResult.firstFailure =
        some { service := errorDatabase.service, time := ts, cause := errorDatabase.message }) :=
  ⟨(C5_firstFailure [infoCards]).1 (by decide),
   (C5_firstFailure firstFailureLogs).2 firstFailureResult rfl
     [infoCards] [errorGateway] errorDatabase rfl (by decide) rfl⟩

/-- C6 as stated fails: for one entry of level `warn` the returned `info` of
its service is 1, while the service has no entry of level `info`. -/
theorem C6_info_counts_warn :
    ∃ r, performLogAnalysis [warnGateway] = .ok r ∧
      (getOwn r.stats "API Gateway").map (fun s => s.info) = some 1 ∧
      [warnGateway].countP
        (fun l => decide (l.service = "API Gateway" ∧ l.level = "info")) = 0 :=
  ⟨_, rfl, by decide, by decide⟩

/-- C6 amended: when `performLogAnalysis` returns, for every service `s` of
`logs` other than `__proto__` the record `stats[s]` exists and its `info` is
the number of entries of service `s` whose level is not `error`. -/
theorem C6_info_counts_non_errors (logs : List LogEntry) (r : Analysis)
    (h : performLogAnalysis logs = .ok r) (s : String)
    (hs : ∃ log ∈ logs, log.service = s) (hproto : s ≠ "__proto__") :
    ∃ st, getOwn r.stats s = some st ∧
      st.info = logs.countP (fun l => decide (l.service = s ∧ l.level ≠ "error")) :=
  ⟨finalStats s logs, stats_getOwn h s ((mem_statsKeys logs s).2 ⟨hs, hproto⟩),
    (finalStats_fields s logs).2.2.2⟩

/-- C6 amended, at a concrete input with one `warn`, one `info` and one
`error` entry of the same service. -/
theorem C6_info_counts_non_errors_witness :
    ∃ st, getOwn mixedResult.stats "API Gateway" = some st ∧
      st.info = mixedLogs.countP
        (fun l => decide (l.service = "API Gateway" ∧ l.level ≠ "error")) :=
  C6_info_counts_non_errors mixedLogs mixedResult rfl "API Gateway"
    ⟨warnGateway, by decide, rfl⟩ (by decide)

/-- C7, evaluated at a failing input: the list has the single service
`__proto__`, and the returned `stats` has no key at all. -/
theorem C7_keys_miss_proto_service :
    ∃ r, performLogAnalysis protoInfoLogs = .ok r ∧
      newSet (protoInfoLogs.map (fun l => l.service)) = ["__proto__"] ∧
      keysOf r.stats = [] :=
  ⟨_, rfl, by decide, by decide⟩

/-- C8: when `performLogAnalysis` returns, then for every key `k` of five code
units (the characters that JavaScript counts) `timelineData[k]` is the number of
`error` entries whose timestamp starts with `k`, and `k` is a key only when that
number is at least 1. -/
theorem C8_timeline_buckets (logs : List LogEntry) (r : Analysis)
    (h : performLogAnalysis logs = .ok r) (k : List Nat) (hk : k.length = 5) :
    getOwn r.timelineData k =
      if errorsStartingWith k logs = 0 then none else some (errorsStartingWith k logs) := by
  rw [(performLogAnalysis_ok h).2.1, getOwn_foldl_timelineStep, countBucket_eq k hk]
  simp [bumped, getOwn]

/-- C8 at concrete inputs: the errors of `12:02:10` and `12:02:55` share the
bucket `12:02`, and the `info` entry of `12:02:30` does not count; a character
outside the Basic Multilingual Plane counts as two, and a bucket can end on the
first half of such a character. -/
theorem C8_timeline_buckets_witness :
    (∃ r, performLogAnalysis bucketLogs = .ok r ∧
      getOwn r.timelineData (toCodeUnits "12:02") = some 2 ∧
      getOwn r.timelineData (toCodeUnits "12:03") = none) ∧
    (∃ r, performLogAnalysis surrogateLogs = .ok r ∧
      getOwn r.timelineData (toCodeUnits "ab😀c") = some 2 ∧
      getOwn r.timelineData [97, 98, 99, 100, 55357] = some 2) :=
  ⟨⟨_, rfl,
    (C8_timeline_buckets bucketLogs _ rfl (toCodeUnits "12:02") (by decide)).trans (by decide),
    (C8_timeline_buckets bucketLogs _ rfl (toCodeUnits "12:03") (by decide)).trans (by decide)⟩,
   ⟨_, rfl,
    (C8_timeline_buckets surrogateLogs _ rfl (toCodeUnits "ab😀c") (by decide)).trans
      (by decide),
    (C8_timeline_buckets surrogateLogs _ rfl [97, 98, 99, 100, 55357] (by decide)).trans
      (by decide)⟩⟩

/-- C9: on the empty list `performLogAnalysis` returns empty `stats`,
`firstFailure = null` and empty `timelineData`. -/
theorem C9_empty_input :
    performLogAnalysis [] = .ok { stats := [], firstFailure := none, timelineData := [] } :=
  rfl

/-- C10, evaluated at a failing input: one `error` entry whose `timestamp` is
`undefined` makes `performLogAnalysis` throw a `TypeError`. -/
theorem C10_throws_on_missing_timestamp :
    performLogAnalysis [errorWithoutTime] =
      .error "TypeError: Cannot read properties of undefined (reading 'substring')" :=
  rfl

/-! ## Lemmas on strings -/

theorem includesChars_iff (needle : List Char) (l : List Char) :
    includesChars needle l = true ↔ needle <:+: l := by
  induction l with
  | nil =>
    cases needle <;> simp [includesChars]
  | cons c cs ih =>
    rw [includesChars, Bool.or_eq_true, ih, List.infix_cons_iff, List.isPrefixOf_iff_prefix]

/-- `s.includes(sub)` holds exactly when `sub` occurs in `s`. -/
theorem includes_iff (s sub : String) : includes s sub = true ↔ sub.data <:+: s.data :=
  includesChars_iff _ _

theorem matchRun_start_iff (lit : List Char) (cls : Char → Bool) (l : List Char) :
    (lit.isPrefixOf l = true ∧ (l.drop lit.length).takeWhile cls ≠ []) ↔
      ∃ c, cls c = true ∧ lit ++ [c] <+: l := by
  rw [List.isPrefixOf_iff_prefix]
  constructor
  · rintro ⟨⟨rest, rfl⟩, hrun⟩
    rw [List.drop_left] at hrun
    cases rest with
    | nil => simp at hrun
    | cons c r =>
      by_cases hc : cls c = true
      · exact ⟨c, hc, r, by simp⟩
      · simp [List.takeWhile, hc] at hrun
  · rintro ⟨c, hc, r, rfl⟩
    refine ⟨⟨c :: r, by simp⟩, ?_⟩
    have : (lit ++ [c] ++ r).drop lit.length = c :: r := by
      rw [List.append_assoc, List.drop_left]
      rfl
    rw [this]
    simp [List.takeWhile, hc]

/-- The regular expression finds no match exactly when the literal is nowhere
followed by a character of the class. -/
theorem matchRun_eq_none_iff (lit : List Char) (cls : Char → Bool) (l : List Char) :
    matchRun lit cls l = none ↔ ¬ ∃ c, cls c = true ∧ lit ++ [c] <:+: l := by
  induction l with
  | nil =>
    simp only [matchRun, true_iff]
    rintro ⟨c, _, h⟩
    have := List.eq_nil_of_infix_nil h
    simp at this
  | cons a t ih =>
    have hstart := matchRun_start_iff lit cls (a :: t)
    by_cases hm : lit.isPrefixOf (a :: t) = true ∧
        ((a :: t).drop lit.length).takeWhile cls ≠ []
    · have : matchRun lit cls (a :: t) ≠ none := by
        rw [matchRun, if_pos hm]
        simp
      obtain ⟨c, hc, hp⟩ := hstart.1 hm
      constructor
      · intro h; exact absurd h this
      · intro h; exact absurd ⟨c, hc, hp.isInfix⟩ h
    · rw [matchRun, if_neg hm, ih]
      constructor
      · rintro h ⟨c, hc, hin⟩
        rcases List.infix_cons_iff.1 hin with hp | hi
        · exact hm (hstart.2 ⟨c, hc, hp⟩)
        · exact h ⟨c, hc, hi⟩
      · rintro h ⟨c, hc, hin⟩
        exact h ⟨c, hc, List.infix_cons_iff.2 (Or.inr hin)⟩

theorem prefix_map_iff (f : Char → Char) (needle : List Char)
    (hf : ∀ x ∈ needle, ∀ c, f c = x ↔ c = x) :
    ∀ l : List Char, needle <+: l.map f ↔ needle <+: l := by
  induction needle with
  | nil => intro l; simp
  | cons x xs ih =>
    intro l
    cases l with
    | nil => simp
    | cons c cs =>
      rw [List.map_cons, List.cons_prefix_cons, List.cons_prefix_cons,
        ih (fun y hy => hf y (List.mem_cons_of_mem _ hy)) cs]
      have := hf x (List.mem_cons_self _ _) c
      constructor
      · rintro ⟨h1, h2⟩; exact ⟨(this.1 h1.symm).symm, h2⟩
      · rintro ⟨h1, h2⟩; exact ⟨(this.2 h1.symm).symm, h2⟩

theorem infix_map_iff (f : Char → Char) (needle : List Char)
    (hf : ∀ x ∈ needle, ∀ c, f c = x ↔ c = x) :
    ∀ l : List Char, needle <:+: l.map f ↔ needle <:+: l := by
  intro l
  induction l with
  | nil => simp
  | cons c cs ih =>
    rw [List.map_cons, List.infix_cons_iff, List.infix_cons_iff, ih, ← List.map_cons,
      prefix_map_iff f needle hf]

theorem toLower_toNat_of_upper (c : Char) (hc : c.toNat ≥ 65 ∧ c.toNat ≤ 90) :
    c.toLower.toNat = c.toNat + 32 := by
  have hcc : c = Char.ofNat c.toNat := (Char.ofNat_toNat c).symm
  generalize c.toNat = n at hc hcc ⊢
  subst hcc
  obtain ⟨h1, h2⟩ := hc
  interval_cases n <;> rfl

theorem toLower_eq_digit (x c : Char) (hx : x.toNat < 65) : c.toLower = x ↔ c = x := by
  by_cases hc : c.toNat ≥ 65 ∧ c.toNat ≤ 90
  · have h3 := toLower_toNat_of_upper c hc
    constructor
    · intro h
      exfalso
      rw [h] at h3
      omega
    · intro h
      subst h
      omega
  · have e : c.toLower = c := by
      simp only [Char.toLower, hc, if_false]
    rw [e]

/-- Lower-casing neither creates nor removes an occurrence of `502`. -/
theorem includes_502_toLowerCase (s : String) :
    "502".data <:+: (toLowerCase s).data ↔ "502".data <:+: s.data := by
  apply infix_map_iff
  intro x hx c
  have hx' : x.toNat < 65 := by
    have : x = '5' ∨ x = '0' ∨ x = '2' := by simpa using hx
    rcases this with rfl | rfl | rfl <;> decide
  exact toLower_eq_digit x c hx'

/-! ## Lemmas on the adapters -/

theorem mapThrowing_ok_map {α β γ : Type} (f : α → Except String β) (g : β → γ) (h : α → γ)
    (hfg : ∀ a b, f a = .ok b → g b = h a) :
    ∀ (l : List α) (out : List β), mapThrowing f l = .ok out → out.map g = l.map h := by
  intro l
  induction l with
  | nil =>
    intro out hout
    cases hout
    rfl
  | cons a t ih =>
    intro out hout
    rw [mapThrowing] at hout
    cases hfa : f a with
    | error e => rw [hfa] at hout; cases hout
    | ok b =>
      rw [hfa] at hout
      cases ht : mapThrowing f t with
      | error e => rw [ht] at hout; cases hout
      | ok bs =>
        rw [ht] at hout
        cases hout
        simp [hfg a b hfa, ih bs ht]

theorem mapThrowing_ok_mem {α β : Type} (f : α → Except String β) :
    ∀ (l : List α) (out : List β), mapThrowing f l = .ok out →
      ∀ b ∈ out, ∃ a ∈ l, f a = .ok b := by
  intro l
  induction l with
  | nil =>
    intro out hout b hb
    cases hout
    cases hb
  | cons a t ih =>
    intro out hout b hb
    rw [mapThrowing] at hout
    cases hfa : f a with
    | error e => rw [hfa] at hout; cases hout
    | ok b' =>
      rw [hfa] at hout
      cases ht : mapThrowing f t with
      | error e => rw [ht] at hout; cases hout
      | ok bs =>
        rw [ht] at hout
        cases hout
        rcases List.mem_cons.1 hb with e | e
        · exact ⟨a, List.mem_cons_self _ _, e ▸ hfa⟩
        · obtain ⟨a', ha', hf'⟩ := ih bs ht b e
          exact ⟨a', List.mem_cons_of_mem _ ha', hf'⟩

theorem mapThrowing_returns {α β : Type} (f : α → Except String β) :
    ∀ l : List α, (∀ a ∈ l, ∃ b, f a = .ok b) → ∃ out, mapThrowing f l = .ok out := by
  intro l
  induction l with
  | nil => intro _; exact ⟨[], rfl⟩
  | cons a t ih =>
    intro h
    obtain ⟨b, hb⟩ := h a (List.mem_cons_self _ _)
    obtain ⟨bs, hbs⟩ := ih (fun x hx => h x (List.mem_cons_of_mem _ hx))
    exact ⟨b :: bs, by rw [mapThrowing, hb, hbs]⟩

theorem heuristicLevel_eq (entry : RawEvent) :
    FakeprodAdapter.heuristicLevel entry =
      if entry.hasAbnormalCause then .ok "error"
      else
        match entry.event with
        | .str event =>
          .ok (if includes (toLowerCase event) "fail" || includes (toLowerCase event) "error" ||
                  includes (toLowerCase event) "timeout" || includes event "502"
               then "error" else "info")
        | .undefined =>
          .error "TypeError: Cannot read properties of undefined (reading 'toLowerCase')"
        | .null =>
          .error "TypeError: Cannot read properties of null (reading 'toLowerCase')" := rfl

theorem levelOf_eq (entry : RawEvent) :
    FakeprodAdapter.levelOf entry =
      match entry.level with
      | .str level =>
        if level ≠ "" then .ok (toLowerCase level) else FakeprodAdapter.heuristicLevel entry
      | _ => FakeprodAdapter.heuristicLevel entry := by
  unfold FakeprodAdapter.levelOf FakeprodAdapter.levelOfWith FakeprodAdapter.heuristicLevel
  rfl

theorem normalizeEntry_eq (entry : RawEvent) :
    FakeprodAdapter.normalizeEntry entry =
      match FakeprodAdapter.levelOf entry with
      | .error e => .error e
      | .ok level =>
        .ok { timestamp := entry.time
              service := entry.service
              level := level
              message := "[" ++ entry.service.toTemplate ++ "] " ++ entry.event.toTemplate ++
                (if entry.hasAbnormalCause then " - " ++ entry.cause.toTemplate else "")
              cause := if entry.cause = .str "Normal operation" then .null else entry.cause } := by
  unfold FakeprodAdapter.normalizeEntry FakeprodAdapter.normalizeEntryWith
    FakeprodAdapter.levelOf
  rfl

theorem hasAbnormalCause_iff (entry : RawEvent) :
    entry.hasAbnormalCause = true ↔ hasGivenCause entry := by
  unfold RawEvent.hasAbnormalCause hasGivenCause
  cases hc : entry.cause with
  | undefined => simp [MaybeString.truthy]
  | null => simp [MaybeString.truthy]
  | str c => simp [MaybeString.truthy]

theorem normalizeEntry_fields {entry : RawEvent} {out : NormalizedEntry}
    (h : FakeprodAdapter.normalizeEntry entry = .ok out) :
    out.service = entry.service ∧ out.timestamp = entry.time ∧
      FakeprodAdapter.levelOf entry = .ok out.level := by
  rw [normalizeEntry_eq] at h
  cases hl : FakeprodAdapter.levelOf entry with
  | error e => rw [hl] at h; cases h
  | ok level =>
    rw [hl] at h
    cases h
    exact ⟨rfl, rfl, rfl⟩

theorem normalizeEntry_returns {entry : RawEvent} {level : String}
    (h : FakeprodAdapter.levelOf entry = .ok level) :
    ∃ out, FakeprodAdapter.normalizeEntry entry = .ok out ∧ out.level = level := by
  rw [normalizeEntry_eq]
  rw [h]
  exact ⟨_, rfl, rfl⟩

theorem errorWord_test_iff (event : String) :
    (includes (toLowerCase event) "fail" || includes (toLowerCase event) "error" ||
        includes (toLowerCase event) "timeout" || includes event "502") = true ↔
      hasErrorWord event := by
  have h502 := includes_502_toLowerCase event
  rw [Bool.or_eq_true, Bool.or_eq_true, Bool.or_eq_true, includes_iff, includes_iff,
    includes_iff, includes_iff, ← h502]
  unfold hasErrorWord
  tauto

theorem heuristicLevel_of_event {entry : RawEvent} {event : String}
    (he : entry.event = .str event) :
    ∃ level, FakeprodAdapter.heuristicLevel entry = .ok level ∧
      (level = "error" ↔ hasErrorWord event ∨ hasGivenCause entry) ∧
      (level = "info" ↔ ¬ (hasErrorWord event ∨ hasGivenCause entry)) := by
  rw [heuristicLevel_eq]
  by_cases hc : entry.hasAbnormalCause = true
  · have hg := (hasAbnormalCause_iff entry).1 hc
    refine ⟨"error", by simp [hc], ?_, ?_⟩
    · simp [hg]
    · simp [hg]
  · have hc' : ¬ hasGivenCause entry := fun h => hc ((hasAbnormalCause_iff entry).2 h)
    have e := errorWord_test_iff event
    by_cases hw : hasErrorWord event
    · refine ⟨"error", ?_, ?_, ?_⟩
      · simp only [hc, he, Bool.false_eq_true, if_false]
        rw [if_pos (e.2 hw)]
      · simp [hw]
      · simp [hw]
    · refine ⟨"info", ?_, ?_, ?_⟩
      · simp only [hc, he, Bool.false_eq_true, if_false]
        rw [if_neg (fun h => hw (e.1 h))]
      · simp [hw, hc']
      · simp [hw, hc']

theorem levelOf_of_no_level {entry : RawEvent} (h : entry.level.truthy = false) :
    FakeprodAdapter.levelOf entry = FakeprodAdapter.heuristicLevel entry := by
  rw [levelOf_eq]
  cases hl : entry.level with
  | undefined => rfl
  | null => rfl
  | str l =>
    rw [hl] at h
    have : l = "" := by simpa [MaybeString.truthy] using h
    simp [this]

theorem levelOf_of_level {entry : RawEvent} {l : String} (h : entry.level = .str l)
    (hl : l ≠ "") : FakeprodAdapter.levelOf entry = .ok (toLowerCase l) := by
  rw [levelOf_eq]
  rw [h]
  simp [hl]

theorem heuristicLevel_values {entry : RawEvent} {level : String}
    (h : FakeprodAdapter.heuristicLevel entry = .ok level) :
    level = "error" ∨ level = "info" := by
  rw [heuristicLevel_eq] at h
  split at h
  · cases h; exact Or.inl rfl
  · split at h
    · cases h
      split
      · exact Or.inl rfl
      · exact Or.inr rfl
    · cases h
    · cases h

theorem flatten_services (entries : List (String × List RawEvent)) :
    (FakeprodAdapter.flatten entries).map (fun e => e.service) =
      entries.flatMap (fun p => p.2.map (fun _ => MaybeString.str p.1)) := by
  induction entries with
  | nil => rfl
  | cons p t ih =>
    simp only [FakeprodAdapter.flatten, List.flatMap_cons, List.map_append, List.map_map] at ih ⊢
    rw [ih]
    rfl

theorem flatten_length (entries : List (String × List RawEvent)) :
    (FakeprodAdapter.flatten entries).length = (entries.map (fun p => p.2.length)).sum := by
  induction entries with
  | nil => rfl
  | cons p t ih =>
    simp only [FakeprodAdapter.flatten, List.flatMap_cons, List.length_append, List.length_map,
      List.map_cons, List.sum_cons] at ih ⊢
    rw [ih]

theorem mem_flatten {entries : List (String × List RawEvent)} {e : RawEvent}
    (h : e ∈ FakeprodAdapter.flatten entries) :
    ∃ raw ∈ (FeedData.object entries).events,
      e.event = raw.event ∧ e.cause = raw.cause ∧ e.level = raw.level ∧ e.time = raw.time := by
  simp only [FakeprodAdapter.flatten, List.mem_flatMap, List.mem_map] at h
  obtain ⟨p, hp, raw, hraw, rfl⟩ := h
  exact ⟨raw, by simp only [FeedData.events, List.mem_flatMap]; exact ⟨p, hp, hraw⟩,
    rfl, rfl, rfl, rfl⟩

theorem mapThrowing_ok_forall₂ {α β : Type} (f : α → Except String β) :
    ∀ (l : List α) (out : List β), mapThrowing f l = .ok out →
      List.Forall₂ (fun b a => f a = .ok b) out l := by
  intro l
  induction l with
  | nil =>
    intro out hout
    cases hout
    exact List.Forall₂.nil
  | cons a t ih =>
    intro out hout
    rw [mapThrowing] at hout
    cases hfa : f a with
    | error e => rw [hfa] at hout; cases hout
    | ok b =>
      rw [hfa] at hout
      cases ht : mapThrowing f t with
      | error e => rw [ht] at hout; cases hout
      | ok bs =>
        rw [ht] at hout
        cases hout
        exact List.Forall₂.cons hfa (ih bs ht)

theorem forall₂_comp {α β γ : Type} {R : α → β → Prop} {S : β → γ → Prop} :
    ∀ {l1 : List α} {l2 : List β} {l3 : List γ}, List.Forall₂ R l1 l2 → List.Forall₂ S l2 l3 →
      List.Forall₂ (fun a c => ∃ b, R a b ∧ S b c) l1 l3 := by
  intro l1 l2 l3 h1
  induction h1 generalizing l3 with
  | nil =>
    intro h2
    cases h2
    exact List.Forall₂.nil
  | cons hab _ ih =>
    intro h2
    cases h2 with
    | cons hbc ht => exact List.Forall₂.cons ⟨_, hab, hbc⟩ (ih ht)

theorem flatten_events (entries : List (String × List RawEvent)) :
    List.Forall₂ (fun e raw => e.level = raw.level) (FakeprodAdapter.flatten entries)
      (FeedData.object entries).events := by
  unfold FakeprodAdapter.flatten FeedData.events
  induction entries with
  | nil => exact List.Forall₂.nil
  | cons p t ih =>
    simp only [List.flatMap_cons]
    apply List.rel_append
    · rw [List.forall₂_map_left_iff, List.forall₂_same]
      intro x _
      rfl
    · exact ih

/-- The level that the callback of `FakeprodAdapter.normalize` gives, whatever
the built-in `toLowerCase` does. -/
theorem normalizeEntryWith_level {lower : String → String} {entry : RawEvent}
    {e : NormalizedEntry} (h : FakeprodAdapter.normalizeEntryWith lower entry = .ok e) :
    (entry.level.truthy = false → e.level = "error" ∨ e.level = "info") ∧
    (∀ l, entry.level = .str l → l ≠ "" → e.level = lower l) := by
  unfold FakeprodAdapter.normalizeEntryWith at h
  cases hl : FakeprodAdapter.levelOfWith lower entry with
  | error msg => rw [hl] at h; cases h
  | ok level =>
    rw [hl] at h
    cases h
    show (entry.level.truthy = false → level = "error" ∨ level = "info") ∧
      (∀ l, entry.level = .str l → l ≠ "" → level = lower l)
    have hheur : FakeprodAdapter.heuristicLevelWith lower entry = .ok level →
        level = "error" ∨ level = "info" := by
      intro hh
      unfold FakeprodAdapter.heuristicLevelWith at hh
      split at hh
      · cases hh; exact Or.inl rfl
      · split at hh
        · cases hh
          split
          · exact Or.inl rfl
          · exact Or.inr rfl
        · cases hh
        · cases hh
    unfold FakeprodAdapter.levelOfWith at hl
    cases hlv : entry.level with
    | undefined =>
      rw [hlv] at hl
      exact ⟨fun _ => hheur hl, fun l h' => by cases h'⟩
    | null =>
      rw [hlv] at hl
      exact ⟨fun _ => hheur hl, fun l h' => by cases h'⟩
    | str l0 =>
      rw [hlv] at hl
      by_cases hne : l0 = ""
      · subst hne
        simp only [ne_eq, not_true_eq_false, if_false] at hl
        exact ⟨fun _ => hheur hl, fun l h' hl' => by cases h'; exact absurd rfl hl'⟩
      · simp only [ne_eq, hne, not_false_eq_true, if_true] at hl
        refine ⟨fun htr => ?_, fun l h' _ => ?_⟩
        · simp [MaybeString.truthy, hne] at htr
        · cases h'
          exact (Except.ok.inj hl).symm

/-! ## Lemmas on the SourceManager -/

theorem string_eq_iff_data (a b : String) : a = b ↔ a.data = b.data :=
  ⟨fun h => h ▸ rfl, fun h => String.ext h⟩

theorem redditLabel_injective (a b : String)
    (h : "Reddit (r/" ++ a ++ ")" = "Reddit (r/" ++ b ++ ")") : a = b := by
  rw [string_eq_iff_data] at h
  simp only [String.data_append] at h
  have h1 := List.append_cancel_right h
  have h2 := List.append_cancel_left h1
  exact String.ext h2

theorem redditLabel_head (a : String) :
    ("Reddit (r/" ++ a ++ ")").data = 'R' :: ("eddit (r/".data ++ a.data ++ ")".data) := by
  simp only [String.data_append]
  rfl

theorem wikiLabel_head (t : String) : ("Wiki: " ++ t).data = 'W' :: ("iki: ".data ++ t.data) := by
  simp only [String.data_append]
  rfl

theorem redditLabel_agrees (sub : String) :
    LabelAgrees { currentSource := "Reddit (r/" ++ sub ++ ")", adapter := .reddit sub } := by
  refine ⟨?_, ?_, ?_, ?_⟩
  · constructor
    · intro h
      rw [string_eq_iff_data, redditLabel_head] at h
      cases h
    · intro h; cases h
  · constructor
    · intro h
      rw [string_eq_iff_data, redditLabel_head] at h
      cases h
    · intro h; cases h
  · constructor
    · intro h
      simp only at h
      rw [redditLabel_head] at h
      have := List.cons_prefix_cons.1 h
      exact absurd this.1 (by decide)
    · rintro ⟨t, h⟩; cases h
  · intro s
    constructor
    · intro h
      rw [redditLabel_injective _ _ h]
    · intro h
      cases h
      rfl

theorem wikiLabel_agrees (title : String) (t : Option String) :
    LabelAgrees { currentSource := "Wiki: " ++ title, adapter := .wikipedia t } := by
  refine ⟨?_, ?_, ?_, ?_⟩
  · constructor
    · intro h
      rw [string_eq_iff_data, wikiLabel_head] at h
      cases h
    · intro h; cases h
  · constructor
    · intro h
      rw [string_eq_iff_data, wikiLabel_head] at h
      cases h
    · intro h; cases h
  · constructor
    · intro _; exact ⟨t, rfl⟩
    · intro _
      simp only [String.data_append]
      exact List.prefix_append _ _
  · intro s
    constructor
    · intro h
      rw [string_eq_iff_data, wikiLabel_head, redditLabel_head] at h
      exact absurd (List.cons.inj h).1 (by decide)
    · intro h; cases h

theorem githubLabel_agrees :
    LabelAgrees { currentSource := "GitHub Public API", adapter := .github } := by
  refine ⟨?_, ?_, ?_, ?_⟩
  · constructor
    · intro h; exact absurd h (by decide)
    · intro h; cases h
  · exact ⟨fun _ => rfl, fun _ => rfl⟩
  · constructor
    · intro h; exact absurd h (by decide)
    · rintro ⟨t, h⟩; cases h
  · intro s
    constructor
    · intro h
      rw [string_eq_iff_data, redditLabel_head] at h
      exact absurd (List.cons.inj h).1 (by decide)
    · intro h; cases h

theorem demoLabel_agrees :
    LabelAgrees { currentSource := "Demo System", adapter := .fakeprod } := by
  refine ⟨?_, ?_, ?_, ?_⟩
  · exact ⟨fun _ => rfl, fun _ => rfl⟩
  · constructor
    · intro h; exact absurd h (by decide)
    · intro h; cases h
  · constructor
    · intro h; exact absurd h (by decide)
    · rintro ⟨t, h⟩; cases h
  · intro s
    constructor
    · intro h
      rw [string_eq_iff_data, redditLabel_head] at h
      exact absurd (List.cons.inj h).1 (by decide)
    · intro h; cases h

/-- The five ways in which `connect` ends. -/
theorem connect_cases (s : SourceManager) (url : String) :
    (includes url "reddit.com" = true ∧ ∃ sub,
      s.connect url = (some ("Connected to r/" ++ sub ++ "."),
        { currentSource := "Reddit (r/" ++ sub ++ ")", adapter := .reddit sub })) ∨
    (includes url "reddit.com" = false ∧ includes url "wikipedia.org" = true ∧ ∃ title,
      s.connect url = (some ("Connected to Wikipedia: " ++ title),
        { currentSource := "Wiki: " ++ title, adapter := .wikipedia none })) ∨
    (includes url "reddit.com" = false ∧ includes url "wikipedia.org" = false ∧
      includes url "github.com" = true ∧
      s.connect url = (some "Connected to GitHub. Type \"curl /logs\" to fetch events.",
        { currentSource := "GitHub Public API", adapter := .github })) ∨
    (includes url "reddit.com" = false ∧ includes url "wikipedia.org" = false ∧
      includes url "github.com" = false ∧ (includes url "fakeprod" = true ∨ url = "") ∧
      s.connect url = (some "Connected to Demo System.",
        { currentSource := "Demo System", adapter := .fakeprod })) ∨
    (includes url "reddit.com" = false ∧ includes url "wikipedia.org" = false ∧
      includes url "github.com" = false ∧ includes url "fakeprod" = false ∧ url ≠ "" ∧
      s.connect url = (none, s)) := by
  unfold SourceManager.connect
  by_cases h1 : includes url "reddit.com" = true
  · left
    exact ⟨h1, _, by rw [if_pos h1]⟩
  · right
    have h1' : includes url "reddit.com" = false := by simpa using h1
    by_cases h2 : includes url "wikipedia.org" = true
    · left
      exact ⟨h1', h2, _, by rw [if_neg h1, if_pos h2]⟩
    · right
      have h2' : includes url "wikipedia.org" = false := by simpa using h2
      by_cases h3 : includes url "github.com" = true
      · left
        exact ⟨h1', h2', h3, by rw [if_neg h1, if_neg h2, if_pos h3]⟩
      · right
        have h3' : includes url "github.com" = false := by simpa using h3
        by_cases h4 : includes url "fakeprod" = true ∨ url = ""
        · left
          exact ⟨h1', h2', h3', h4, by rw [if_neg h1, if_neg h2, if_neg h3, if_pos h4]⟩
        · right
          have h4' := not_or.1 h4
          exact ⟨h1', h2', h3', by simpa using h4'.1, h4'.2,
            by rw [if_neg h1, if_neg h2, if_neg h3, if_neg h4]⟩

theorem connect_agrees (s : SourceManager) (url : String) (h : LabelAgrees s) :
    LabelAgrees (s.connect url).2 := by
  rcases connect_cases s url with ⟨_, sub, e⟩ | ⟨_, _, t, e⟩ | ⟨_, _, _, e⟩ | ⟨_, _, _, _, e⟩ |
    ⟨_, _, _, _, _, e⟩
  · rw [e]; exact redditLabel_agrees sub
  · rw [e]; exact wikiLabel_agrees t none
  · rw [e]; exact githubLabel_agrees
  · rw [e]; exact demoLabel_agrees
  · rw [e]; exact h

theorem foldl_connect_agrees (urls : List String) :
    ∀ s : SourceManager, LabelAgrees s →
      LabelAgrees (urls.foldl (fun s url => (s.connect url).2) s) := by
  induction urls with
  | nil => intro s h; exact h
  | cons u t ih =>
    intro s h
    exact ih _ (connect_agrees s u h)

/-! ## Lemmas on fetching -/

theorem wikiTitle_eq_none_iff (url : String) :
    wikiTitle url = none ↔
      ¬ ∃ c : Char, (c ≠ '#' ∧ c ≠ '?' ∧ c ≠ '/') ∧ "wiki/".data ++ [c] <:+: url.data := by
  unfold wikiTitle
  rw [Option.map_eq_none', matchRun_eq_none_iff]
  simp only [decide_eq_true_eq]

theorem status_included (pre : String) (status : Nat) :
    (toString status).data <:+: (pre ++ toString status).data := by
  rw [String.data_append]
  exact (List.suffix_append _ _).isInfix

/-- `GitHubAdapter.fetchLogs` rejects a response that is not 2xx with a
message that ends in the status code. -/
theorem github_fetchLogs_not_ok (toISOString : MaybeString → Option String)
    (res : HttpResponse (List GitHubEvent)) (h : res.ok = false) :
    GitHubAdapter.fetchLogs toISOString res =
      .error ("GitHub API Error: " ++ toString res.status) := by
  simp [GitHubAdapter.fetchLogs, h]

/-- `RedditAdapter.fetchLogs` rejects a response that is not 2xx with a
message that ends in the status code. -/
theorem reddit_fetchLogs_not_ok (subreddit : String) (res : HttpResponse RedditBody)
    (h : res.ok = false) :
    RedditAdapter.fetchLogs subreddit res =
      .error ("RSS Bridge Error: " ++ toString res.status) := by
  simp [RedditAdapter.fetchLogs, h]

/-- `WikipediaAdapter.fetchLogs` rejects a response that is not 2xx with a
message that ends in the status code. -/
theorem wikipedia_receive_not_ok (toISOString : MaybeString → Option String)
    (res : HttpResponse WikiBody) (h : res.ok = false) :
    WikipediaAdapter.receive toISOString res =
      .error ("Wiki API Error: " ++ toString res.status) := by
  simp [WikipediaAdapter.receive, h]

/-- What `WikipediaAdapter.fetchLogs` does with a 2xx response, by the shape of its body. -/
theorem wikipedia_receive_ok (toISOString : MaybeString → Option String)
    (res : HttpResponse WikiBody) (h : res.ok = true) :
    WikipediaAdapter.receive toISOString res =
      match res.json with
      | none => .error jsonSyntaxError
      | some json =>
        match json.query with
        | none => .error "Invalid Wiki Response"
        | some none => .error "Invalid Wiki Response"
        | some (some []) =>
          .error "TypeError: Cannot read properties of undefined (reading 'revisions')"
        | some (some ((pageId, page) :: _)) =>
          if pageId = "-1" then .error "Wiki Page Not Found"
          else WikipediaAdapter.normalize toISOString page.revisions := by
  simp [WikipediaAdapter.receive, h]

/-- The entry that `FakeprodAdapter.normalize` returns for a raw `error` event
without `time` is the entry on which `performLogAnalysis` throws. -/
theorem normalize_rawWithoutTime :
    ∃ e, FakeprodAdapter.normalize (.array [rawWithoutTime]) = .ok [e] ∧
      e.toLogEntry? = some errorWithoutTime :=
  ⟨_, rfl, by decide⟩

/-! ## The example scenario -/

theorem finalStats_status (s : String) (logs : List LogEntry) (hlen : logs.length < 2 ^ 32) :
    ((finalStats s logs).status = "Healthy" ↔ (finalStats s logs).errors = 0) ∧
    ((finalStats s logs).status = "Critical" ↔
      0 < (finalStats s logs).errors ∧
        (finalStats s logs).total < 10 * (finalStats s logs).errors) ∧
    ((finalStats s logs).status = "Degraded" ↔
      (finalStats s logs).errors ≠ 0 ∧
        ¬ (finalStats s logs).total < 10 * (finalStats s logs).errors) := by
  obtain ⟨_, t2, t3, _⟩ := foldl_tallyStep s logs (blankStats s)
  obtain ⟨_, d2, d3, _, _⟩ := deriveStatus_fields (logs.foldl (tallyStep s) (blankStats s))
  have hle := countServiceErrors_le s logs
  have hlen' := countService_le_length s logs
  have hs := deriveStatus_status (logs.foldl (tallyStep s) (blankStats s))
    (by rw [t2, t3]; simpa [blankStats] using hle)
    (by rw [t2]; simp only [blankStats]; omega)
  unfold finalStats
  rw [d2, d3]
  exact hs

/-- The record of a service with `total` entries, `errors` of them errors,
where `errors > 0` and `10 * errors > total`: it is returned and is `Critical`. -/
theorem critical_record {logs : List LogEntry} {r : Analysis}
    (h : performLogAnalysis logs = .ok r) (hlen : logs.length < 2 ^ 32)
    (s : String) (hs : s ≠ "__proto__") (total errors : Nat)
    (ht : countService s logs = total) (he : countServiceErrors s logs = errors)
    (hpos : 0 < errors) (hrate : total < 10 * errors) :
    ∃ st, getOwn r.stats s = some st ∧ st.total = total ∧ st.errors = errors ∧
      st.status = "Critical" := by
  have hocc : ∃ log ∈ logs, log.service = s := by
    have : 0 < countService s logs := by
      have := countServiceErrors_le s logs
      omega
    obtain ⟨l, hl, hp⟩ := List.countP_pos_iff.1 this
    exact ⟨l, hl, by simpa using hp⟩
  obtain ⟨_, f2, f3, _⟩ := finalStats_fields s logs
  refine ⟨finalStats s logs, stats_getOwn h s ((mem_statsKeys logs s).2 ⟨hocc, hs⟩),
    f2.trans ht, f3.trans he, ?_⟩
  apply (finalStats_status s logs hlen).2.1.2
  rw [f2, f3, ht, he]
  exact ⟨hpos, hrate⟩

/-- When no service name is an array index, a record with errors is not
enumerated after a record without errors. -/
theorem errors_before_zero {logs : List LogEntry} {r : Analysis}
    (h : performLogAnalysis logs = .ok r)
    (hidx : ∀ log ∈ logs, arrayIndex log.service = none)
    (pre post : List (String × ServiceStats)) (x : String × ServiceStats)
    (hsplit : r.stats = pre ++ x :: post) (hx : x.2.errors = 0) :
    ∀ y ∈ post, y.2.errors = 0 := by
  have hs := stats_sorted h hidx
  rw [hsplit] at hs
  have h2 := (List.pairwise_append.1 hs).2.1
  intro y hy
  have := (List.pairwise_cons.1 h2).1 y hy
  unfold errorsDescending at this
  omega

/-! ## The claims on the scenario, the adapters and the SourceManager -/

set_option maxRecDepth 100000 in
/-- C11, evaluated at a failing input: the scenario entries followed by one
`info` entry of a service named `7`.  The counters and the status of both
services are as stated, but the record of `7`, which has 0 errors, is
enumerated before `Database` and `API Gateway`. -/
theorem C11_scenario_zero_error_service_first :
    ∃ r, performLogAnalysis scenarioLogs = .ok r ∧
      r.stats.map (fun p => (p.1, p.2.total, p.2.errors, p.2.status)) =
        [("7", 1, 0, "Healthy"), ("Database", 15, 10, "Critical"),
         ("API Gateway", 15, 9, "Critical")] :=
  ⟨_, rfl, by decide⟩

/-- C12: when `FakeprodAdapter.normalize` returns for an object keyed by
service, it returns one entry per raw event and the entries of the array under
key `K` have `service = K`, in the order of the arrays; and it returns whenever
every raw event has an event text. -/
theorem C12_normalize_injects_key (entries : List (String × List RawEvent)) :
    (∀ out, FakeprodAdapter.normalize (.object entries) = .ok out →
      out.length = (entries.map (fun p => p.2.length)).sum ∧
      out.map (fun e => e.service) =
        entries.flatMap (fun p => p.2.map (fun _ => MaybeString.str p.1))) ∧
    ((∀ p ∈ entries, ∀ e ∈ p.2, ∃ event, e.event = .str event) →
      ∃ out, FakeprodAdapter.normalize (.object entries) = .ok out) := by
  constructor
  · intro out hout
    have hsvc := mapThrowing_ok_map FakeprodAdapter.normalizeEntry (fun e => e.service)
      (fun e => e.service) (fun a b hab => (normalizeEntry_fields hab).1) _ out hout
    refine ⟨?_, by rw [hsvc, flatten_services]⟩
    have hlen := congrArg List.length hsvc
    simp only [List.length_map] at hlen
    rw [hlen, flatten_length]
  · intro hev
    apply mapThrowing_returns
    intro e he
    obtain ⟨raw, hraw, h1, h2, h3, _⟩ := mem_flatten he
    simp only [FeedData.events, List.mem_flatMap] at hraw
    obtain ⟨p, hp, hrp⟩ := hraw
    obtain ⟨event, hevent⟩ := hev p hp raw hrp
    have hl : ∃ level, FakeprodAdapter.levelOf e = .ok level := by
      cases htr : e.level.truthy with
      | false =>
        rw [levelOf_of_no_level htr]
        obtain ⟨level, hlevel, _⟩ := heuristicLevel_of_event (h1.trans hevent)
        exact ⟨level, hlevel⟩
      | true =>
        cases hlv : e.level with
        | undefined => rw [hlv] at htr; cases htr
        | null => rw [hlv] at htr; cases htr
        | str l =>
          rw [hlv] at htr
          exact ⟨_, levelOf_of_level hlv (by simpa [MaybeString.truthy] using htr)⟩
    obtain ⟨level, hlevel⟩ := hl
    obtain ⟨o, ho, _⟩ := normalizeEntry_returns hlevel
    exact ⟨o, ho⟩

/-- C12 at a concrete feed: the event that carries `service: "Legacy"` under
the key `Database` comes out with service `Database`. -/
theorem C12_normalize_injects_key_witness :
    ∃ out, FakeprodAdapter.normalize (.object sampleFeed) = .ok out ∧
      out.length = 3 ∧
      out.map (fun e => e.service) = [.str "Database", .str "Database", .str "Cards"] := by
  obtain ⟨out, hout⟩ := (C12_normalize_injects_key sampleFeed).2
    (by simp [sampleFeed, rawTimeout, rawRead, rawWarn])
  exact ⟨out, hout, (C12_normalize_injects_key sampleFeed).1 out hout⟩

/-- C13: for a raw entry without explicit level (the `level` field is absent,
`null` or empty), an abnormal cause alone gives level `error`; and when the
entry has an event text, the level is `error` exactly when the text holds one
of `fail`, `error`, `timeout`, `502` (letter case apart) or the cause is
present and not `Normal operation`, and `info` exactly otherwise. -/
theorem C13_heuristic_level (entry : RawEvent) (hno : entry.level.truthy = false) :
    (hasGivenCause entry →
      ∃ out, FakeprodAdapter.normalizeEntry entry = .ok out ∧ out.level = "error") ∧
    (∀ event, entry.event = .str event →
      ∃ out, FakeprodAdapter.normalizeEntry entry = .ok out ∧
        (out.level = "error" ↔ hasErrorWord event ∨ hasGivenCause entry) ∧
        (out.level = "info" ↔ ¬ (hasErrorWord event ∨ hasGivenCause entry))) := by
  constructor
  · intro hc
    have hh : FakeprodAdapter.heuristicLevel entry = .ok "error" := by
      simp [heuristicLevel_eq, (hasAbnormalCause_iff entry).2 hc]
    exact normalizeEntry_returns ((levelOf_of_no_level hno).trans hh)
  · intro event he
    obtain ⟨level, hlevel, h1, h2⟩ := heuristicLevel_of_event he
    obtain ⟨out, hout, hl⟩ := normalizeEntry_returns ((levelOf_of_no_level hno).trans hlevel)
    exact ⟨out, hout, by rw [hl]; exact h1, by rw [hl]; exact h2⟩

/-- C13 at concrete entries: `Query TIMEOUT` with cause `Normal operation` is
an `error`, `Read query executed` without cause is `info`. -/
theorem C13_heuristic_level_witness :
    (∃ out, FakeprodAdapter.normalizeEntry rawTimeout = .ok out ∧
      (out.level = "error" ↔ hasErrorWord "Query TIMEOUT" ∨ hasGivenCause rawTimeout) ∧
      (out.level = "info" ↔ ¬ (hasErrorWord "Query TIMEOUT" ∨ hasGivenCause rawTimeout))) ∧
    (∃ out, FakeprodAdapter.normalizeEntry rawRead = .ok out ∧
      (out.level = "error" ↔ hasErrorWord "Read query executed" ∨ hasGivenCause rawRead) ∧
      (out.level = "info" ↔
        ¬ (hasErrorWord "Read query executed" ∨ hasGivenCause rawRead))) :=
  ⟨(C13_heuristic_level rawTimeout rfl).2 "Query TIMEOUT" rfl,
   (C13_heuristic_level rawRead rfl).2 "Read query executed" rfl⟩

/-- C14 as stated fails: a synthetic-feed event with the explicit level
`debug` is returned with level `debug`. -/
theorem C14_explicit_level_passes_through :
    ∃ e, FakeprodAdapter.normalize (.array [rawDebug]) = .ok [e] ∧
      e.level = "debug" ∧ e.level ≠ "error" ∧ e.level ≠ "warn" ∧ e.level ≠ "info" :=
  ⟨_, rfl, by decide, by decide, by decide, by decide⟩

/-- C14 amended: every entry returned by the `normalize` of `GitHubAdapter`,
`RedditAdapter` and `WikipediaAdapter` has level `info`; the entries returned by
`FakeprodAdapter.normalize` correspond one by one to the raw events of the feed,
and the entry of a raw event without explicit level has level `error` or
`info`, while the entry of a raw event with an explicit level has exactly that
level in lower case, whatever the built-in `toLowerCase` makes of it and
whether or not it is one of the three values. -/
theorem C14_levels_of_adapters :
    (∀ toISOString data out, GitHubAdapter.normalize toISOString data = .ok out →
      ∀ e ∈ out, e.level = "info") ∧
    (∀ subreddit data out, RedditAdapter.normalize subreddit data = .ok out →
      ∀ e ∈ out, e.level = "info") ∧
    (∀ toISOString data out, WikipediaAdapter.normalize toISOString data = .ok out →
      ∀ e ∈ out, e.level = "info") ∧
    (∀ (lower : String → String) data out,
      FakeprodAdapter.normalizeWith lower data = .ok out →
      List.Forall₂
        (fun e raw =>
          (raw.level.truthy = false → e.level = "error" ∨ e.level = "info") ∧
          (∀ l, raw.level = .str l → l ≠ "" → e.level = lower l))
        out data.events) := by
  refine ⟨?_, ?_, ?_, ?_⟩
  · intro toISOString data out hout e he
    obtain ⟨ev, _, hev⟩ := mapThrowing_ok_mem _ _ out hout e he
    unfold GitHubAdapter.normalizeEvent at hev
    split at hev
    · cases hev
    · split at hev
      · cases hev
      · split at hev
        · cases hev
        · cases hev; rfl
  · intro subreddit data out hout e he
    obtain ⟨item, _, hitem⟩ := mapThrowing_ok_mem _ _ out hout e he
    unfold RedditAdapter.normalizeItem at hitem
    split at hitem
    · cases hitem
    · cases hitem
    · split at hitem
      · cases hitem
      · cases hitem
      · cases hitem; rfl
  · intro toISOString data out hout e he
    cases data with
    | none => cases hout
    | some revisions =>
      obtain ⟨rev, _, hrev⟩ := mapThrowing_ok_mem _ _ out hout e he
      unfold WikipediaAdapter.normalizeRevision at hrev
      split at hrev
      · cases hrev
      · cases hrev; rfl
  · intro lower data out hout
    cases data with
    | object entries =>
      have h1 := mapThrowing_ok_forall₂ _ _ _ hout
      refine (forall₂_comp h1 (flatten_events entries)).imp ?_
      rintro e raw ⟨fe, hfe, hlevel⟩
      rw [← hlevel]
      exact normalizeEntryWith_level hfe
    | array events =>
      exact (mapThrowing_ok_forall₂ _ _ _ hout).imp (fun e raw h => normalizeEntryWith_level h)
    | null => cases hout
    | primitive =>
      cases hout
      exact List.Forall₂.nil

/-- C14 amended, at a concrete feed: the explicit level `WARN` comes out as
`warn`, the explicit level `debug` as `debug`, and the event without level as
`info`. -/
theorem C14_levels_of_adapters_witness :
    ∃ e1 e2 e3, FakeprodAdapter.normalize (.array [rawWarn, rawDebug, rawRead]) =
        .ok [e1, e2, e3] ∧
      e1.level = "warn" ∧ e2.level = "debug" ∧ (e3.level = "error" ∨ e3.level = "info") := by
  refine ⟨_, _, _, rfl, ?_⟩
  have h := C14_levels_of_adapters.2.2.2 toLowerCase (.array [rawWarn, rawDebug, rawRead]) _ rfl
  match h with
  | .cons h1 (.cons h2 (.cons h3 .nil)) =>
    exact ⟨h1.2 "WARN" rfl (by decide), h2.2 "debug" rfl (by decide), h3.1 rfl⟩

/-- C15: for a non-empty `url` that contains none of `reddit.com`,
`wikipedia.org`, `github.com`, `fakeprod`, `connect` returns `null` and leaves
the object as it was, so that `fetchLogs` afterwards does what it would have
done before the call. -/
theorem C15_connect_unknown (s : SourceManager) (url : String) (hne : url ≠ "")
    (h1 : ¬ "reddit.com".data <:+: url.data) (h2 : ¬ "wikipedia.org".data <:+: url.data)
    (h3 : ¬ "github.com".data <:+: url.data) (h4 : ¬ "fakeprod".data <:+: url.data) :
    s.connect url = (none, s) ∧
    ∀ (toISOString : MaybeString → Option String) (net : Network) (x : String),
      SourceManager.fetchLogs toISOString net (s.connect url).2 x =
        SourceManager.fetchLogs toISOString net s x := by
  have e : s.connect url = (none, s) := by
    rcases connect_cases s url with ⟨c, _⟩ | ⟨_, c, _⟩ | ⟨_, _, c, _⟩ | ⟨_, _, _, c, _⟩ |
      ⟨_, _, _, _, _, e⟩
    · exact absurd ((includes_iff _ _).1 c) h1
    · exact absurd ((includes_iff _ _).1 c) h2
    · exact absurd ((includes_iff _ _).1 c) h3
    · rcases c with c | c
      · exact absurd ((includes_iff _ _).1 c) h4
      · exact absurd c hne
    · exact e
  refine ⟨e, fun toISOString net x => ?_⟩
  rw [e]

/-- C15 at `foo.example.com`, with the manager connected to a subreddit. -/
theorem C15_connect_unknown_witness :
    redditManager.connect "foo.example.com" = (none, redditManager) ∧
    ∀ (toISOString : MaybeString → Option String) (net : Network) (x : String),
      SourceManager.fetchLogs toISOString net (redditManager.connect "foo.example.com").2 x =
        SourceManager.fetchLogs toISOString net redditManager x :=
  C15_connect_unknown redditManager "foo.example.com" (by decide) (by decide) (by decide)
    (by decide) (by decide)

theorem connect_message_ne_empty (s : SourceManager) (url msg : String)
    (h : (s.connect url).1 = some msg) : msg ≠ "" := by
  have hne : ∀ (a b : String) (c : Char) (l : List Char), a.data = c :: l → a ++ b ≠ "" := by
    intro a b c l ha hab
    have := congrArg String.data hab
    rw [String.data_append, ha] at this
    cases this
  rcases connect_cases s url with ⟨_, sub, e⟩ | ⟨_, _, t, e⟩ | ⟨_, _, _, e⟩ | ⟨_, _, _, _, e⟩ |
    ⟨_, _, _, _, _, e⟩
  · rw [e] at h
    cases h
    rw [String.append_assoc]
    exact hne _ _ 'C' "onnected to r/".data rfl
  · rw [e] at h
    cases h
    exact hne _ _ 'C' "onnected to Wikipedia: ".data rfl
  · rw [e] at h
    cases h
    decide
  · rw [e] at h
    cases h
    decide
  · rw [e] at h
    cases h

/-- C16: `connect` installs a `RedditAdapter` when `url` contains `reddit.com`;
otherwise a `WikipediaAdapter` when it contains `wikipedia.org`; otherwise a
`GitHubAdapter` when it contains `github.com`; otherwise a `FakeprodAdapter`
when it contains `fakeprod` or is empty.  It returns a message exactly in
these cases, and the message is never empty. -/
theorem C16_connect_priority (s : SourceManager) (url : String) :
    ("reddit.com".data <:+: url.data → ∃ sub, (s.connect url).2.adapter = .reddit sub) ∧
    (¬ "reddit.com".data <:+: url.data → "wikipedia.org".data <:+: url.data →
      (s.connect url).2.adapter = .wikipedia none) ∧
    (¬ "reddit.com".data <:+: url.data → ¬ "wikipedia.org".data <:+: url.data →
      "github.com".data <:+: url.data → (s.connect url).2.adapter = .github) ∧
    (¬ "reddit.com".data <:+: url.data → ¬ "wikipedia.org".data <:+: url.data →
      ¬ "github.com".data <:+: url.data → ("fakeprod".data <:+: url.data ∨ url = "") →
      (s.connect url).2.adapter = .fakeprod) ∧
    ((∃ msg, (s.connect url).1 = some msg) ↔
      ("reddit.com".data <:+: url.data ∨ "wikipedia.org".data <:+: url.data ∨
        "github.com".data <:+: url.data ∨ "fakeprod".data <:+: url.data ∨ url = "")) ∧
    (∀ msg, (s.connect url).1 = some msg → msg ≠ "") := by
  have i1 := includes_iff url "reddit.com"
  have i2 := includes_iff url "wikipedia.org"
  have i3 := includes_iff url "github.com"
  have i4 := includes_iff url "fakeprod"
  refine ⟨?_, ?_, ?_, ?_, ?_, connect_message_ne_empty s url⟩
  all_goals
    rcases connect_cases s url with ⟨c1, sub, e⟩ | ⟨c1, c2, t, e⟩ | ⟨c1, c2, c3, e⟩ |
      ⟨c1, c2, c3, c4, e⟩ | ⟨c1, c2, c3, c4, c5, e⟩ <;>
    rw [e] <;> simp_all

/-- C16 at a url that contains both `reddit.com` and `github.com`: Reddit is selected. -/
theorem C16_connect_priority_witness :
    ∃ sub, (SourceManager.initial.connect
      "https://www.reddit.com/r/github.com").2.adapter = .reddit sub :=
  (C16_connect_priority SourceManager.initial "https://www.reddit.com/r/github.com").1
    (by decide)

/-- C17: after any sequence of `connect` calls from the initial object, the
label is `Demo System` exactly with a `FakeprodAdapter`, `GitHub Public API`
exactly with a `GitHubAdapter`, starts with `Wiki: ` exactly with a
`WikipediaAdapter`, and is `Reddit (r/<sub>)` exactly with a `RedditAdapter`
whose `subreddit` is `<sub>`. -/
theorem C17_label_agrees_with_adapter (urls : List String) :
    LabelAgrees (afterConnects urls) :=
  foldl_connect_agrees urls SourceManager.initial demoLabel_agrees

/-- C18 as stated fails: the url has no `/wiki/` segment, yet the title of the
revision query is `India`, taken from `mywiki/India`. -/
theorem C18_title_without_wiki_segment :
    ¬ "/wiki/".data <:+: "https://example.org/mywiki/India".data ∧
    (WikipediaAdapter.fetchLogs sampleClock (wikiAnswers "736" (some []))
      "https://example.org/mywiki/India").title = "India" ∧
    (WikipediaAdapter.fetchLogs sampleClock (wikiAnswers "736" (some []))
      "https://example.org/mywiki/India").request = WikipediaAdapter.api "India" :=
  ⟨by decide, by decide, by decide⟩

/-- C18 amended: when no occurrence of `wiki/` in `url` is followed by a
character other than `#`, `?` and `/`, `WikipediaAdapter.fetchLogs(url)`
stores the title `Main_Page` and requests the revisions of `Main_Page`. -/
theorem C18_default_title (toISOString : MaybeString → Option String)
    (respond : String → HttpResponse WikiBody) (url : String)
    (h : ¬ ∃ c : Char, (c ≠ '#' ∧ c ≠ '?' ∧ c ≠ '/') ∧ "wiki/".data ++ [c] <:+: url.data) :
    (WikipediaAdapter.fetchLogs toISOString respond url).title = "Main_Page" ∧
    (WikipediaAdapter.fetchLogs toISOString respond url).request =
      WikipediaAdapter.api "Main_Page" := by
  have := (wikiTitle_eq_none_iff url).2 h
  simp [WikipediaAdapter.fetchLogs, this]

/-- C18 amended, at the argument `/logs` that the terminal passes. -/
theorem C18_default_title_witness :
    (WikipediaAdapter.fetchLogs sampleClock (wikiAnswers "736" (some [])) "/logs").title =
      "Main_Page" ∧
    (WikipediaAdapter.fetchLogs sampleClock (wikiAnswers "736" (some [])) "/logs").request =
      WikipediaAdapter.api "Main_Page" :=
  C18_default_title sampleClock (wikiAnswers "736" (some [])) "/logs"
    ((wikiTitle_eq_none_iff "/logs").1 (by decide))

/-- C19: on a 2xx response with a JSON body, `WikipediaAdapter.fetchLogs`
rejects with `Wiki Page Not Found` when the first key of `query.pages` is `-1`,
rejects with `Invalid Wiki Response` when `query` or `query.pages` is missing,
and resolves with entries only when `pages` has a first key other than `-1`. -/
theorem C19_wiki_response (toISOString : MaybeString → Option String)
    (respond : String → HttpResponse WikiBody) (url : String) (json : WikiBody)
    (hok : (respond (WikipediaAdapter.fetchLogs toISOString respond url).request).ok = true)
    (hjson : (respond (WikipediaAdapter.fetchLogs toISOString respond url).request).json =
      some json) :
    (∀ page rest, json.query = some (some (("-1", page) :: rest)) →
      (WikipediaAdapter.fetchLogs toISOString respond url).result =
        .error "Wiki Page Not Found") ∧
    ((json.query = none ∨ json.query = some none) →
      (WikipediaAdapter.fetchLogs toISOString respond url).result =
        .error "Invalid Wiki Response") ∧
    (∀ out, (WikipediaAdapter.fetchLogs toISOString respond url).result = .ok out →
      ∃ pageId page rest, json.query = some (some ((pageId, page) :: rest)) ∧
        pageId ≠ "-1") := by
  have hres : (WikipediaAdapter.fetchLogs toISOString respond url).result =
      WikipediaAdapter.receive toISOString
        (respond (WikipediaAdapter.fetchLogs toISOString respond url).request) := rfl
  rw [hres, wikipedia_receive_ok _ _ hok, hjson]
  refine ⟨?_, ?_, ?_⟩
  · intro page rest hq
    simp [hq]
  · rintro (hq | hq) <;> simp [hq]
  · intro out hout
    cases hq : json.query with
    | none => simp [hq] at hout
    | some pages =>
      cases pages with
      | none => simp [hq] at hout
      | some l =>
        cases l with
        | nil => simp [hq] at hout
        | cons p rest =>
          obtain ⟨pageId, page⟩ := p
          refine ⟨pageId, page, rest, rfl, ?_⟩
          intro hid
          simp [hq, hid] at hout

/-- C19 at a 200 response whose only page has the id `-1`. -/
theorem C19_wiki_response_witness :
    (WikipediaAdapter.fetchLogs sampleClock (wikiAnswers "-1" none)
      "https://en.wikipedia.org/wiki/No_such_page").result = .error "Wiki Page Not Found" :=
  (C19_wiki_response sampleClock (wikiAnswers "-1" none)
    "https://en.wikipedia.org/wiki/No_such_page"
    { query := some (some [("-1", ⟨none⟩)]) } rfl rfl).1 ⟨none⟩ [] rfl

/-- C20, evaluated at a failing input: `FakeprodAdapter.fetchLogs` does not
look at the status; from a response with status 500 and a feed as body it
resolves with the normalized entry of that feed. -/
theorem C20_fakeprod_ignores_status :
    failedFeedResponse.ok = false ∧
    FakeprodAdapter.fetchLogs failedFeedResponse =
      .ok [{ timestamp := .undefined, service := .str "Database", level := "error",
             message := "[Database] Query timeout", cause := .undefined }] :=
  ⟨by decide, rfl⟩

/-! ## Lemmas on the entries that the adapters build -/

theorem normalizeEvent_ok {toISOString : MaybeString → Option String} {event : GitHubEvent}
    {e : NormalizedEntry} (h : GitHubAdapter.normalizeEvent toISOString event = .ok e) :
    e.level = "info" ∧ e.service = event.type ∧ e.cause = .null ∧
      ∃ name login, event.repo = some name ∧ event.actor = some login ∧
        e.message = "[" ++ name.toTemplate ++ "] " ++ login.toTemplate := by
  unfold GitHubAdapter.normalizeEvent at h
  cases hd : toISOString event.created_at with
  | none => rw [hd] at h; cases h
  | some iso =>
    cases hr : event.repo with
    | none => rw [hd, hr] at h; cases h
    | some name =>
      cases ha : event.actor with
      | none => rw [hd, hr, ha] at h; cases h
      | some login =>
        rw [hd, hr, ha] at h
        cases h
        exact ⟨rfl, rfl, rfl, name, login, rfl, rfl, rfl⟩

theorem normalizeEvent_returns {toISOString : MaybeString → Option String}
    {event : GitHubEvent} (h1 : ∃ iso, toISOString event.created_at = some iso)
    (h2 : ∃ name, event.repo = some name) (h3 : ∃ login, event.actor = some login) :
    ∃ e, GitHubAdapter.normalizeEvent toISOString event = .ok e := by
  obtain ⟨iso, h1⟩ := h1
  obtain ⟨name, h2⟩ := h2
  obtain ⟨login, h3⟩ := h3
  unfold GitHubAdapter.normalizeEvent
  rw [h1, h2, h3]
  exact ⟨_, rfl⟩

theorem normalizeItem_ok {subreddit : String} {item : FeedItem} {e : NormalizedEntry}
    (h : RedditAdapter.normalizeItem subreddit item = .ok e) :
    e.level = "info" ∧ ∃ title, item.title = .str title ∧
      e.service = .str (if firstWordSanitized title ≠ "" then firstWordSanitized title
                        else "r/" ++ subreddit) := by
  unfold RedditAdapter.normalizeItem at h
  cases hd : item.pubDate with
  | undefined => rw [hd] at h; cases h
  | null => rw [hd] at h; cases h
  | str d =>
    cases ht : item.title with
    | undefined => rw [hd, ht] at h; cases h
    | null => rw [hd, ht] at h; cases h
    | str title =>
      rw [hd, ht] at h
      cases h
      exact ⟨rfl, title, rfl, rfl⟩

theorem normalizeItem_returns {subreddit : String} {item : FeedItem}
    (h1 : ∃ d, item.pubDate = .str d) (h2 : ∃ t, item.title = .str t) :
    ∃ e, RedditAdapter.normalizeItem subreddit item = .ok e := by
  obtain ⟨d, h1⟩ := h1
  obtain ⟨t, h2⟩ := h2
  unfold RedditAdapter.normalizeItem
  rw [h1, h2]
  exact ⟨_, rfl⟩

theorem firstWordSanitized_alphanumeric (title : String) :
    ∀ c ∈ (firstWordSanitized title).data, isAlphanumeric c = true := by
  intro c hc
  simp only [firstWordSanitized] at hc
  exact (List.mem_filter.1 hc).2

theorem fallback_ne_empty (subreddit : String) : "r/" ++ subreddit ≠ "" := by
  intro h
  have := congrArg String.data h
  rw [String.data_append] at this
  cases this

theorem mapThrowing_length {α β : Type} (f : α → Except String β) (l : List α)
    (out : List β) (h : mapThrowing f l = .ok out) : out.length = l.length :=
  (mapThrowing_ok_forall₂ f l out h).length_eq

/-! ## The claims on the entries of the adapters -/

/-- C21: for an array of well-formed forge events (valid `created_at`, `repo`
and `actor` present) `GitHubAdapter.normalize` returns `min(30, n)` entries,
the i-th built from the i-th event: level `info`, service `event.type`, cause
`null`, message `[repo.name] actor.login`. -/
theorem C21_github_entries (toISOString : MaybeString → Option String)
    (data : List GitHubEvent)
    (hwf : ∀ ev ∈ data, (∃ iso, toISOString ev.created_at = some iso) ∧
      (∃ name, ev.repo = some name) ∧ ∃ login, ev.actor = some login) :
    ∃ out, GitHubAdapter.normalize toISOString data = .ok out ∧
      out.length = min 30 data.length ∧
      List.Forall₂
        (fun e ev => e.level = "info" ∧ e.service = ev.type ∧ e.cause = .null ∧
          ∃ name login, ev.repo = some name ∧ ev.actor = some login ∧
            e.message = "[" ++ name.toTemplate ++ "] " ++ login.toTemplate)
        out (data.take 30) := by
  obtain ⟨out, hout⟩ := mapThrowing_returns (GitHubAdapter.normalizeEvent toISOString)
    (data.take 30) (fun ev hev => by
      obtain ⟨h1, h2, h3⟩ := hwf ev (List.mem_of_mem_take hev)
      exact normalizeEvent_returns h1 h2 h3)
  refine ⟨out, hout, ?_, ?_⟩
  · rw [mapThrowing_length _ _ _ hout, List.length_take]
  · exact (mapThrowing_ok_forall₂ _ _ _ hout).imp (fun _ _ h => normalizeEvent_ok h)

/-- C21 at an array of 31 equal events: 30 entries come out. -/
theorem C21_github_entries_witness :
    ∃ out, GitHubAdapter.normalize sampleClock (List.replicate 31 pushEvent) = .ok out ∧
      out.length = min 30 (List.replicate 31 pushEvent).length ∧
      List.Forall₂
        (fun e ev => e.level = "info" ∧ e.service = ev.type ∧ e.cause = .null ∧
          ∃ name login, ev.repo = some name ∧ ev.actor = some login ∧
            e.message = "[" ++ name.toTemplate ++ "] " ++ login.toTemplate)
        out ((List.replicate 31 pushEvent).take 30) :=
  C21_github_entries sampleClock (List.replicate 31 pushEvent) (by
    intro ev hev
    rw [List.eq_of_mem_replicate hev]
    exact ⟨⟨_, rfl⟩, ⟨_, rfl⟩, ⟨_, rfl⟩⟩)

/-- C22: when `RedditAdapter.normalize` returns, it has kept the first 30
items in order; each entry has level `info` and as service the first word of
the title (the text before the first space) without its non-alphanumeric
characters, or `r/` followed by the subreddit when nothing is left of it.  The
service is never empty, and is alphanumeric or that fallback.  It returns
whenever every item has a `pubDate` and a `title`. -/
theorem C22_reddit_entries (subreddit : String) (data : List FeedItem) :
    (∀ out, RedditAdapter.normalize subreddit data = .ok out →
      out.length = min 30 data.length ∧
      List.Forall₂
        (fun e item => e.level = "info" ∧
          (∃ title, item.title = .str title ∧
            ((firstWordSanitized title ≠ "" ∧ e.service = .str (firstWordSanitized title)) ∨
             (firstWordSanitized title = "" ∧ e.service = .str ("r/" ++ subreddit)))) ∧
          e.service ≠ .str "" ∧
          ((∃ w, e.service = .str w ∧ ∀ c ∈ w.data, isAlphanumeric c = true) ∨
            e.service = .str ("r/" ++ subreddit)))
        out (data.take 30)) ∧
    ((∀ item ∈ data, (∃ d, item.pubDate = .str d) ∧ ∃ t, item.title = .str t) →
      ∃ out, RedditAdapter.normalize subreddit data = .ok out) := by
  constructor
  · intro out hout
    refine ⟨by rw [mapThrowing_length _ _ _ hout, List.length_take], ?_⟩
    refine (mapThrowing_ok_forall₂ _ _ _ hout).imp (fun e item h => ?_)
    obtain ⟨hl, title, ht, hs⟩ := normalizeItem_ok h
    by_cases hw : firstWordSanitized title = ""
    · have hs' : e.service = .str ("r/" ++ subreddit) := by simpa [hw] using hs
      refine ⟨hl, ⟨title, ht, Or.inr ⟨hw, hs'⟩⟩, ?_, Or.inr hs'⟩
      rw [hs']
      intro h'
      exact fallback_ne_empty subreddit (MaybeString.str.inj h')
    · have hs' : e.service = .str (firstWordSanitized title) := by simpa [hw] using hs
      refine ⟨hl, ⟨title, ht, Or.inl ⟨hw, hs'⟩⟩, ?_,
        Or.inl ⟨_, hs', firstWordSanitized_alphanumeric title⟩⟩
      rw [hs']
      intro h'
      exact hw (MaybeString.str.inj h')
  · intro hwf
    exact mapThrowing_returns _ _ (fun item hitem => by
      obtain ⟨h1, h2⟩ := hwf item (List.mem_of_mem_take hitem)
      exact normalizeItem_returns h1 h2)

/-- C22 at two items: the title `!!! wow` gives the fallback `r/rust`, the
title `[Show] my project` gives `Show`. -/
theorem C22_reddit_entries_witness :
    ∃ out, RedditAdapter.normalize "rust" [itemWithoutWord, itemShow] = .ok out ∧
      out.map (fun e => e.service) = [.str "r/rust", .str "Show"] ∧
      out.length = min 30 [itemWithoutWord, itemShow].length := by
  obtain ⟨out, hout⟩ := (C22_reddit_entries "rust" [itemWithoutWord, itemShow]).2
    (by simp [itemWithoutWord, itemShow])
  refine ⟨out, hout, ?_, ((C22_reddit_entries "rust" [itemWithoutWord, itemShow]).1 out hout).1⟩
  have : RedditAdapter.normalize "rust" [itemWithoutWord, itemShow] = .ok
      [{ timestamp := .str "12:34:56", service := .str "r/rust", level := "info",
         message := "[bob] !!! wow...", cause := .null },
       { timestamp := .str "12:40:00", service := .str "Show", level := "info",
         message := "[carol] [Show] my project...", cause := .null }] := by rfl
  rw [this] at hout
  cases hout
  rfl

/-- C23: the entry that `FakeprodAdapter.normalize` builds from a raw event has
the message `[service] event`, followed by ` - cause` exactly when the raw
cause is present and not `Normal operation`; its cause is `null` when the raw
cause is `Normal operation` and the raw cause otherwise; its timestamp is the
raw `time`.  The suffix is there exactly when the output cause is a non-empty
string.  An entry is built whenever the raw event has an event text. -/
theorem C23_message_and_cause (entry : RawEvent) :
    (∀ out, FakeprodAdapter.normalizeEntry entry = .ok out →
      (hasGivenCause entry → ∃ c, entry.cause = .str c ∧
        out.message =
          "[" ++ entry.service.toTemplate ++ "] " ++ entry.event.toTemplate ++ (" - " ++ c)) ∧
      (¬ hasGivenCause entry →
        out.message = "[" ++ entry.service.toTemplate ++ "] " ++ entry.event.toTemplate) ∧
      (entry.cause = .str "Normal operation" → out.cause = .null) ∧
      (entry.cause ≠ .str "Normal operation" → out.cause = entry.cause) ∧
      out.timestamp = entry.time ∧
      (hasGivenCause entry ↔ ∃ c, out.cause = .str c ∧ c ≠ "")) ∧
    ((∃ event, entry.event = .str event) →
      ∃ out, FakeprodAdapter.normalizeEntry entry = .ok out) := by
  constructor
  · intro out hout
    rw [normalizeEntry_eq] at hout
    cases hl : FakeprodAdapter.levelOf entry with
    | error e => rw [hl] at hout; cases hout
    | ok level =>
      rw [hl] at hout
      cases hout
      have hiff := hasAbnormalCause_iff entry
      refine ⟨?_, ?_, ?_, ?_, rfl, ?_⟩
      · intro hg
        obtain ⟨c, hc, _, _⟩ := hg
        refine ⟨c, hc, ?_⟩
        have : entry.hasAbnormalCause = true := hiff.2 ⟨c, hc, ‹_›, ‹_›⟩
        simp only [this, if_true, hc, MaybeString.toTemplate]
      · intro hg
        have : entry.hasAbnormalCause = false := by
          cases h : entry.hasAbnormalCause with
          | false => rfl
          | true => exact absurd (hiff.1 h) hg
        simp [this]
      · intro hc
        simp only [hc, if_true]
      · intro hc
        simp only [hc, if_false]
      · constructor
        · rintro ⟨c, hc, hne, hno⟩
          refine ⟨c, ?_, hne⟩
          have : entry.cause ≠ .str "Normal operation" := by
            rw [hc]
            intro h
            exact hno (MaybeString.str.inj h)
          show (if entry.cause = .str "Normal operation" then MaybeString.null
            else entry.cause) = .str c
          rw [if_neg this, hc]
        · rintro ⟨c, hc, hne⟩
          by_cases hn : entry.cause = .str "Normal operation"
          · simp only [hn, if_true] at hc
            cases hc
          · simp only [hn, if_false] at hc
            refine ⟨c, hc, hne, ?_⟩
            intro h
            exact hn (by rw [hc, h])
  · rintro ⟨event, hev⟩
    have hl : ∃ level, FakeprodAdapter.levelOf entry = .ok level := by
      cases htr : entry.level.truthy with
      | false =>
        rw [levelOf_of_no_level htr]
        obtain ⟨level, hlevel, _⟩ := heuristicLevel_of_event hev
        exact ⟨level, hlevel⟩
      | true =>
        cases hlv : entry.level with
        | undefined => rw [hlv] at htr; cases htr
        | null => rw [hlv] at htr; cases htr
        | str l =>
          rw [hlv] at htr
          exact ⟨_, levelOf_of_level hlv (by simpa [MaybeString.truthy] using htr)⟩
    obtain ⟨level, hlevel⟩ := hl
    obtain ⟨o, ho, _⟩ := normalizeEntry_returns hlevel
    exact ⟨o, ho⟩

/-- C23 at a raw event with the cause `Concurrent writes`. -/
theorem C23_message_and_cause_witness :
    ∃ out, FakeprodAdapter.normalizeEntry rawDeadlock = .ok out ∧
      out.message = "[Database] Deadlock detected - Concurrent writes" ∧
      out.cause = .str "Concurrent writes" ∧ out.timestamp = .str "12:03" := by
  obtain ⟨out, hout⟩ := (C23_message_and_cause rawDeadlock).2 ⟨_, rfl⟩
  obtain ⟨h1, _, _, h4, h5, _⟩ := (C23_message_and_cause rawDeadlock).1 out hout
  obtain ⟨c, hc, hm⟩ := h1 ⟨"Concurrent writes", rfl, by decide, by decide⟩
  cases hc
  exact ⟨out, hout, hm, h4 (by decide), h5⟩

/-! ## Lemmas on causes, totals and the two histograms -/

theorem setAdd_nodup {s : List String} (x : String) (h : s.Nodup) : (setAdd s x).Nodup := by
  unfold setAdd
  split
  · exact h
  · rename_i hx
    exact List.nodup_append.2 ⟨h, List.nodup_singleton x, by
      intro y hy hy'
      simp at hy'
      subst hy'
      exact hx hy⟩

theorem mem_setAdd (s : List String) (x y : String) : y ∈ setAdd s x ↔ y ∈ s ∨ y = x := by
  unfold setAdd
  split
  · rename_i hx
    constructor
    · exact Or.inl
    · rintro (h | h)
      · exact h
      · exact h ▸ hx
  · simp

theorem tallyStep_causes (s : String) (v : ServiceStats) (log : LogEntry)
    (hnd : v.causes.Nodup) :
    (tallyStep s v log).causes.Nodup ∧
    ∀ c, c ∈ (tallyStep s v log).causes ↔
      c ∈ v.causes ∨ (log.service = s ∧ log.level = "error" ∧ log.cause = some c ∧ c ≠ "") := by
  unfold tallyStep
  by_cases hs : log.service = s
  · by_cases hl : log.level = "error"
    · cases hc : log.cause with
      | none => simp [hs, hl, countError, hnd]
      | some x =>
        by_cases hx : x = ""
        · subst hx
          simp only [hs, hl, if_true, countError]
          refine ⟨hnd, fun c => ?_⟩
          constructor
          · exact Or.inl
          · rintro (h | ⟨_, _, h, hne⟩)
            · exact h
            · cases h
              exact absurd rfl hne
        · simp only [hs, hl, if_true, countError, hx, if_false]
          refine ⟨setAdd_nodup x hnd, fun c => ?_⟩
          rw [mem_setAdd]
          constructor
          · rintro (h | h)
            · exact Or.inl h
            · subst h
              exact Or.inr ⟨trivial, trivial, rfl, hx⟩
          · rintro (h | ⟨_, _, h, _⟩)
            · exact Or.inl h
            · cases h
              exact Or.inr rfl
    · simp [hs, hl, countOther, hnd]
  · simp [hs, hnd]

theorem foldl_tallyStep_causes (s : String) (logs : List LogEntry) :
    ∀ v : ServiceStats, v.causes.Nodup →
      (logs.foldl (tallyStep s) v).causes.Nodup ∧
      ∀ c, c ∈ (logs.foldl (tallyStep s) v).causes ↔ c ∈ v.causes ∨ isErrorCause logs s c := by
  induction logs with
  | nil =>
    intro v hnd
    refine ⟨hnd, fun c => ?_⟩
    simp [isErrorCause]
  | cons log t ih =>
    intro v hnd
    obtain ⟨h1, h2⟩ := tallyStep_causes s v log hnd
    obtain ⟨i1, i2⟩ := ih (tallyStep s v log) h1
    refine ⟨i1, fun c => ?_⟩
    rw [List.foldl_cons, i2, h2]
    unfold isErrorCause
    constructor
    · rintro ((h | h) | ⟨l, hl, h⟩)
      · exact Or.inl h
      · exact Or.inr ⟨log, List.mem_cons_self _ _, h⟩
      · exact Or.inr ⟨l, List.mem_cons_of_mem _ hl, h⟩
    · rintro (h | ⟨l, hl, h⟩)
      · exact Or.inl (Or.inl h)
      · rcases List.mem_cons.1 hl with e | e
        · subst e
          exact Or.inl (Or.inr h)
        · exact Or.inr ⟨l, e, h⟩

/-- For every service other than `__proto__` the returned record holds in
`causes` exactly the distinct present causes of the `error` entries of the service. -/
theorem causes_of_service {logs : List LogEntry} {r : Analysis}
    (h : performLogAnalysis logs = .ok r) (s : String)
    (hs : ∃ log ∈ logs, log.service = s) (hproto : s ≠ "__proto__") :
    ∃ st, getOwn r.stats s = some st ∧ st.causes.Nodup ∧
      ∀ c, c ∈ st.causes ↔ isErrorCause logs s c := by
  refine ⟨finalStats s logs, stats_getOwn h s ((mem_statsKeys logs s).2 ⟨hs, hproto⟩), ?_⟩
  have hd := (deriveStatus_fields (logs.foldl (tallyStep s) (blankStats s))).2.2.2.2
  obtain ⟨h1, h2⟩ := foldl_tallyStep_causes s logs (blankStats s) (by simp [blankStats])
  unfold finalStats
  rw [hd]
  refine ⟨h1, fun c => ?_⟩
  rw [h2]
  simp [blankStats]

theorem countService_split (s : String) (logs : List LogEntry) :
    countService s logs = countServiceErrors s logs + countServiceOthers s logs := by
  unfold countService countServiceErrors countServiceOthers
  induction logs with
  | nil => rfl
  | cons l t ih =>
    simp only [List.countP_cons, ih]
    by_cases h1 : l.service = s <;> by_cases h2 : l.level = "error" <;> simp [h1, h2] <;> omega

/-- In every returned record `total = errors + info`. -/
theorem record_total {logs : List LogEntry} {r : Analysis}
    (h : performLogAnalysis logs = .ok r) (p : String × ServiceStats) (hp : p ∈ r.stats) :
    p.2.total = p.2.errors + p.2.info := by
  obtain ⟨_, hfin⟩ := stats_mem h p hp
  obtain ⟨_, f2, f3, f4⟩ := finalStats_fields p.1 logs
  rw [hfin, f2, f3, f4]
  exact countService_split p.1 logs

theorem modifyOwn_valueSum {κ : Type} [DecidableEq κ] (k : κ) (f : Nat → Nat) :
    ∀ (o : List (κ × Nat)) (w : Nat), (keysOf o).Nodup → getOwn o k = some w →
      valueSum (modifyOwn o k f) + w = valueSum o + f w := by
  intro o
  induction o with
  | nil => intro w _ h; simp [getOwn] at h
  | cons p t ih =>
    intro w hnd hg
    simp only [keysOf, List.map_cons, List.nodup_cons] at hnd
    rw [getOwn_cons] at hg
    rw [modifyOwn_cons]
    by_cases hp : p.1 = k
    · rw [if_pos hp] at hg
      rw [if_pos hp]
      cases hg
      have htail : modifyOwn t k f = t := by
        unfold modifyOwn
        calc t.map (fun q => if q.1 = k then (q.1, f q.2) else q)
            = t.map id := by
              apply List.map_congr_left
              intro q hq
              have : ¬ q.1 = k := by
                intro e
                exact hnd.1 (hp ▸ e ▸ List.mem_map_of_mem Prod.fst hq)
              simp [this]
          _ = t := List.map_id _
      simp only [valueSum, List.map_cons, List.sum_cons, htail]
      omega
    · rw [if_neg hp] at hg
      rw [if_neg hp]
      have := ih w hnd.2 hg
      simp only [valueSum, List.map_cons, List.sum_cons] at this ⊢
      omega

theorem putOwn_keys_nodup {κ : Type} [DecidableEq κ] [PropertyKey κ] (o : List (κ × Nat))
    (k : κ) (v : Nat)
    (hnd : (keysOf o).Nodup) : (keysOf (putOwn o k v)).Nodup := by
  unfold putOwn
  cases hg : getOwn o k with
  | none =>
    have hk := (getOwn_eq_none_iff o k).1 hg
    have hp := (addOwn_perm o k v).map Prod.fst
    exact hp.nodup_iff.2 (List.nodup_cons.2 ⟨hk, hnd⟩)
  | some w =>
    show (keysOf (modifyOwn o k (fun _ => v))).Nodup
    rw [modifyOwn_keys]
    exact hnd

theorem bumpBucket_valueSum (o : List (List Nat × Nat)) (k : List Nat)
    (hnd : (keysOf o).Nodup) : valueSum (bumpBucket o k) = valueSum o + 1 := by
  unfold bumpBucket putOwn
  cases hg : getOwn o k with
  | none =>
    have hp := ((addOwn_perm o k (0 + 1)).map (fun p => p.2)).sum_eq
    simp only [Option.getD_none, valueSum]
    rw [hp]
    simp
    omega
  | some w =>
    have := modifyOwn_valueSum k (fun _ => w + 1) o w hnd hg
    simp only [Option.getD_some] at this ⊢
    omega

theorem foldl_timelineStep_valueSum (logs : List LogEntry) :
    ∀ tl : List (List Nat × Nat), (keysOf tl).Nodup →
      (∀ log ∈ logs, log.level = "error" → log.timestamp ≠ none) →
      valueSum (logs.foldl timelineStep tl) = valueSum tl + countErrors logs := by
  induction logs with
  | nil => intro tl _ _; simp [countErrors]
  | cons log t ih =>
    intro tl hnd hts
    have htail := fun l hl => hts l (List.mem_cons_of_mem _ hl)
    rw [List.foldl_cons]
    by_cases hl : log.level = "error"
    · cases hc : log.timestamp with
      | none => exact absurd hc (hts log (List.mem_cons_self _ _) hl)
      | some ts =>
        have hstep : timelineStep tl log = bumpBucket tl (substring05 ts) := by
          simp [timelineStep, hl, hc]
        rw [hstep, ih (bumpBucket tl (substring05 ts)) (putOwn_keys_nodup _ _ _ hnd) htail,
          bumpBucket_valueSum _ _ hnd]
        simp only [countErrors, List.countP_cons, hl, decide_True, if_true]
        omega
    · have hstep : timelineStep tl log = tl := by simp [timelineStep, hl]
      rw [hstep, ih _ hnd htail]
      simp [countErrors, List.countP_cons, hl]

theorem foldlM_chartStep_returns (logs : List LogEntry)
    (hts : ∀ log ∈ logs, log.level = "error" → log.timestamp ≠ none) :
    ∀ tl : List (List Nat × Nat),
      logs.foldlM renderErrorChart.step tl = .ok (logs.foldl timelineStep tl) := by
  induction logs with
  | nil => intro tl; rfl
  | cons log t ih =>
    intro tl
    have htail := fun l hl => hts l (List.mem_cons_of_mem _ hl)
    rw [List.foldlM_cons, List.foldl_cons]
    by_cases hl : log.level = "error"
    · cases hc : log.timestamp with
      | none => exact absurd hc (hts log (List.mem_cons_self _ _) hl)
      | some ts =>
        have h1 : renderErrorChart.step tl log = .ok (timelineStep tl log) := by
          simp only [renderErrorChart.step, timelineStep, hl, hc, if_true]
          rfl
        rw [h1]
        exact ih htail _
    · have h1 : renderErrorChart.step tl log = .ok (timelineStep tl log) := by
        simp only [renderErrorChart.step, timelineStep, hl, if_false]
        rfl
      rw [h1]
      exact ih htail _

theorem foldlM_chartStep_ok (logs : List LogEntry) :
    ∀ tl m : List (List Nat × Nat), logs.foldlM renderErrorChart.step tl = .ok m →
      ∀ log ∈ logs, log.level = "error" → log.timestamp ≠ none := by
  induction logs with
  | nil => intro tl m _ log hl; cases hl
  | cons log t ih =>
    intro tl m h l hl
    rw [List.foldlM_cons] at h
    cases h1 : renderErrorChart.step tl log with
    | error e => rw [h1] at h; cases h
    | ok tl1 =>
      rw [h1] at h
      rcases List.mem_cons.1 hl with e | e
      · subst e
        intro hlev hnone
        simp only [renderErrorChart.step, hlev, hnone, if_true] at h1
        cases h1
      · exact ih tl1 m h l e

theorem logStep_message {st : PassState} {log : LogEntry} {e : String}
    (h : logStep st log = .error e) :
    e = "TypeError: Cannot read properties of undefined (reading 'substring')" := by
  unfold logStep at h
  simp only at h
  split at h
  · cases h
  · split at h
    · split at h
      · exact (Except.error.inj h).symm
      · cases h
    · cases h

theorem foldlM_logStep_message (logs : List LogEntry) :
    ∀ (st : PassState) (e : String), logs.foldlM logStep st = .error e →
      e = "TypeError: Cannot read properties of undefined (reading 'substring')" := by
  induction logs with
  | nil => intro st e h; cases h
  | cons log t ih =>
    intro st e h
    rw [List.foldlM_cons] at h
    cases h1 : logStep st log with
    | error e1 =>
      rw [h1] at h
      cases h
      exact logStep_message h1
    | ok st1 =>
      rw [h1] at h
      exact ih st1 e h

theorem chartStep_message {tl : List (List Nat × Nat)} {log : LogEntry} {e : String}
    (h : renderErrorChart.step tl log = .error e) :
    e = "TypeError: Cannot read properties of undefined (reading 'substring')" := by
  unfold renderErrorChart.step at h
  split at h
  · split at h
    · exact (Except.error.inj h).symm
    · cases h
  · cases h

theorem foldlM_chartStep_message (logs : List LogEntry) :
    ∀ (tl : List (List Nat × Nat)) (e : String), logs.foldlM renderErrorChart.step tl = .error e →
      e = "TypeError: Cannot read properties of undefined (reading 'substring')" := by
  induction logs with
  | nil => intro tl e h; cases h
  | cons log t ih =>
    intro tl e h
    rw [List.foldlM_cons] at h
    cases h1 : renderErrorChart.step tl log with
    | error e1 =>
      rw [h1] at h
      cases h
      exact chartStep_message h1
    | ok tl1 =>
      rw [h1] at h
      exact ih tl1 e h

/-- The chart returns exactly when the analysis returns. -/
theorem timeMap_eq (logs : List LogEntry) :
    renderErrorChart.timeMap logs =
      (performLogAnalysis logs).map (fun r => r.timelineData) := by
  cases hp : performLogAnalysis logs with
  | ok r =>
    obtain ⟨_, htl, _, hts⟩ := performLogAnalysis_ok hp
    show renderErrorChart.timeMap logs = .ok r.timelineData
    rw [htl]
    exact foldlM_chartStep_returns logs hts []
  | error e =>
    show renderErrorChart.timeMap logs = .error e
    cases hc : renderErrorChart.timeMap logs with
    | ok m =>
      obtain ⟨r, hr⟩ := performLogAnalysis_returns logs (foldlM_chartStep_ok logs [] m hc)
      rw [hr] at hp
      cases hp
    | error e1 =>
      rw [performLogAnalysis_eq] at hp
      cases hf : logs.foldlM logStep (startState logs) with
      | ok st => rw [hf] at hp; cases hp
      | error e2 =>
        rw [hf] at hp
        cases hp
        rw [foldlM_chartStep_message logs [] e1 hc, foldlM_logStep_message logs _ _ hf]

/-- For every adapter other than the wiki one the requested address does not
depend on the argument of `fetchLogs`. -/
theorem requestUrl_of_not_wikipedia (encodeURIComponent : String → String)
    (s : SourceManager) (h : ∀ t, s.adapter ≠ .wikipedia t) (x1 x2 : String) :
    SourceManager.requestUrl encodeURIComponent s x1 =
      SourceManager.requestUrl encodeURIComponent s x2 := by
  unfold SourceManager.requestUrl
  cases ha : s.adapter with
  | fakeprod => rfl
  | github => rfl
  | reddit sub => rfl
  | wikipedia t => exact absurd ha (h t)

/-- With a configured key and cached logs, a failing first request is followed
by exactly one more request, and a failing second request gives the `AI Error`
string. -/
theorem askGemini_first_fails (key : String) (logs : List NormalizedEntry)
    (first second : GeminiReply) (hk : ¬ (key = "" ∨ includes key "PASTE_YOUR"))
    (hl : (logs.take 30).length ≠ 0) (msg : String)
    (h1 : safeFetch.outcome first = .error msg) :
    (askGemini (.str key) (some logs) first second).requests =
      [safeFetch.url key "gemini-1.5-flash", safeFetch.url key "gemini-pro"] ∧
    (∀ m, safeFetch.outcome second = .error m →
      (askGemini (.str key) (some logs) first second).answer =
        "AI Error: " ++ m ++ ". (Checked Flash & Pro)") ∧
    (∀ t, safeFetch.outcome second = .ok t →
      (askGemini (.str key) (some logs) first second).answer = t) := by
  unfold askGemini
  simp only [if_neg hk, if_neg hl, h1]
  cases h2 : safeFetch.outcome second with
  | ok t =>
    refine ⟨rfl, ?_, ?_⟩
    · intro m hm; cases hm
    · intro t1 ht; cases ht; rfl
  | error m =>
    refine ⟨rfl, ?_, ?_⟩
    · intro m1 hm; cases hm; rfl
    · intro t ht; cases ht

/-! ## The claims on the adapters, the assistant and the views -/

/-- C24, evaluated at a failing input: the single entry has service `__proto__`,
level `error` and the cause `Pool saturation`; the returned `stats` has no record
under `__proto__`, so no `causes` set holds the cause. -/
theorem C24_causes_miss_proto_service :
    ∃ r, performLogAnalysis protoCauseLogs = .ok r ∧
      isErrorCause protoCauseLogs "__proto__" "Pool saturation" ∧
      getOwn r.stats "__proto__" = none ∧ r.stats = [] :=
  ⟨_, rfl, ⟨_, List.mem_cons_self _ _, rfl, rfl, rfl, by decide⟩, by decide, by decide⟩

/-- C25, evaluated at a failing input: the first request meets status 500, the
second an answer.  Both requests go to the same address, which names the model
`gemini-2.5-flash`; the names `gemini-1.5-flash` and `gemini-pro` passed to
`safeFetch` occur in neither. -/
theorem C25_retry_addresses_same_model :
    askGemini (.str "KEY") (some [cachedEntry]) replyServerError replyAnswer =
      { requests :=
          ["https://generativelanguage.googleapis.com/v1beta/models/gemini-2.5-flash:generateContent?key=KEY",
           "https://generativelanguage.googleapis.com/v1beta/models/gemini-2.5-flash:generateContent?key=KEY"]
        answer := "The database connection pool was exhausted." } ∧
    safeFetch.url "KEY" "gemini-pro" = safeFetch.url "KEY" "gemini-1.5-flash" ∧
    includes (safeFetch.url "KEY" "gemini-pro") "gemini-pro" = false := by
  decide

/-- C26: the status of `initHealthMap` is `healthy` exactly when no log of the
list has level `error`, `degraded` exactly when 1 or 2 have and `failing`
exactly when more than 2 have, as the legend says, and `calculateServiceRisk`
gives `STABLE`, `WARNING` and `CRITICAL` on the same three bands, whatever the
random numbers are. -/
theorem C26_health_bands (first second : Nat → Nat) (name : String) (logs : List RawEvent) :
    (initHealthMap.status logs = "healthy" ↔
      logs.countP (fun l => decide (l.level = .str "error")) = 0) ∧
    (initHealthMap.status logs = "degraded" ↔
      logs.countP (fun l => decide (l.level = .str "error")) = 1 ∨
      logs.countP (fun l => decide (l.level = .str "error")) = 2) ∧
    (initHealthMap.status logs = "failing" ↔
      2 < logs.countP (fun l => decide (l.level = .str "error"))) ∧
    ((calculateServiceRisk first second name logs).level = "STABLE" ↔
      logs.countP (fun l => decide (l.level = .str "error")) = 0) ∧
    ((calculateServiceRisk first second name logs).level = "WARNING" ↔
      logs.countP (fun l => decide (l.level = .str "error")) = 1 ∨
      logs.countP (fun l => decide (l.level = .str "error")) = 2) ∧
    ((calculateServiceRisk first second name logs).level = "CRITICAL" ↔
      2 < logs.countP (fun l => decide (l.level = .str "error"))) := by
  have he : logs.countP (fun l => decide (l.level = .str "error")) = errorCount logs := by
    unfold errorCount
    rw [List.countP_eq_length_filter]
  rw [he]
  unfold initHealthMap.status calculateServiceRisk
  by_cases h2 : errorCount logs > 2
  · simp only [if_pos h2]
    refine ⟨?_, ?_, ?_, ?_, ?_, ?_⟩ <;> constructor <;> intro h <;>
      first | trivial | omega
  · by_cases h0 : errorCount logs > 0
    · simp only [if_neg h2, if_pos h0]
      refine ⟨?_, ?_, ?_, ?_, ?_, ?_⟩ <;> constructor <;> intro h <;>
        first | trivial | omega
    · simp only [if_neg h2, if_neg h0]
      refine ⟨?_, ?_, ?_, ?_, ?_, ?_⟩ <;> constructor <;> intro h <;>
        first | trivial | omega

/-- C26 at concrete lists with 0, 1 and 3 `error` logs among logs of other
levels and logs without level. -/
theorem C26_health_bands_witness :
    initHealthMap.status noErrorLogs = "healthy" ∧
    initHealthMap.status oneErrorLogs = "degraded" ∧
    initHealthMap.status threeErrorLogs = "failing" ∧
    (calculateServiceRisk (fun _ => 0) (fun _ => 0) "Cards" noErrorLogs).level = "STABLE" ∧
    (calculateServiceRisk (fun _ => 0) (fun _ => 0) "Database" oneErrorLogs).level = "WARNING" ∧
    (calculateServiceRisk (fun _ => 0) (fun _ => 0) "Database" threeErrorLogs).level =
      "CRITICAL" :=
  ⟨(C26_health_bands (fun _ => 0) (fun _ => 0) "Cards" noErrorLogs).1.2 (by decide),
   (C26_health_bands (fun _ => 0) (fun _ => 0) "Database" oneErrorLogs).2.1.2
     (Or.inl (by decide)),
   (C26_health_bands (fun _ => 0) (fun _ => 0) "Database" threeErrorLogs).2.2.1.2
     (by decide),
   (C26_health_bands (fun _ => 0) (fun _ => 0) "Cards" noErrorLogs).2.2.2.1.2 (by decide),
   (C26_health_bands (fun _ => 0) (fun _ => 0) "Database" oneErrorLogs).2.2.2.2.1.2
     (Or.inl (by decide)),
   (C26_health_bands (fun _ => 0) (fun _ => 0) "Database" threeErrorLogs).2.2.2.2.2.2
     (by decide)⟩

/-- C27, evaluated at a failing input: after `connect` on the address of the
page `India` the label is `Wiki: India`, yet `fetchLogs('/logs')` requests the
revisions of `Main_Page`, while `fetchLogs` on the original address requests
those of `India`. -/
theorem C27_request_depends_on_argument :
    SourceManager.initial.connect wikiIndiaUrl =
      (some "Connected to Wikipedia: India",
        { currentSource := "Wiki: India", adapter := .wikipedia none }) ∧
    SourceManager.requestUrl plainEncoding (SourceManager.initial.connect wikiIndiaUrl).2 "/logs" =
      "https://en.wikipedia.org/w/api.php?action=query&format=json&prop=revisions&titles=Main_Page&rvprop=timestamp|user|comment&limit=30&origin=*" ∧
    SourceManager.requestUrl plainEncoding (SourceManager.initial.connect wikiIndiaUrl).2
        wikiIndiaUrl =
      "https://en.wikipedia.org/w/api.php?action=query&format=json&prop=revisions&titles=India&rvprop=timestamp|user|comment&limit=30&origin=*" := by
  decide

/-- C28, evaluated at a failing input: two entries, one of them of service
`__proto__`; the `total` fields of the returned records add up to 1. -/
theorem C28_total_sum_misses_proto_service :
    ∃ r, performLogAnalysis protoTotalLogs = .ok r ∧
      (r.stats.map (fun p => p.2.total)).sum = 1 ∧ protoTotalLogs.length = 2 :=
  ⟨_, rfl, by decide, by decide⟩

/-- C29: `renderErrorChart` builds its bucket map exactly when
`performLogAnalysis` returns (both throw on an `error` entry without timestamp),
the map is then equal to the returned `timelineData`, keys, counts and key order,
and its counts add up to the number of `error` entries. -/
theorem C29_histograms_agree (logs : List LogEntry) :
    renderErrorChart.timeMap logs =
      (performLogAnalysis logs).map (fun r => r.timelineData) ∧
    ∀ m, renderErrorChart.timeMap logs = .ok m → valueSum m = countErrors logs := by
  refine ⟨timeMap_eq logs, fun m hm => ?_⟩
  have hts := foldlM_chartStep_ok logs [] m hm
  have hm2 := foldlM_chartStep_returns logs hts []
  have e : m = logs.foldl timelineStep [] := by
    have := hm.symm.trans hm2
    exact Except.ok.inj this
  rw [e, foldl_timelineStep_valueSum logs [] (by simp [keysOf]) hts]
  simp [valueSum]

/-- C29 at a concrete input: two errors in the minute `12:02` and an `info` entry. -/
theorem C29_histograms_agree_witness :
    renderErrorChart.timeMap bucketLogs = .ok [(toCodeUnits "12:02", 2)] ∧
    performLogAnalysis bucketLogs = .ok bucketResult ∧
    valueSum [(toCodeUnits "12:02", 2)] = countErrors bucketLogs :=
  ⟨rfl, rfl, (C29_histograms_agree bucketLogs).2 _ rfl⟩

set_option maxRecDepth 100000 in
/-- C30, evaluated at the built-in data: at offset 16 the clock is `12:16` and
only `Database` is `healthy`; the seven services whose latest log is an `info`
log with cause `Recovery` are `failing`. -/
theorem C30_replay_end_not_all_healthy :
    replayClock 16 = "12:16" ∧
    updateReplayVisuals.serviceHealth timelineReplayData 16 =
      [("Database", "healthy"), ("API Gateway", "failing"), ("Auth", "failing"),
       ("Payment", "failing"), ("Cards", "failing"), ("Notifications", "failing"),
       ("Analytics", "failing"), ("Storage", "failing")] := by
  decide

end Minions
